import Mathlib

/-!
# SuperChip8: memory, registers, opcode decoder, display buffer and execution engine

A shallow embedding of the emulator core of `reddcarp/SuperChip8`.

Conventions of the embedding.

* Machine integers are natural numbers. A value stored into a `std::uint8_t`
  goes through `u8` (reduction modulo 256), one stored into a `std::uint16_t`
  through `u16` (modulo 65536); an 8-bit subtraction goes through `sub8`.
* A `std::array<T, n>` is a total function `Nat → T` of which only the indices
  below `n` are cells of the array. Operations that fill or copy an array touch
  the indices below `n` only.
* A `std::error_code &ec` out-parameter is threaded explicitly: a function takes
  the incoming code and returns the outgoing one. `none` is the cleared code.
  A function that does not fail leaves the code it was given untouched, exactly
  as the C++ does.
* A counted ascending `for` loop is `forLoop lo hi body`.
-/

namespace SuperChip8

/-! ## Machine arithmetic and loops -/

/-- Conversion of a non-negative `int` value to `std::uint8_t`. -/
def u8 (n : Nat) : Nat := n % 256

/-- Conversion of a non-negative `int` value to `std::uint16_t`. -/
def u16 (n : Nat) : Nat := n % 65536

/-- The `std::uint8_t` result of `a - b` computed in `int` and stored back into a byte. -/
def sub8 (a b : Nat) : Nat := (((a : Int) - (b : Int)) % 256).toNat

/-- The loop `for (i = lo; i < hi; i++) s = body(i, s)`. -/
def forLoop {σ : Type} (lo hi : Nat) (body : Nat → σ → σ) (s : σ) : σ :=
  (List.range' lo (hi - lo)).foldl (fun acc i => body i acc) s

/-- Assignment `a[i] = v` on an array seen as a function. -/
def setAt {α : Type} (a : Nat → α) (i : Nat) (v : α) : Nat → α :=
  fun j => if j = i then v else a j

/-- Effect of `a.fill(v)` on an array of `n` cells. -/
def fillArr {α : Type} (n : Nat) (v : α) (a : Nat → α) : Nat → α :=
  fun j => if j < n then v else a j

/-! ## Errors (`schip8_error.hpp`) -/

/-- The enumeration `SuperChip8::Error`. -/
inductive Error where
  | FAILED_TO_OPEN_AUDIO_DEVICE
  | FAILED_TO_LOAD_SOUND
  | SOUND_NOT_FOUND
  | WINDOW_CREATION_ERROR
  | BUFFER_OVERFLOW
  | OUT_OF_RANGE
  | STACK_OVERFLOW
  | STACK_UNDERFLOW
  | FILE_NOT_FOUND
  | UNKNOWN_OPCODE
  deriving DecidableEq, Repr

/-- A `std::error_code`: `none` is the cleared code (no error). -/
abbrev ErrorCode := Option Error

/-! ## RAM (`schip8_emulator_memory_ram.{hpp,cpp}`) -/

/-- Constant `RAM_SIZE`. -/
abbrev RAM_SIZE : Nat := 4096

/-- Constant `ROM_START`. -/
abbrev ROM_START : Nat := 0x200

/-- The class `RAM`: the array `_memory` of `RAM_SIZE` bytes. -/
structure RAM where
  memory : Nat → Nat

namespace RAM

/-- Function `RAM::clear`: `_memory.fill(0)`. -/
def clear (ram : RAM) : RAM :=
  { memory := fillArr RAM_SIZE 0 ram.memory }

/-- Function `RAM::clearProgram`: `std::fill(_memory.begin() + ROM_START, _memory.end(), 0)`. -/
def clearProgram (ram : RAM) : RAM :=
  { memory := fun a => if ROM_START ≤ a ∧ a < RAM_SIZE then 0 else ram.memory a }

/-- The call `std::copy(data, data + size, _memory.begin() + offset)`: the elements are
copied one after the other, `data[i]` into cell `offset + i`. -/
def copyData (memory : Nat → Nat) (data : Nat → Nat) (size offset : Nat) : Nat → Nat :=
  forLoop 0 size (fun i m => setAt m (offset + i) (data i)) memory

/-- Function `RAM::loadData`. The pointer `data` is the function `i ↦ data[i]`; `size` is
a `std::size_t`, so the sum `offset + size` is computed modulo `2 ^ 64`. -/
def loadData (ram : RAM) (data : Nat → Nat) (size offset : Nat) (ec : ErrorCode) :
    RAM × ErrorCode :=
  if (offset + size) % 2 ^ 64 > RAM_SIZE then
    (ram, some Error.OUT_OF_RANGE)
  else
    ({ memory := copyData ram.memory data size offset }, ec)

/-- Function `RAM::readByte`: the byte read (0 on failure) and the outgoing error code. -/
def readByte (ram : RAM) (address : Nat) (ec : ErrorCode) : Nat × ErrorCode :=
  if address ≥ RAM_SIZE then
    (0, some Error.OUT_OF_RANGE)
  else
    (ram.memory address, ec)

/-- Function `RAM::readWord`: the word read (0 on failure) and the outgoing error code. -/
def readWord (ram : RAM) (address : Nat) (ec : ErrorCode) : Nat × ErrorCode :=
  if address + 1 ≥ RAM_SIZE then
    (0, some Error.OUT_OF_RANGE)
  else
    (u16 ((ram.memory address <<< 8) ||| ram.memory (address + 1)), ec)

/-- Function `RAM::writeByte`: the memory afterwards and the outgoing error code. -/
def writeByte (ram : RAM) (address value : Nat) (ec : ErrorCode) : RAM × ErrorCode :=
  if address ≥ RAM_SIZE then
    (ram, some Error.OUT_OF_RANGE)
  else
    ({ memory := setAt ram.memory address value }, ec)

/-- Function `RAM::getBytePointer`: the pointer `&_memory[address]` is represented by the
address it points at; `none` is `nullptr`. -/
def getBytePointer (_ram : RAM) (address : Nat) (ec : ErrorCode) : Option Nat × ErrorCode :=
  if address ≥ RAM_SIZE then
    (none, some Error.OUT_OF_RANGE)
  else
    (some address, ec)

/-- Function `RAM::isSizeReadable`. -/
def isSizeReadable (_ram : RAM) (address size : Nat) : Bool :=
  decide ((address + size) % 2 ^ 64 < RAM_SIZE)

/-- Every cell of the array holds a byte. -/
def WF (ram : RAM) : Prop := ∀ a, a < RAM_SIZE → ram.memory a < 256

end RAM

/-! ## Registers (`schip8_emulator_memory_registers.{hpp,cpp}`) -/

/-- Constant `REGISTERS`. -/
abbrev REGISTERS : Nat := 16

/-- Constant `STACK_SIZE`. -/
abbrev STACK_SIZE : Nat := 16

/-- The class `Registers`. -/
structure Registers where
  V : Nat → Nat
  RPL : Nat → Nat
  I : Nat
  delay_timer : Nat
  sound_timer : Nat
  pc : Nat
  sp : Nat
  stack : Nat → Nat

namespace Registers

/-- Function `Registers::clear`. -/
def clear (r : Registers) : Registers :=
  { V := fillArr REGISTERS 0 r.V
    RPL := fillArr REGISTERS 0 r.RPL
    I := 0
    delay_timer := 0
    sound_timer := 0
    pc := ROM_START
    sp := 0
    stack := fillArr STACK_SIZE 0 r.stack }

/-- Function `Registers::pushToStack`. -/
def pushToStack (r : Registers) (value : Nat) (ec : ErrorCode) : Registers × ErrorCode :=
  if r.sp ≥ STACK_SIZE then
    (r, some Error.STACK_OVERFLOW)
  else
    ({ r with stack := setAt r.stack r.sp value, sp := u8 (r.sp + 1) }, ec)

/-- Function `Registers::popFromStack`: the value returned (0 on failure), the registers
afterwards and the outgoing error code. -/
def popFromStack (r : Registers) (ec : ErrorCode) : Nat × Registers × ErrorCode :=
  if r.sp = 0 then
    (0, r, some Error.STACK_UNDERFLOW)
  else
    let r1 := { r with sp := sub8 r.sp 1 }
    (r1.stack r1.sp, r1, ec)

/-- The registers as the member initialisers of the class leave them. -/
def initial : Registers :=
  { V := fun _ => 0
    RPL := fun _ => 0
    I := 0
    delay_timer := 0
    sound_timer := 0
    pc := ROM_START
    sp := 0
    stack := fun _ => 0 }

/-- The calls `pushToStack(v)` for the values `v` of a list, in order, each
call given the error code the previous one left. -/
def pushAll (r : Registers) (values : List Nat) (ec : ErrorCode) : Registers × ErrorCode :=
  values.foldl (fun st v => st.1.pushToStack v st.2) (r, ec)

/-- The call `popFromStack()` made `n` times, each call given the error code
the previous one left: the values returned, in the order of the calls, the
registers afterwards and the outgoing error code. -/
def popN : Nat → Registers → ErrorCode → List Nat × Registers × ErrorCode
  | 0, r, ec => ([], r, ec)
  | n + 1, r, ec =>
    let p := r.popFromStack ec
    let rest := popN n p.2.1 p.2.2
    (p.1 :: rest.1, rest.2.1, rest.2.2)

/-- Every field holds a value of its C++ type: bytes in `V`, `RPL`, the timers
and `sp`; 16-bit words in `I`, `pc` and the stack. -/
structure WF (r : Registers) : Prop where
  V_lt : ∀ i, i < REGISTERS → r.V i < 256
  RPL_lt : ∀ i, i < REGISTERS → r.RPL i < 256
  I_lt : r.I < 65536
  delay_lt : r.delay_timer < 256
  sound_lt : r.sound_timer < 256
  pc_lt : r.pc < 65536
  sp_lt : r.sp < 256
  stack_lt : ∀ i, i < STACK_SIZE → r.stack i < 65536

end Registers

/-! ## Opcode (`schip8_emulator_opcode.hpp`) -/

/-- Constant `MASK_CATEGORY`. -/
abbrev MASK_CATEGORY : Nat := 0xF000
/-- Constant `MASK_X`. -/
abbrev MASK_X : Nat := 0x0F00
/-- Constant `MASK_Y`. -/
abbrev MASK_Y : Nat := 0x00F0
/-- Constant `MASK_N`. -/
abbrev MASK_N : Nat := 0x000F
/-- Constant `MASK_NN`. -/
abbrev MASK_NN : Nat := 0x00FF
/-- Constant `MASK_NNN`. -/
abbrev MASK_NNN : Nat := 0x0FFF

/-- The class `Opcode`. -/
structure Opcode where
  raw : Nat
  category : Nat
  X : Nat
  Y : Nat
  N : Nat
  NN : Nat
  NNN : Nat

/-- The constructor `Opcode::Opcode(raw)`. -/
def Opcode.decode (raw : Nat) : Opcode :=
  { raw := raw
    category := u8 ((raw &&& MASK_CATEGORY) >>> 12)
    X := u8 ((raw &&& MASK_X) >>> 8)
    Y := u8 ((raw &&& MASK_Y) >>> 4)
    N := u8 (raw &&& MASK_N)
    NN := u8 (raw &&& MASK_NN)
    NNN := u16 (raw &&& MASK_NNN) }

/-! ## Display buffers (`schip8_system_graphics_display.{hpp,cpp}`, `..._sprite.hpp`) -/

/-- Constant `LOW_RES_VIRTUAL_SCREEN_WIDTH`. -/
abbrev LOW_RES_VIRTUAL_SCREEN_WIDTH : Nat := 64
/-- Constant `LOW_RES_VIRTUAL_SCREEN_HEIGHT`. -/
abbrev LOW_RES_VIRTUAL_SCREEN_HEIGHT : Nat := 32
/-- Constant `HIGH_RES_VIRTUAL_SCREEN_WIDTH`. -/
abbrev HIGH_RES_VIRTUAL_SCREEN_WIDTH : Nat := 128
/-- Constant `HIGH_RES_VIRTUAL_SCREEN_HEIGHT`. -/
abbrev HIGH_RES_VIRTUAL_SCREEN_HEIGHT : Nat := 64

/-- The enumeration `Display::Resolution`. -/
inductive Resolution where
  | LOW_RES
  | HIGH_RES
  deriving DecidableEq, Repr

/-- A screen buffer, `std::array<std::array<bool, 128>, 64>`: `s y x` is the
pixel of line `y` and column `x`. -/
abbrev Screen := Nat → Nat → Bool

/-- The class `Sprite`: height, width, and the pointer `data` as the function
`k ↦ data[k]`. -/
structure Sprite where
  height : Nat
  width : Nat
  data : Nat → Nat

/-- The state of the class `Display` that the emulator core reads and writes
(the window geometry and the frame timer are left out). -/
structure Display where
  current_back_resolution : Resolution
  virtual_back_screen : Screen
  virtual_back_screen_height : Nat
  virtual_back_screen_width : Nat
  current_front_resolution : Resolution
  next_front_resolution : Resolution
  virtual_front_screen : Screen
  virtual_front_screen_height : Nat
  virtual_front_screen_width : Nat

/-- The source bit of a sprite as the specification words it: bit `7 - c` of
byte `r` for a sprite 8 wide, bit `15 - c` of the big-endian word formed by the
bytes `2 r` and `2 r + 1` for a sprite 16 wide. -/
def Sprite.sourceBit (sprite : Sprite) (r c : Nat) : Bool :=
  if sprite.width = 8 then (sprite.data r).testBit (7 - c)
  else (256 * sprite.data (2 * r) + sprite.data (2 * r + 1)).testBit (15 - c)

namespace Display

/-- A screen with every line filled with `false`, as the constructor and
`Display::clear` build it. -/
def blank (s : Screen) : Screen :=
  fun y => if y < HIGH_RES_VIRTUAL_SCREEN_HEIGHT then
    fillArr HIGH_RES_VIRTUAL_SCREEN_WIDTH false (s y) else s y

/-- Assignment of a whole line, `screen[i] = line`: the 128 cells are copied. -/
def setLine (s : Screen) (i : Nat) (line : Nat → Bool) : Screen :=
  setAt s i (fun x => if x < HIGH_RES_VIRTUAL_SCREEN_WIDTH then line x else s i x)

/-- Assignment of one pixel, `screen[y][x] = v`. -/
def setPixel (s : Screen) (y x : Nat) (v : Bool) : Screen :=
  setAt s y (setAt (s y) x v)

/-- Function `Display::clear`. -/
def clear (d : Display) : Display :=
  { d with virtual_back_screen := blank d.virtual_back_screen }

/-- Function `Display::setResolution`. -/
def setResolution (d : Display) (resolution : Resolution) : Display :=
  match resolution with
  | Resolution.LOW_RES =>
    { d with virtual_back_screen_height := LOW_RES_VIRTUAL_SCREEN_HEIGHT
             virtual_back_screen_width := LOW_RES_VIRTUAL_SCREEN_WIDTH
             current_back_resolution := Resolution.LOW_RES }
  | Resolution.HIGH_RES =>
    { d with virtual_back_screen_height := HIGH_RES_VIRTUAL_SCREEN_HEIGHT
             virtual_back_screen_width := HIGH_RES_VIRTUAL_SCREEN_WIDTH
             current_back_resolution := Resolution.HIGH_RES }

/-- The buffer swap at the end of `Display::drawFrame`. -/
def swapBuffers (d : Display) : Display :=
  { d with virtual_front_screen := d.virtual_back_screen
           virtual_front_screen_height := d.virtual_back_screen_height
           virtual_front_screen_width := d.virtual_back_screen_width
           next_front_resolution := d.current_back_resolution }

/-- The bit of a sprite line drawn at `column`. For a width other than 8 the
C++ tests `sprite_word`, which it sets only when the width is 16. -/
def spriteBit (sprite_width sprite_byte sprite_word column : Nat) : Bool :=
  if sprite_width = 8 then decide (sprite_byte &&& (0x80 >>> column) ≠ 0)
  else decide (sprite_word &&& (0x8000 >>> column) ≠ 0)

/-- The bit that `Display::addSprite` draws at `column` in a line whose first
byte is `data[data_row]`: `spriteBit` on the byte and the word of that line. -/
def lineBit (sprite : Sprite) (data_row column : Nat) : Bool :=
  spriteBit sprite.width (sprite.data data_row)
    (if sprite.width = 16 then
      u16 ((sprite.data data_row <<< 8) ||| sprite.data (data_row + 1)) else 0) column

/-- The number of bytes `Display::addSprite` advances `data_row` by per line. -/
def lineBytes (sprite : Sprite) : Nat := if sprite.width = 16 then 2 else 1

/-- Body of the column loop of `Display::addSprite`, for one `column` of line
`row`: the state is the back screen and the collision flag. -/
def addSpriteColumn (width height : Nat) (sprite_width sprite_byte sprite_word : Nat)
    (x y row column : Nat) (st : Screen × Bool) : Screen × Bool :=
  let bit := spriteBit sprite_width sprite_byte sprite_word column
  let wrap_x := (x + column) % width
  let wrap_y := (y + row) % height
  let collision := st.2 || (st.1 wrap_y wrap_x && bit)
  (setPixel st.1 wrap_y wrap_x (xor (st.1 wrap_y wrap_x) bit), collision)

/-- Body of the line loop of `Display::addSprite`: the state is the back
screen, the collision flag and the byte counter `data_row`. -/
def addSpriteRow (width height : Nat) (sprite : Sprite) (x y row : Nat)
    (st : Screen × Bool × Nat) : Screen × Bool × Nat :=
  let data_row := st.2.2
  let sprite_byte := sprite.data data_row
  let sprite_word :=
    if sprite.width = 16 then u16 ((sprite_byte <<< 8) ||| sprite.data (data_row + 1)) else 0
  let data_row1 := if sprite.width = 16 then u8 (data_row + 1) else data_row
  let drawn := forLoop 0 sprite.width
    (addSpriteColumn width height sprite.width sprite_byte sprite_word x y row) (st.1, st.2.1)
  (drawn.1, drawn.2, u8 (data_row1 + 1))

/-- Function `Display::addSprite`: the display afterwards and the collision flag. -/
def addSprite (d : Display) (sprite : Sprite) (x y : Nat) : Display × Bool :=
  let res := forLoop 0 sprite.height
    (addSpriteRow d.virtual_back_screen_width d.virtual_back_screen_height sprite x y)
    (d.virtual_back_screen, false, 0)
  ({ d with virtual_back_screen := res.1 }, res.2.1)

/-- The descending loop `for (i = start - 1; i >= n; i--) s = body(i, s)`, the
first argument being `start`. -/
def downLoop {σ : Type} (n : Nat) (body : Nat → σ → σ) : Nat → σ → σ
  | 0, s => s
  | i + 1, s => if i ≥ n then downLoop n body i (body i s) else s

/-- Function `Display::scrollDown`. -/
def scrollDown (d : Display) (n : Nat) : Display :=
  let shifted := downLoop n (fun i s => setLine s i (s (i - n)))
    d.virtual_back_screen_height d.virtual_back_screen
  let cleared := forLoop 0 n (fun i s => setLine s i (fun _ => false)) shifted
  { d with virtual_back_screen := cleared }

/-- Body of the line loop of `Display::scrollRight`, for line `i`. -/
def scrollRightLine (width n i : Nat) (s : Screen) : Screen :=
  let shifted := downLoop n (fun j s => setPixel s i j (s i (j - n))) width s
  forLoop 0 n (fun j s => setPixel s i j false) shifted

/-- Function `Display::scrollRight`. -/
def scrollRight (d : Display) (n : Nat) : Display :=
  let scrolled := forLoop 0 d.virtual_back_screen_height
    (scrollRightLine d.virtual_back_screen_width n) d.virtual_back_screen
  { d with virtual_back_screen := scrolled }

/-- Body of the line loop of `Display::scrollLeft`, for line `i`. The bound
`width - n` is computed in `int` by the C++; it is the natural-number difference
whenever `n ≤ width`, which holds for every call the machine makes. -/
def scrollLeftLine (width n i : Nat) (s : Screen) : Screen :=
  let shifted := forLoop 0 (width - n) (fun j s => setPixel s i j (s i (j + n))) s
  forLoop (width - n) width (fun j s => setPixel s i j false) shifted

/-- Function `Display::scrollLeft`. -/
def scrollLeft (d : Display) (n : Nat) : Display :=
  let scrolled := forLoop 0 d.virtual_back_screen_height
    (scrollLeftLine d.virtual_back_screen_width n) d.virtual_back_screen
  { d with virtual_back_screen := scrolled }

end Display

/-! ## Virtual machine (`schip8_emulator_vm.{hpp,cpp}`, `schip8_emulator_keymapping.hpp`) -/

/-- Constant `KEY_MAPPED_COUNT`. -/
abbrev KEY_MAPPED_COUNT : Nat := 16

/-- A call made to the audio device for the sound `SoundType::BEEP`. -/
inductive AudioRequest where
  | playSound
  | stopSound
  deriving DecidableEq, Repr

/-- The state of the class `VM`: memory, registers, display, the calls made to
the audio device so far (latest first), the key snapshot `_keyPressed` and the
shared run-state. -/
structure VM where
  ram : RAM
  registers : Registers
  display : Display
  audioDevice : List AudioRequest
  keyPressed : Nat → Bool
  running : Bool
  program_loaded : Bool
  cycle : Nat
  target_cycles : Nat

/-- What the presentation thread does to the machine while the worker runs:
one pass of `Display::drawFrame`, the keyboard then answering `isKeyDown i` for
the key mapped to `i`; or the end of `VM::drawLoop`, which stores `false` into
`_running`. -/
inductive HostEvent where
  | frame (isKeyDown : Nat → Bool)
  | stop

/-- What an instruction takes from outside the machine state: the number drawn
by `_dist(_gen)`, the host events that occur while the instruction waits
(only `FX0A` waits), and the three constants of the header
`schip8_emulator_fontset.hpp`, taken as parameters. -/
structure Env where
  rand : Nat
  events : List HostEvent
  FONT_HEIGHT_LOW_RES : Nat
  FONT_HEIGHT_HIGH_RES : Nat
  FONT_SIZE_LOW_RES : Nat

namespace Display

/-- The display as the constructor and the member initialisers leave it. -/
def initial : Display :=
  { current_back_resolution := Resolution.LOW_RES
    virtual_back_screen := fun _ _ => false
    virtual_back_screen_height := LOW_RES_VIRTUAL_SCREEN_HEIGHT
    virtual_back_screen_width := LOW_RES_VIRTUAL_SCREEN_WIDTH
    current_front_resolution := Resolution.LOW_RES
    next_front_resolution := Resolution.LOW_RES
    virtual_front_screen := fun _ _ => false
    virtual_front_screen_height := LOW_RES_VIRTUAL_SCREEN_HEIGHT
    virtual_front_screen_width := LOW_RES_VIRTUAL_SCREEN_WIDTH }

/-- The display as constructed, switched to the resolution `mode`, with the
back screen `s`. -/
def withScreen (mode : Resolution) (s : Screen) : Display :=
  { initial.setResolution mode with virtual_back_screen := s }

end Display

namespace VM

/-- The machine as the constructor `VM::VM(target_cycles)` leaves it. -/
def initial (target_cycles : Nat) : VM :=
  { ram := { memory := fun _ => 0 }
    registers := Registers.initial
    display := Display.initial
    audioDevice := []
    keyPressed := fun _ => false
    running := false
    program_loaded := false
    cycle := 0
    target_cycles := u16 target_cycles }

/-- The machine as constructed, with `V0 = a`, `V1 = b` and the other
registers zero: the starting point of the arithmetic examples. -/
def withV0V1 (a b : Nat) : VM :=
  { initial 10 with
    registers := { Registers.initial with V := fun i => if i = 0 then a else if i = 1 then b else 0 } }

/-- The machine as constructed, with the general registers holding `V`. -/
def withV (V : Nat → Nat) : VM :=
  { initial 10 with registers := { Registers.initial with V := V } }

/-- Assignment `_registers.V[i] = v`. -/
def setV (vm : VM) (i v : Nat) : VM :=
  { vm with registers := { vm.registers with V := setAt vm.registers.V i v } }

/-- Assignment `_registers.pc = v`. -/
def setPC (vm : VM) (v : Nat) : VM :=
  { vm with registers := { vm.registers with pc := v } }

/-- Assignment `_registers.I = v`. -/
def setI (vm : VM) (v : Nat) : VM :=
  { vm with registers := { vm.registers with I := v } }

/-- Function `VM::updateTimers`; the error code of the audio calls is local to the
interrupt handler and dropped. -/
def updateTimers (vm : VM) : VM :=
  let r := vm.registers
  let r1 := if r.delay_timer > 0 then { r with delay_timer := sub8 r.delay_timer 1 } else r
  if r1.sound_timer > 0 then
    let r2 := { r1 with sound_timer := sub8 r1.sound_timer 1 }
    if r2.sound_timer = 0 then
      { vm with registers := r2, audioDevice := AudioRequest.stopSound :: vm.audioDevice }
    else
      { vm with registers := r2, audioDevice := AudioRequest.playSound :: vm.audioDevice }
  else
    { vm with registers := r1 }

/-- Function `VM::processInput`, `isKeyDown i` being `_keyboard.isKeyDown(key_map.at(i))`. -/
def processInput (vm : VM) (isKeyDown : Nat → Bool) : VM :=
  { vm with keyPressed :=
      forLoop 0 KEY_MAPPED_COUNT (fun i k => setAt k i (isKeyDown i)) vm.keyPressed }

/-- Function `VM::handleVBlankInterrupt`. -/
def handleVBlankInterrupt (vm : VM) (isKeyDown : Nat → Bool) : VM :=
  processInput (updateTimers { vm with cycle := 0 }) isKeyDown

/-- The effect of one `Display::drawFrame` on the machine: the front resolution
is taken over, the interrupt handler runs, the buffers are swapped. -/
def drawFrame (vm : VM) (isKeyDown : Nat → Bool) : VM :=
  let d := { vm.display with current_front_resolution := vm.display.next_front_resolution }
  let vm1 := handleVBlankInterrupt { vm with display := d } isKeyDown
  { vm1 with display := vm1.display.swapBuffers }

/-- The effect of one host event on the machine. -/
def applyEvent (vm : VM) : HostEvent → VM
  | HostEvent.frame isKeyDown => drawFrame vm isKeyDown
  | HostEvent.stop => { vm with running := false }

/-- The inner loop of `FX0A`, `while (_keyPressed[i] && _running) {}`: the
machine once the loop is left and the events not yet consumed, or `none` when
the loop is still spinning after the last event. -/
def awaitRelease (i : Nat) : List HostEvent → VM → Option (VM × List HostEvent)
  | [], vm => if vm.keyPressed i && vm.running then none else some (vm, [])
  | e :: rest, vm =>
    if vm.keyPressed i && vm.running then awaitRelease i rest (applyEvent vm e)
    else some (vm, e :: rest)

/-- The scan `for (i = 0; i < REGISTERS; i++) if (_keyPressed[i]) ... break`:
the first index whose key is pressed. -/
def firstPressed (vm : VM) : Option Nat :=
  (List.range REGISTERS).find? (fun i => vm.keyPressed i)

/-- The instruction `FX0A`: the loop `while (!key_pressed && _running)` around
the scan and the inner loop. `none` when the instruction is still waiting after
the last event. -/
def waitKey (X : Nat) : List HostEvent → VM → Option (VM × List HostEvent)
  | [], vm =>
    if !vm.running then some (vm, [])
    else match firstPressed vm with
      | some i => (awaitRelease i [] vm).map (fun res => (res.1.setV X (u8 i), res.2))
      | none => none
  | e :: rest, vm =>
    if !vm.running then some (vm, e :: rest)
    else match firstPressed vm with
      | some i => (awaitRelease i (e :: rest) vm).map (fun res => (res.1.setV X (u8 i), res.2))
      | none => waitKey X rest (applyEvent vm e)

/-- Function `VM::loadProgram`. The file is `none` when it cannot be opened, and
otherwise the list of its bytes, read into `buffer`. -/
def loadProgram (vm : VM) (file : Option (List Nat)) (ec : ErrorCode) : VM × ErrorCode :=
  let vm1 := { vm with ram := vm.ram.clearProgram }
  match file with
  | none => (vm1, some Error.FILE_NOT_FOUND)
  | some buffer =>
    let res := vm1.ram.loadData (fun i => buffer.getD i 0) buffer.length ROM_START ec
    if res.2.isSome then
      ({ vm1 with ram := res.1 }, res.2)
    else
      ({ vm1 with ram := res.1, program_loaded := true }, res.2)

/-- Function `VM::executeCategory0`. -/
def executeCategory0 (vm : VM) (opcode : Opcode) (ec : ErrorCode) : VM × ErrorCode :=
  if opcode.Y = 0xC then
    ({ vm with display := vm.display.scrollDown opcode.N }, ec)
  else if opcode.Y = 0xE then
    if opcode.N = 0x0 then
      ({ vm with display := vm.display.clear }, ec)
    else if opcode.N = 0xE then
      let res := vm.registers.popFromStack ec
      ({ vm with registers := { res.2.1 with pc := res.1 } }, res.2.2)
    else
      (vm, some Error.UNKNOWN_OPCODE)
  else if opcode.Y = 0xF then
    if opcode.N = 0xB then
      ({ vm with display := vm.display.scrollRight 4 }, ec)
    else if opcode.N = 0xC then
      ({ vm with display := vm.display.scrollLeft 4 }, ec)
    else if opcode.N = 0xD then
      ({ vm with running := false }, ec)
    else if opcode.N = 0xE then
      ({ vm with display := vm.display.setResolution Resolution.LOW_RES }, ec)
    else if opcode.N = 0xF then
      ({ vm with display := vm.display.setResolution Resolution.HIGH_RES }, ec)
    else
      (vm, some Error.UNKNOWN_OPCODE)
  else
    (vm, some Error.UNKNOWN_OPCODE)

/-- Function `VM::executeCategory1`. -/
def executeCategory1 (vm : VM) (opcode : Opcode) (ec : ErrorCode) : VM × ErrorCode :=
  (vm.setPC opcode.NNN, ec)

/-- Function `VM::executeCategory2`. -/
def executeCategory2 (vm : VM) (opcode : Opcode) (ec : ErrorCode) : VM × ErrorCode :=
  let res := vm.registers.pushToStack vm.registers.pc ec
  ({ vm with registers := { res.1 with pc := opcode.NNN } }, res.2)

/-- Function `VM::executeCategory3`. -/
def executeCategory3 (vm : VM) (opcode : Opcode) (ec : ErrorCode) : VM × ErrorCode :=
  if vm.registers.V opcode.X = opcode.NN then (vm.setPC (u16 (vm.registers.pc + 2)), ec)
  else (vm, ec)

/-- Function `VM::executeCategory4`. -/
def executeCategory4 (vm : VM) (opcode : Opcode) (ec : ErrorCode) : VM × ErrorCode :=
  if vm.registers.V opcode.X ≠ opcode.NN then (vm.setPC (u16 (vm.registers.pc + 2)), ec)
  else (vm, ec)

/-- Function `VM::executeCategory5`. -/
def executeCategory5 (vm : VM) (opcode : Opcode) (ec : ErrorCode) : VM × ErrorCode :=
  if vm.registers.V opcode.X = vm.registers.V opcode.Y then
    (vm.setPC (u16 (vm.registers.pc + 2)), ec)
  else (vm, ec)

/-- Function `VM::executeCategory6`. -/
def executeCategory6 (vm : VM) (opcode : Opcode) (ec : ErrorCode) : VM × ErrorCode :=
  (vm.setV opcode.X opcode.NN, ec)

/-- Function `VM::executeCategory7`. -/
def executeCategory7 (vm : VM) (opcode : Opcode) (ec : ErrorCode) : VM × ErrorCode :=
  (vm.setV opcode.X (u8 (vm.registers.V opcode.X + opcode.NN)), ec)

/-- Function `VM::executeCategory8`. -/
def executeCategory8 (vm : VM) (opcode : Opcode) (ec : ErrorCode) : VM × ErrorCode :=
  let V := vm.registers.V
  if opcode.N = 0x0 then
    (vm.setV opcode.X (V opcode.Y), ec)
  else if opcode.N = 0x1 then
    (vm.setV opcode.X (u8 (V opcode.X ||| V opcode.Y)), ec)
  else if opcode.N = 0x2 then
    (vm.setV opcode.X (u8 (V opcode.X &&& V opcode.Y)), ec)
  else if opcode.N = 0x3 then
    (vm.setV opcode.X (u8 (V opcode.X ^^^ V opcode.Y)), ec)
  else if opcode.N = 0x4 then
    let overflow := u8 ((V opcode.X + V opcode.Y) >>> 8)
    let vm1 := vm.setV opcode.X (u8 (V opcode.X + V opcode.Y))
    (vm1.setV 0xF overflow, ec)
  else if opcode.N = 0x5 then
    let borrow := if V opcode.X ≥ V opcode.Y then 1 else 0
    let vm1 := vm.setV opcode.X (sub8 (V opcode.X) (V opcode.Y))
    (vm1.setV 0xF borrow, ec)
  else if opcode.N = 0x6 then
    let lsb := u8 (V opcode.X &&& 0x1)
    let vm1 := vm.setV opcode.X (u8 (V opcode.X >>> 1))
    (vm1.setV 0xF lsb, ec)
  else if opcode.N = 0x7 then
    let borrow := if V opcode.Y ≥ V opcode.X then 1 else 0
    let vm1 := vm.setV opcode.X (sub8 (V opcode.Y) (V opcode.X))
    (vm1.setV 0xF borrow, ec)
  else if opcode.N = 0xE then
    let msb := u8 ((V opcode.X &&& 0x80) >>> 7)
    let vm1 := vm.setV opcode.X (u8 (V opcode.X <<< 1))
    (vm1.setV 0xF msb, ec)
  else
    (vm, some Error.UNKNOWN_OPCODE)

/-- Function `VM::executeCategory9`. -/
def executeCategory9 (vm : VM) (opcode : Opcode) (ec : ErrorCode) : VM × ErrorCode :=
  if vm.registers.V opcode.X ≠ vm.registers.V opcode.Y then
    (vm.setPC (u16 (vm.registers.pc + 2)), ec)
  else (vm, ec)

/-- Function `VM::executeCategoryA`. -/
def executeCategoryA (vm : VM) (opcode : Opcode) (ec : ErrorCode) : VM × ErrorCode :=
  (vm.setI opcode.NNN, ec)

/-- Function `VM::executeCategoryB`. -/
def executeCategoryB (vm : VM) (opcode : Opcode) (ec : ErrorCode) : VM × ErrorCode :=
  (vm.setPC (u16 (opcode.NNN + vm.registers.V opcode.X)), ec)

/-- Function `VM::executeCategoryC`. -/
def executeCategoryC (env : Env) (vm : VM) (opcode : Opcode) (ec : ErrorCode) :
    VM × ErrorCode :=
  (vm.setV opcode.X (u8 (env.rand &&& opcode.NN)), ec)

/-- Function `VM::executeCategoryD`. The sprite data pointer is the address `I`, so
`data[k]` is the memory cell `I + k`. -/
def executeCategoryD (vm : VM) (opcode : Opcode) (ec : ErrorCode) : VM × ErrorCode :=
  let x := vm.registers.V opcode.X
  let y := vm.registers.V opcode.Y
  let ptr := vm.ram.getBytePointer vm.registers.I ec
  if ptr.2.isSome then
    (vm, ptr.2)
  else
    let sprite_height := if opcode.N = 0x0 then 16 else opcode.N
    let sprite_width := if opcode.N = 0x0 then 16 else 8
    if !vm.ram.isSizeReadable vm.registers.I (sprite_height * sprite_width) then
      (vm, some Error.OUT_OF_RANGE)
    else
      let sprite : Sprite :=
        { height := sprite_height
          width := sprite_width
          data := fun k => vm.ram.memory (ptr.1.getD 0 + k) }
      let res := vm.display.addSprite sprite x y
      (({ vm with display := res.1 } : VM).setV 0xF (if res.2 then 1 else 0), ptr.2)

/-- Function `VM::executeCategoryE`. -/
def executeCategoryE (vm : VM) (opcode : Opcode) (ec : ErrorCode) : VM × ErrorCode :=
  if opcode.NN = 0x9E then
    if vm.keyPressed (vm.registers.V opcode.X) then (vm.setPC (u16 (vm.registers.pc + 2)), ec)
    else (vm, ec)
  else if opcode.NN = 0xA1 then
    if !vm.keyPressed (vm.registers.V opcode.X) then (vm.setPC (u16 (vm.registers.pc + 2)), ec)
    else (vm, ec)
  else
    (vm, some Error.UNKNOWN_OPCODE)

/-- Case `0x33` of `VM::executeCategoryF` (`FX33`): the three `writeByte`
calls, each given the error code the previous one left. -/
def storeBCD (vm : VM) (opcode : Opcode) (ec : ErrorCode) : VM × ErrorCode :=
  let r := vm.registers
  let w1 := vm.ram.writeByte r.I (u8 (r.V opcode.X / 100)) ec
  let w2 := w1.1.writeByte (u16 (r.I + 1)) (u8 ((r.V opcode.X / 10) % 10)) w1.2
  let w3 := w2.1.writeByte (u16 (r.I + 2)) (u8 (r.V opcode.X % 10)) w2.2
  ({ vm with ram := w3.1 }, w3.2)

/-- Case `0x55` of `VM::executeCategoryF` (`FX55`): the loop
`for (i = 0; i <= X; i++) _ram.writeByte(I + i, V[i], ec)`. -/
def storeRegisters (vm : VM) (opcode : Opcode) (ec : ErrorCode) : VM × ErrorCode :=
  let r := vm.registers
  let w := forLoop 0 (opcode.X + 1)
    (fun i (st : RAM × ErrorCode) => st.1.writeByte (u16 (r.I + i)) (r.V i) st.2) (vm.ram, ec)
  ({ vm with ram := w.1 }, w.2)

/-- Case `0x65` of `VM::executeCategoryF` (`FX65`): the loop
`for (i = 0; i <= X; i++) V[i] = _ram.readByte(I + i, ec)`. -/
def loadRegisters (vm : VM) (opcode : Opcode) (ec : ErrorCode) : VM × ErrorCode :=
  let r := vm.registers
  let l := forLoop 0 (opcode.X + 1)
    (fun i (st : (Nat → Nat) × ErrorCode) =>
      let rd := vm.ram.readByte (u16 (r.I + i)) st.2
      (setAt st.1 i rd.1, rd.2)) (r.V, ec)
  ({ vm with registers := { r with V := l.1 } }, l.2)

/-- Case `0x75` of `VM::executeCategoryF` (`FX75`): the loop
`for (i = 0; i <= X; i++) RPL[i] = V[i]`. -/
def saveFlags (vm : VM) (opcode : Opcode) (ec : ErrorCode) : VM × ErrorCode :=
  let r := vm.registers
  let rpl := forLoop 0 (opcode.X + 1) (fun i (a : Nat → Nat) => setAt a i (r.V i)) r.RPL
  ({ vm with registers := { r with RPL := rpl } }, ec)

/-- Case `0x85` of `VM::executeCategoryF` (`FX85`): the loop
`for (i = 0; i <= X; i++) V[i] = RPL[i]`. -/
def loadFlags (vm : VM) (opcode : Opcode) (ec : ErrorCode) : VM × ErrorCode :=
  let r := vm.registers
  let v := forLoop 0 (opcode.X + 1) (fun i (a : Nat → Nat) => setAt a i (r.RPL i)) r.V
  ({ vm with registers := { r with V := v } }, ec)

/-- Function `VM::executeCategoryF`; `none` when `FX0A` is still waiting after the last
host event. -/
def executeCategoryF (env : Env) (vm : VM) (opcode : Opcode) (ec : ErrorCode) :
    Option (VM × ErrorCode) :=
  let r := vm.registers
  if opcode.NN = 0x07 then
    some (vm.setV opcode.X r.delay_timer, ec)
  else if opcode.NN = 0x0A then
    (waitKey opcode.X env.events vm).map (fun res => (res.1, ec))
  else if opcode.NN = 0x15 then
    some ({ vm with registers := { r with delay_timer := r.V opcode.X } }, ec)
  else if opcode.NN = 0x18 then
    some ({ vm with registers := { r with sound_timer := r.V opcode.X } }, ec)
  else if opcode.NN = 0x1E then
    some (vm.setI (u16 (r.I + r.V opcode.X)), ec)
  else if opcode.NN = 0x29 then
    some (vm.setI (u16 ((r.V opcode.X % 0x10) * env.FONT_HEIGHT_LOW_RES)), ec)
  else if opcode.NN = 0x30 then
    some (vm.setI (u16 ((r.V opcode.X % 0x10) * env.FONT_HEIGHT_HIGH_RES
      + env.FONT_SIZE_LOW_RES)), ec)
  else if opcode.NN = 0x33 then
    some (storeBCD vm opcode ec)
  else if opcode.NN = 0x55 then
    some (storeRegisters vm opcode ec)
  else if opcode.NN = 0x65 then
    some (loadRegisters vm opcode ec)
  else if opcode.NN = 0x75 then
    some (saveFlags vm opcode ec)
  else if opcode.NN = 0x85 then
    some (loadFlags vm opcode ec)
  else
    some (vm, some Error.UNKNOWN_OPCODE)

/-- Function `VM::executeOpcode`; `none` when the instruction (an `FX0A`) is still
waiting after the last host event. -/
def executeOpcode (env : Env) (vm : VM) (opcode : Opcode) (ec : ErrorCode) :
    Option (VM × ErrorCode) :=
  if opcode.category = 0x0 then some (executeCategory0 vm opcode ec)
  else if opcode.category = 0x1 then some (executeCategory1 vm opcode ec)
  else if opcode.category = 0x2 then some (executeCategory2 vm opcode ec)
  else if opcode.category = 0x3 then some (executeCategory3 vm opcode ec)
  else if opcode.category = 0x4 then some (executeCategory4 vm opcode ec)
  else if opcode.category = 0x5 then some (executeCategory5 vm opcode ec)
  else if opcode.category = 0x6 then some (executeCategory6 vm opcode ec)
  else if opcode.category = 0x7 then some (executeCategory7 vm opcode ec)
  else if opcode.category = 0x8 then some (executeCategory8 vm opcode ec)
  else if opcode.category = 0x9 then some (executeCategory9 vm opcode ec)
  else if opcode.category = 0xA then some (executeCategoryA vm opcode ec)
  else if opcode.category = 0xB then some (executeCategoryB vm opcode ec)
  else if opcode.category = 0xC then some (executeCategoryC env vm opcode ec)
  else if opcode.category = 0xD then some (executeCategoryD vm opcode ec)
  else if opcode.category = 0xE then some (executeCategoryE vm opcode ec)
  else if opcode.category = 0xF then executeCategoryF env vm opcode ec
  else some (vm, some Error.UNKNOWN_OPCODE)

end VM

/-! ## The worker loop (`VM::run` in `schip8_emulator_vm.cpp`)

The presentation thread is taken to act on the machine only while the worker
waits: in `FX0A`, in the throttle at the end of an iteration, and in the
start-up sleep. -/

/-- What one iteration of the loop of `VM::run` takes from outside the machine
state: the environment of its instruction, and the host events that occur while
the worker waits in `_cpu_sleep_cv.wait` at the end of the iteration. -/
structure CycleInput where
  env : Env
  hostEvents : List HostEvent

namespace VM

/-- The first loop of `VM::run`, `while (!_program_loaded && _running) sleep`:
the machine once the loop is left, or `none` when the worker is still sleeping
after the last event. -/
def awaitProgram : List HostEvent → VM → Option VM
  | [], vm => if !vm.program_loaded && vm.running then none else some vm
  | e :: rest, vm =>
    if !vm.program_loaded && vm.running then awaitProgram rest (applyEvent vm e)
    else some vm

/-- The call `_cpu_sleep_cv.wait(lk, [this] { return !_running || _cycle == 0; })`:
the machine once the predicate holds and the events not yet consumed, or `none`
when the worker is still waiting after the last event. -/
def throttleWait : List HostEvent → VM → Option (VM × List HostEvent)
  | [], vm => if !vm.running || vm.cycle = 0 then some (vm, []) else none
  | e :: rest, vm =>
    if !vm.running || vm.cycle = 0 then some (vm, e :: rest)
    else throttleWait rest (applyEvent vm e)

/-- The body of the second loop of `VM::run` up to and including `_cycle++`:
`ec.clear()`, the fetch, `pc += 2`, the execution and the two error exits. The
result is the machine, the error code and whether `run` has returned; `none`
when the instruction is still waiting after the last host event. -/
def fetchExecute (env : Env) (vm : VM) : Option (VM × ErrorCode × Bool) :=
  let fetched := vm.ram.readWord vm.registers.pc none
  let vm1 := vm.setPC (u16 (vm.registers.pc + 2))
  if fetched.2.isSome then
    some ({ vm1 with running := false }, fetched.2, true)
  else
    match executeOpcode env vm1 (Opcode.decode fetched.1) fetched.2 with
    | none => none
    | some res =>
      if res.2.isSome then
        some ({ res.1 with running := false }, res.2, true)
      else
        some ({ res.1 with cycle := u16 (res.1.cycle + 1) }, res.2, false)

/-- The whole body of the second loop of `VM::run`: `fetchExecute`, then the
throttle `if (_cycle >= _target_cycles && _running) wait`. -/
def loopBody (inp : CycleInput) (vm : VM) : Option (VM × ErrorCode × Bool) :=
  match fetchExecute inp.env vm with
  | none => none
  | some res =>
    if res.2.2 then some res
    else if res.1.cycle ≥ res.1.target_cycles && res.1.running then
      (throttleWait inp.hostEvents res.1).map (fun w => (w.1, res.2.1, false))
    else some res

/-- The second loop of `VM::run`, `while (_running && _program_loaded)`, run
for at most one iteration per input: the machine and the error code when the
loop is left or the inputs are used up, or `none` when the worker is still
waiting after the last host event of an iteration. -/
def runCycles : List CycleInput → VM → ErrorCode → Option (VM × ErrorCode)
  | [], vm, ec => some (vm, ec)
  | inp :: rest, vm, ec =>
    if vm.running && vm.program_loaded then
      match loopBody inp vm with
      | none => none
      | some res => if res.2.2 then some (res.1, res.2.1) else runCycles rest res.1 res.2.1
    else some (vm, ec)

/-- Function `VM::run`: the start-up sleep, then the instruction loop. -/
def run (startup : List HostEvent) (inputs : List CycleInput) (vm : VM) (ec : ErrorCode) :
    Option (VM × ErrorCode) :=
  match awaitProgram startup vm with
  | none => none
  | some vm1 => runCycles inputs vm1 ec

/-- The machine after `VM::turnOn` has cleared the registers, with the bytes
`program` at `ROM_START`, running, and a target of 10 cycles per frame. -/
def withProgram (program : List Nat) : VM :=
  { initial 10 with
    ram := { memory := fun a => if ROM_START ≤ a then program.getD (a - ROM_START) 0 else 0 }
    registers := Registers.initial.clear
    running := true
    program_loaded := true }

/-- The instruction words whose selector the dispatcher of `VM::executeOpcode`
and of the category handlers has a case for: `Y` and `N` in category 0, `N` in
category 8, `NN` in categories E and F; the other categories have no selector. -/
def handled (opcode : Opcode) : Bool :=
  if opcode.category = 0x0 then
    decide (opcode.Y = 0xC) ||
    (decide (opcode.Y = 0xE) && (decide (opcode.N = 0x0) || decide (opcode.N = 0xE))) ||
    (decide (opcode.Y = 0xF) && (decide (opcode.N = 0xB) || decide (opcode.N = 0xC) ||
      decide (opcode.N = 0xD) || decide (opcode.N = 0xE) || decide (opcode.N = 0xF)))
  else if opcode.category = 0x8 then
    decide (opcode.N ≤ 0x7) || decide (opcode.N = 0xE)
  else if opcode.category = 0xE then
    decide (opcode.NN = 0x9E) || decide (opcode.NN = 0xA1)
  else if opcode.category = 0xF then
    decide (opcode.NN ∈ [0x07, 0x0A, 0x15, 0x18, 0x1E, 0x29, 0x30, 0x33, 0x55, 0x65, 0x75, 0x85])
  else
    decide (opcode.category < 16)

/-- The instruction patterns the handlers name in their comments (`00CN`,
`00E0`, ..., `5XY0`, ..., `9XY0`, ..., `FX85`): a handled word whose remaining
nibble is the one of the pattern, `X = 0` in category 0 and `N = 0` in
categories 5 and 9. -/
def documented (opcode : Opcode) : Bool :=
  handled opcode &&
  (if opcode.category = 0x0 then decide (opcode.X = 0) else true) &&
  (if opcode.category = 0x5 ∨ opcode.category = 0x9 then decide (opcode.N = 0) else true)

/-- The machine after `k` frame ticks, one keyboard reading per tick. -/
def ticks (keys : List (Nat → Bool)) (vm : VM) : VM :=
  keys.foldl handleVBlankInterrupt vm

/-- The machine after the host events of a list, in order. -/
def afterEvents (events : List HostEvent) (vm : VM) : VM :=
  events.foldl applyEvent vm

/-- The sprite that `VM::executeCategoryD` hands to `addSprite`. -/
def drawnSprite (vm : VM) (opcode : Opcode) : Sprite :=
  { height := if opcode.N = 0x0 then 16 else opcode.N
    width := if opcode.N = 0x0 then 16 else 8
    data := fun k => vm.ram.memory (vm.registers.I + k) }

end VM

/-! ## The accesses of `Display::addSprite`

The loops of `addSprite` with every array access made through a function that
records its subscript: `readData` for `data[k]`, `readCell` and `xorCell` for
`_virtual_back_screen[wrap_y][wrap_x]`. The values the loops work with are the
ones these accesses return. -/

namespace Display

/-- The read `data[k]`: the byte read, and the log of the subscripts of `data`
with `k` added. -/
def readData (sprite : Sprite) (k : Nat) (log : List Nat) : Nat × List Nat :=
  (sprite.data k, log ++ [k])

/-- The read `_virtual_back_screen[row][column]`: the cell read, and the log of
the subscripts of the screen with `(row, column)` added. -/
def readCell (s : Screen) (row column : Nat) (log : List (Nat × Nat)) :
    Bool × List (Nat × Nat) :=
  (s row column, log ++ [(row, column)])

/-- The update `_virtual_back_screen[row][column] ^= bit`: the screen afterwards,
and the log of the subscripts of the screen with `(row, column)` added. -/
def xorCell (s : Screen) (row column : Nat) (bit : Bool) (log : List (Nat × Nat)) :
    Screen × List (Nat × Nat) :=
  (setPixel s row column (xor (s row column) bit), log ++ [(row, column)])

/-- Body of the column loop of `Display::addSprite` with the accesses logged.
In `collision = collision || (screen[wrap_y][wrap_x] && bit)` the cell is read
only when `collision` is false; `screen[wrap_y][wrap_x] ^= bit` comes after. -/
def addSpriteColumnTraced (width height : Nat) (sprite_width sprite_byte sprite_word : Nat)
    (x y row column : Nat) (st : (Screen × Bool) × List (Nat × Nat)) :
    (Screen × Bool) × List (Nat × Nat) :=
  let bit := spriteBit sprite_width sprite_byte sprite_word column
  let wrap_x := (x + column) % width
  let wrap_y := (y + row) % height
  let rd := if st.1.2 then (false, st.2) else readCell st.1.1 wrap_y wrap_x st.2
  let collision := st.1.2 || (rd.1 && bit)
  let wr := xorCell st.1.1 wrap_y wrap_x bit rd.2
  ((wr.1, collision), wr.2)

/-- Body of the line loop of `Display::addSprite` with the accesses logged: the
state of `addSpriteRow`, the subscripts of `data` read so far and the
subscripts of the screen used so far. `data[data_row + 1]` is read only when
the sprite is 16 wide. -/
def addSpriteRowTraced (width height : Nat) (sprite : Sprite) (x y row : Nat)
    (st : (Screen × Bool × Nat) × List Nat × List (Nat × Nat)) :
    (Screen × Bool × Nat) × List Nat × List (Nat × Nat) :=
  let data_row := st.1.2.2
  let first := readData sprite data_row st.2.1
  let sprite_byte := first.1
  let second := if sprite.width = 16 then readData sprite (data_row + 1) first.2
    else (0, first.2)
  let sprite_word := if sprite.width = 16 then u16 ((sprite_byte <<< 8) ||| second.1) else 0
  let data_row1 := if sprite.width = 16 then u8 (data_row + 1) else data_row
  let drawn := forLoop 0 sprite.width
    (addSpriteColumnTraced width height sprite.width sprite_byte sprite_word x y row)
    ((st.1.1, st.1.2.1), st.2.2)
  ((drawn.1.1, drawn.1.2, u8 (data_row1 + 1)), second.2, drawn.2)

/-- Function `Display::addSprite` with the accesses logged: the display
afterwards and the collision flag, the subscripts of `data` read, and the
subscripts `(wrap_y, wrap_x)` of the screen used. -/
def addSpriteTraced (d : Display) (sprite : Sprite) (x y : Nat) :
    (Display × Bool) × List Nat × List (Nat × Nat) :=
  let res := forLoop 0 sprite.height
    (addSpriteRowTraced d.virtual_back_screen_width d.virtual_back_screen_height sprite x y)
    ((d.virtual_back_screen, false, 0), [], [])
  (({ d with virtual_back_screen := res.1.1 }, res.1.2.1), res.2.1, res.2.2)

end Display

/-! ## The two threads as a transition system

The worker (`VM::run`) and the presentation thread (`VM::drawLoop`) interleaved
freely: an action is one instruction of the worker, one host event, or the
worker leaving `_cpu_sleep_cv.wait`. -/

/-- The machine together with the place of the worker: `waiting` is true while
the worker is inside `_cpu_sleep_cv.wait`. -/
structure Emulation where
  vm : VM
  waiting : Bool

/-- One action of one of the two threads. -/
inductive Action where
  | instruction (env : Env)
  | host (event : HostEvent)
  | resume

namespace Emulation

/-- The effect of one action, or `none` when the action cannot take place.
An instruction is one iteration of the loop of `VM::run` up to the throttle
test, which sends the worker into the wait when `_cycle >= _target_cycles` and
the machine is running; the worker leaves the wait when its predicate
`!_running || _cycle == 0` holds. -/
def step (s : Emulation) : Action → Option Emulation
  | Action.instruction env =>
    if !s.waiting && s.vm.running && s.vm.program_loaded then
      match VM.fetchExecute env s.vm with
      | none => none
      | some res =>
        some { vm := res.1
               waiting := !res.2.2 &&
                 (decide (res.1.cycle ≥ res.1.target_cycles) && res.1.running) }
    else none
  | Action.host event => some { s with vm := s.vm.applyEvent event }
  | Action.resume =>
    if s.waiting && (!s.vm.running || decide (s.vm.cycle = 0)) then
      some { s with waiting := false }
    else none

/-- The effect of a list of actions, in order. -/
def steps : List Action → Emulation → Option Emulation
  | [], s => some s
  | a :: rest, s =>
    match s.step a with
    | none => none
    | some s1 => steps rest s1

/-- Whether a host event is a frame. -/
def isFrame : HostEvent → Bool
  | HostEvent.frame _ => true
  | HostEvent.stop => false

/-- Whether an action is a frame tick or contains one (an instruction takes
its host events while it waits in `FX0A`). -/
def hasFrame : Action → Bool
  | Action.instruction env => env.events.any isFrame
  | Action.host event => isFrame event
  | Action.resume => false

/-- Whether an action is an instruction of the worker. -/
def isInstruction : Action → Bool
  | Action.instruction _ => true
  | Action.host _ => false
  | Action.resume => false

/-- The number of instructions in a list of actions. -/
def instructions (actions : List Action) : Nat :=
  actions.countP isInstruction

/-- The emulation when `VM::turnOn` has started the two threads on the machine
`vm`: the worker is not waiting. -/
def start (vm : VM) : Emulation :=
  { vm := vm, waiting := false }

/-- The number of instructions the worker can still execute before the next
frame tick, as the throttle leaves it: none when the machine is stopped or the
worker waits on a counter that is not reset, and otherwise what is left of the
target. -/
def budget (s : Emulation) : Nat :=
  if s.vm.running = true then
    if s.waiting = true ∧ s.vm.cycle ≠ 0 then 0 else s.vm.target_cycles - s.vm.cycle
  else 0

end Emulation

/-! ## Auxiliary facts about the machine arithmetic and the loops -/

theorem u8_of_lt {n : Nat} (h : n < 256) : u8 n = n := Nat.mod_eq_of_lt h

theorem u16_of_lt {n : Nat} (h : n < 65536) : u16 n = n := Nat.mod_eq_of_lt h

theorem u8_lt (n : Nat) : u8 n < 256 := Nat.mod_lt _ (by decide)

theorem u16_lt (n : Nat) : u16 n < 65536 := Nat.mod_lt _ (by decide)

theorem sub8_of_le {a b : Nat} (hb : b ≤ a) (ha : a < 256) : sub8 a b = a - b := by
  unfold sub8
  omega

theorem sub8_of_lt {a b : Nat} (hab : a < b) (hb : b ≤ 256) : sub8 a b = a + 256 - b := by
  unfold sub8
  omega

theorem sub8_lt (a b : Nat) : sub8 a b < 256 := by
  unfold sub8
  omega

theorem setAt_apply {α : Type} (a : Nat → α) (i : Nat) (v : α) (j : Nat) :
    setAt a i v j = if j = i then v else a j := rfl

theorem setAt_same {α : Type} (a : Nat → α) (i : Nat) (v : α) : setAt a i v i = v := by
  simp [setAt]

theorem setAt_other {α : Type} (a : Nat → α) (i : Nat) (v : α) (j : Nat) (h : j ≠ i) :
    setAt a i v j = a j := by
  simp [setAt, h]

theorem forLoop_empty {σ : Type} (lo hi : Nat) (body : Nat → σ → σ) (s : σ) (h : hi ≤ lo) :
    forLoop lo hi body s = s := by
  unfold forLoop
  have : hi - lo = 0 := by omega
  simp [this]

theorem forLoop_succ {σ : Type} (lo hi : Nat) (body : Nat → σ → σ) (s : σ) (h : lo ≤ hi) :
    forLoop lo (hi + 1) body s = body hi (forLoop lo hi body s) := by
  unfold forLoop
  have h1 : hi + 1 - lo = (hi - lo) + 1 := by omega
  have h2 : lo + 1 * (hi - lo) = hi := by omega
  rw [h1, List.range'_concat, List.foldl_append, h2]
  rfl

/-- A mask of `n` ones shifted left by `k`, applied and shifted back, extracts
the `n` bits of `raw` from bit `k` on. -/
theorem and_mask_shiftRight (raw k n : Nat) :
    (raw &&& ((2 ^ n - 1) <<< k)) >>> k = raw / 2 ^ k % 2 ^ n := by
  apply Nat.eq_of_testBit_eq
  intro i
  rw [Nat.testBit_shiftRight, Nat.testBit_and, Nat.testBit_shiftLeft, Nat.testBit_mod_two_pow,
    ← Nat.shiftRight_eq_div_pow, Nat.testBit_shiftRight, Nat.testBit_two_pow_sub_one]
  have h1 : k + i ≥ k := Nat.le_add_right k i
  have h2 : k + i - k = i := Nat.add_sub_cancel_left ..
  simp only [h1, h2, decide_True, Bool.true_and]
  exact Bool.and_comm _ _

/-- A byte shifted into the high half of a word and or-ed with a byte. -/
theorem shiftLeft8_or {a b : Nat} (hb : b < 256) : (a <<< 8) ||| b = 256 * a + b := by
  have h : 2 ^ 8 * a + b = 2 ^ 8 * a ||| b := Nat.mul_add_lt_is_or hb a
  rw [Nat.shiftLeft_eq, Nat.mul_comm a (2 ^ 8), ← h]
  omega

theorem copyData_apply (memory data : Nat → Nat) (size offset a : Nat) :
    RAM.copyData memory data size offset a =
      if offset ≤ a ∧ a < offset + size then data (a - offset) else memory a := by
  unfold RAM.copyData
  induction size with
  | zero =>
    rw [forLoop_empty _ _ _ _ (Nat.le_refl 0)]
    have : ¬ (offset ≤ a ∧ a < offset + 0) := by omega
    rw [if_neg this]
  | succ n ih =>
    rw [forLoop_succ _ _ _ _ (Nat.zero_le n)]
    show setAt _ (offset + n) (data n) a = _
    rw [setAt_apply]
    by_cases h : a = offset + n
    · subst h
      have e : offset + n - offset = n := by omega
      simp [e]
    · rw [if_neg h, ih]
      by_cases h1 : offset ≤ a ∧ a < offset + n
      · have h2 : offset ≤ a ∧ a < offset + (n + 1) := by omega
        rw [if_pos h1, if_pos h2]
      · have h2 : ¬ (offset ≤ a ∧ a < offset + (n + 1)) := by omega
        rw [if_neg h1, if_neg h2]

/-! ## RAM: byte and word access, loading -/

/-- C1: for every RAM state, every address `a < 4096` and every value `v`,
`writeByte(a, v)` succeeds (the error code is left as it was), afterwards
`readByte(a)` returns `v`, and `readByte(b)` at any other address `b < 4096`
returns what it returned before the write. -/
theorem writeByte_readByte (ram : RAM) (a v : Nat) (ha : a < 4096) :
    (∀ ec, (ram.writeByte a v ec).2 = ec) ∧
    (∀ ec ec1, (ram.writeByte a v ec).1.readByte a ec1 = (v, ec1)) ∧
    (∀ b, b < 4096 → b ≠ a → ∀ ec ec1,
      (ram.writeByte a v ec).1.readByte b ec1 = ram.readByte b ec1) := by
  have hna : ¬ a ≥ RAM_SIZE := by simp only [RAM_SIZE]; omega
  refine ⟨?_, ?_, ?_⟩
  · intro ec
    simp only [RAM.writeByte, if_neg hna]
  · intro ec ec1
    simp only [RAM.writeByte, RAM.readByte, if_neg hna, setAt_same]
  · intro b hb hba ec ec1
    have hnb : ¬ b ≥ RAM_SIZE := by simp only [RAM_SIZE]; omega
    simp only [RAM.writeByte, RAM.readByte, if_neg hna, if_neg hnb, setAt_other _ _ _ _ hba]

/-- Witness of C1: writing 0xAB at address 0x300 of a zeroed memory. -/
theorem writeByte_readByte_witness :
    (0x300 < 4096) ∧
    (((RAM.mk (fun _ => 0)).writeByte 0x300 0xAB none).1.readByte 0x300 none = (0xAB, none)) :=
  ⟨by decide, (writeByte_readByte (RAM.mk (fun _ => 0)) 0x300 0xAB (by decide)).2.1 none none⟩

/-- C2: `readByte(a)` and `writeByte(a, v)` report `OUT_OF_RANGE` if and only if
`a ≥ 4096`; when they report it `readByte` returns 0 and the memory handed back
by `writeByte` is the memory it was given. -/
theorem readByte_writeByte_out_of_range (ram : RAM) (a v : Nat) :
    ((ram.readByte a none).2 = some Error.OUT_OF_RANGE ↔ a ≥ 4096) ∧
    ((ram.writeByte a v none).2 = some Error.OUT_OF_RANGE ↔ a ≥ 4096) ∧
    (a ≥ 4096 → ∀ ec, ram.readByte a ec = (0, some Error.OUT_OF_RANGE) ∧
      ram.writeByte a v ec = (ram, some Error.OUT_OF_RANGE)) := by
  refine ⟨?_, ?_, ?_⟩
  · by_cases h : a ≥ RAM_SIZE
    · rw [RAM.readByte, if_pos h]
      exact ⟨fun _ => h, fun _ => rfl⟩
    · rw [RAM.readByte, if_neg h]
      exact ⟨fun e => Option.noConfusion e, fun h2 => absurd h2 h⟩
  · by_cases h : a ≥ RAM_SIZE
    · rw [RAM.writeByte, if_pos h]
      exact ⟨fun _ => h, fun _ => rfl⟩
    · rw [RAM.writeByte, if_neg h]
      exact ⟨fun e => Option.noConfusion e, fun h2 => absurd h2 h⟩
  · intro h ec
    have h1 : a ≥ RAM_SIZE := h
    simp only [RAM.readByte, RAM.writeByte, if_pos h1, and_self]

/-- C3: `readWord(a)` reports `OUT_OF_RANGE` exactly when `a + 1 ≥ 4096`,
returning 0; otherwise it leaves the error code as it was and returns the
big-endian value `256 * byte[a] + byte[a+1]`. (The function is `const`: it has
no memory to hand back.) -/
theorem readWord_spec (ram : RAM) (hwf : ram.WF) (a : Nat) :
    ((ram.readWord a none).2 = some Error.OUT_OF_RANGE ↔ a + 1 ≥ 4096) ∧
    (a + 1 ≥ 4096 → ∀ ec, ram.readWord a ec = (0, some Error.OUT_OF_RANGE)) ∧
    (a + 1 < 4096 → ∀ ec,
      ram.readWord a ec = (256 * ram.memory a + ram.memory (a + 1), ec)) := by
  refine ⟨?_, ?_, ?_⟩
  · by_cases h : a + 1 ≥ RAM_SIZE
    · rw [RAM.readWord, if_pos h]
      exact ⟨fun _ => h, fun _ => rfl⟩
    · rw [RAM.readWord, if_neg h]
      exact ⟨fun e => Option.noConfusion e, fun h2 => absurd h2 h⟩
  · intro h ec
    have h1 : a + 1 ≥ RAM_SIZE := h
    simp only [RAM.readWord, if_pos h1]
  · intro h ec
    have h1 : ¬ a + 1 ≥ RAM_SIZE := by simp only [RAM_SIZE]; omega
    have hb0 : ram.memory a < 256 := hwf a (by simp only [RAM_SIZE]; omega)
    have hb1 : ram.memory (a + 1) < 256 := hwf (a + 1) (by simp only [RAM_SIZE]; omega)
    simp only [RAM.readWord, if_neg h1, shiftLeft8_or hb1]
    rw [u16_of_lt (by omega)]

/-- Witness of C3: the words at 0x0FFE, 0x0FFF and 0xFFFF of the memory whose
cell `a` holds `a mod 256`. -/
theorem readWord_spec_witness :
    (RAM.mk (fun a => a % 256)).readWord 0x0FFE none = (0xFEFF, none) ∧
    (RAM.mk (fun a => a % 256)).readWord 0x0FFF none = (0, some Error.OUT_OF_RANGE) ∧
    (RAM.mk (fun a => a % 256)).readWord 0xFFFF none = (0, some Error.OUT_OF_RANGE) :=
  have hwf : (RAM.mk (fun a => a % 256)).WF := fun a _ => Nat.mod_lt a (by decide)
  ⟨(readWord_spec (RAM.mk (fun a => a % 256)) hwf 0x0FFE).2.2 (by decide) none,
   (readWord_spec (RAM.mk (fun a => a % 256)) hwf 0x0FFF).2.1 (by decide) none,
   (readWord_spec (RAM.mk (fun a => a % 256)) hwf 0xFFFF).2.1 (by decide) none⟩

/-- Witness of C2: address 4095 is accepted, address 4096 is refused. -/
theorem readByte_writeByte_out_of_range_witness :
    (RAM.mk (fun _ => 7)).readByte 4096 none = (0, some Error.OUT_OF_RANGE) ∧
    ¬ ((RAM.mk (fun _ => 7)).readByte 4095 none).2 = some Error.OUT_OF_RANGE :=
  ⟨((readByte_writeByte_out_of_range (RAM.mk (fun _ => 7)) 4096 0).2.2 (by decide) none).1,
   fun h => absurd ((readByte_writeByte_out_of_range (RAM.mk (fun _ => 7)) 4095 0).1.mp h)
     (by decide)⟩

/-- C4: `loadData(data, size, offset)`, for a 16-bit `offset` and a `size`
that is the size of an object (below `2 ^ 63`), reports `OUT_OF_RANGE` exactly
when `offset + size > 4096` and then hands back the memory untouched; otherwise
the error code is left as it was, cell `offset + i` holds `data[i]` for every
`i < size` and every cell outside `[offset, offset + size)` is unchanged. A
program file that opens is accepted by `loadProgram` (no error, the program
marked as loaded) exactly when it is at most 3584 bytes long. -/
theorem loadData_spec (ram : RAM) (data : Nat → Nat) (size offset : Nat)
    (hoffset : offset < 65536) (hsize : size < 2 ^ 63) :
    ((ram.loadData data size offset none).2 = some Error.OUT_OF_RANGE ↔
      offset + size > 4096) ∧
    (offset + size > 4096 → ∀ ec,
      ram.loadData data size offset ec = (ram, some Error.OUT_OF_RANGE)) ∧
    (offset + size ≤ 4096 → ∀ ec,
      (ram.loadData data size offset ec).2 = ec ∧
      (∀ i, i < size → (ram.loadData data size offset ec).1.memory (offset + i) = data i) ∧
      (∀ a, (a < offset ∨ offset + size ≤ a) →
        (ram.loadData data size offset ec).1.memory a = ram.memory a)) ∧
    (∀ (vm : VM) (buffer : List Nat), buffer.length = size →
      (((vm.loadProgram (some buffer) none).2 = none ∧
        (vm.loadProgram (some buffer) none).1.program_loaded = true) ↔ size ≤ 3584)) := by
  have hmod : (offset + size) % 2 ^ 64 = offset + size := Nat.mod_eq_of_lt (by omega)
  have hmod2 : (ROM_START + size) % 2 ^ 64 = ROM_START + size :=
    Nat.mod_eq_of_lt (by simp only [ROM_START]; omega)
  refine ⟨?_, ?_, ?_, ?_⟩
  · by_cases h : offset + size > RAM_SIZE
    · rw [RAM.loadData, hmod, if_pos h]
      exact ⟨fun _ => h, fun _ => rfl⟩
    · rw [RAM.loadData, hmod, if_neg h]
      exact ⟨fun e => Option.noConfusion e, fun h2 => absurd h2 h⟩
  · intro h ec
    have h1 : offset + size > RAM_SIZE := h
    rw [RAM.loadData, hmod, if_pos h1]
  · intro h ec
    have h1 : ¬ offset + size > RAM_SIZE := by simp only [RAM_SIZE]; omega
    rw [RAM.loadData, hmod, if_neg h1]
    refine ⟨rfl, ?_, ?_⟩
    · intro i hi
      show RAM.copyData _ _ _ _ _ = _
      rw [copyData_apply, if_pos (by omega)]
      congr 1
      omega
    · intro a ha
      show RAM.copyData _ _ _ _ _ = _
      rw [copyData_apply, if_neg (by omega)]
  · intro vm buffer hlen
    subst hlen
    by_cases h : ROM_START + buffer.length > RAM_SIZE
    · have h3 : ¬ buffer.length ≤ 3584 := by
        simp only [ROM_START, RAM_SIZE] at h
        omega
      simp only [VM.loadProgram, RAM.loadData, hmod2, if_pos h, Option.isSome_some, if_true]
      exact ⟨fun e => Option.noConfusion e.1, fun h2 => absurd h2 h3⟩
    · have h3 : buffer.length ≤ 3584 := by
        simp only [ROM_START, RAM_SIZE] at h
        omega
      simp only [VM.loadProgram, RAM.loadData, hmod2, if_neg h, Option.isSome_none]
      exact ⟨fun _ => h3, fun _ => ⟨rfl, rfl⟩⟩

/-- Witness of C4: the two-byte program `60 05` loaded at 0x200. -/
theorem loadData_spec_witness :
    ((RAM.mk (fun _ => 0)).loadData (fun i => [0x60, 0x05].getD i 0) 2 0x200 none).2 = none ∧
    ((RAM.mk (fun _ => 0)).loadData (fun i => [0x60, 0x05].getD i 0) 2 0x200 none).1.memory
      (0x200 + 1) = 0x05 :=
  have h := (loadData_spec (RAM.mk (fun _ => 0)) (fun i => [0x60, 0x05].getD i 0) 2 0x200
    (by decide) (by decide)).2.2.1 (by decide) none
  ⟨h.1, h.2.1 1 (by decide)⟩

/-! ## Registers: the call stack -/

/-- C5: `pushToStack(value)` reports `STACK_OVERFLOW` exactly when `sp ≥ 16`
and then hands back the registers untouched; otherwise it stores `value` at
slot `sp` and increases `sp` by exactly one. `popFromStack` reports
`STACK_UNDERFLOW` exactly when `sp = 0` and then hands back the registers
untouched (returning 0); otherwise it decreases `sp` by exactly one and returns
the entry at the new `sp`. -/
theorem pushToStack_popFromStack_spec (r : Registers) (value : Nat) (hsp : r.sp < 256) :
    ((r.pushToStack value none).2 = some Error.STACK_OVERFLOW ↔ r.sp ≥ 16) ∧
    (r.sp ≥ 16 → ∀ ec, r.pushToStack value ec = (r, some Error.STACK_OVERFLOW)) ∧
    (r.sp < 16 → ∀ ec, r.pushToStack value ec =
      ({ r with stack := setAt r.stack r.sp value, sp := r.sp + 1 }, ec)) ∧
    ((r.popFromStack none).2.2 = some Error.STACK_UNDERFLOW ↔ r.sp = 0) ∧
    (r.sp = 0 → ∀ ec, r.popFromStack ec = (0, r, some Error.STACK_UNDERFLOW)) ∧
    (r.sp ≠ 0 → ∀ ec, r.popFromStack ec =
      (r.stack (r.sp - 1), { r with sp := r.sp - 1 }, ec)) := by
  refine ⟨?_, ?_, ?_, ?_, ?_, ?_⟩
  · by_cases h : r.sp ≥ STACK_SIZE
    · rw [Registers.pushToStack, if_pos h]
      exact ⟨fun _ => h, fun _ => rfl⟩
    · rw [Registers.pushToStack, if_neg h]
      exact ⟨fun e => Option.noConfusion e, fun h2 => absurd h2 h⟩
  · intro h ec
    have h1 : r.sp ≥ STACK_SIZE := h
    rw [Registers.pushToStack, if_pos h1]
  · intro h ec
    have h1 : ¬ r.sp ≥ STACK_SIZE := by simp only [STACK_SIZE]; omega
    rw [Registers.pushToStack, if_neg h1, u8_of_lt (by omega)]
  · by_cases h : r.sp = 0
    · rw [Registers.popFromStack, if_pos h]
      exact ⟨fun _ => h, fun _ => rfl⟩
    · rw [Registers.popFromStack, if_neg h]
      exact ⟨fun e => Option.noConfusion e, fun h2 => absurd h2 h⟩
  · intro h ec
    rw [Registers.popFromStack, if_pos h]
  · intro h ec
    rw [Registers.popFromStack, if_neg h]
    simp only [sub8_of_le (Nat.one_le_iff_ne_zero.mpr h) hsp]

/-- Witness of C5: a push onto the empty stack, and a pop from it. -/
theorem pushToStack_popFromStack_spec_witness :
    (Registers.initial.pushToStack 0x202 none).1.sp = 1 ∧
    (Registers.initial.pushToStack 0x202 none).1.stack 0 = 0x202 ∧
    Registers.initial.popFromStack none = (0, Registers.initial, some Error.STACK_UNDERFLOW) :=
  have h := pushToStack_popFromStack_spec Registers.initial 0x202 (by decide)
  ⟨congrArg (fun p => p.1.sp) (h.2.2.1 (by decide) none),
   congrArg (fun p => p.1.stack 0) (h.2.2.1 (by decide) none),
   h.2.2.2.2.1 rfl none⟩

theorem pushAll_cons (r : Registers) (v : Nat) (vs : List Nat) (ec : ErrorCode) :
    r.pushAll (v :: vs) ec = (r.pushToStack v ec).1.pushAll vs (r.pushToStack v ec).2 := rfl

/-- Pushing a list that fits: no error, `sp` grows by the length, the values
sit in the slots from the old `sp` on, and the slots below are untouched. -/
theorem pushAll_spec (values : List Nat) : ∀ (r : Registers) (ec : ErrorCode),
    r.sp + values.length ≤ 16 →
    (r.pushAll values ec).2 = ec ∧
    (r.pushAll values ec).1.sp = r.sp + values.length ∧
    (∀ i v, values[i]? = some v → (r.pushAll values ec).1.stack (r.sp + i) = v) ∧
    (∀ j, j < r.sp → (r.pushAll values ec).1.stack j = r.stack j) := by
  induction values with
  | nil =>
    intro r ec _
    refine ⟨rfl, rfl, ?_, fun _ _ => rfl⟩
    intro i v h
    simp at h
  | cons v vs ih =>
    intro r ec hlen
    simp only [List.length_cons] at hlen
    have hpush : r.pushToStack v ec =
        ({ r with stack := setAt r.stack r.sp v, sp := r.sp + 1 }, ec) := by
      have h1 : ¬ r.sp ≥ STACK_SIZE := by simp only [STACK_SIZE]; omega
      rw [Registers.pushToStack, if_neg h1, u8_of_lt (by omega)]
    rw [pushAll_cons, hpush]
    dsimp only
    obtain ⟨h1, h2, h3, h4⟩ :=
      ih { r with stack := setAt r.stack r.sp v, sp := r.sp + 1 } ec (by simp only; omega)
    simp only at h1 h2 h3 h4
    refine ⟨h1, ?_, ?_, ?_⟩
    · rw [h2, List.length_cons]
      omega
    · intro i w hi
      cases i with
      | zero =>
        simp only [List.getElem?_cons_zero, Option.some.injEq] at hi
        rw [← hi]
        exact (h4 r.sp (Nat.lt_succ_self _)).trans (setAt_same _ _ _)
      | succ k =>
        simp only [List.getElem?_cons_succ] at hi
        have := h3 k w hi
        rw [← this]
        congr 1
        omega
    · intro j hj
      rw [h4 j (by omega), setAt_other _ _ _ _ (by omega)]

/-- Popping `n` entries from a stack holding at least `n`: the values returned
are the slots from `sp - 1` downwards, `sp` drops by `n`, no error. -/
theorem popN_spec (n : Nat) : ∀ (r : Registers) (ec : ErrorCode), n ≤ r.sp → r.sp < 256 →
    r.popN n ec =
      ((List.range n).map (fun i => r.stack (r.sp - 1 - i)), { r with sp := r.sp - n }, ec) := by
  induction n with
  | zero =>
    intro r ec _ _
    rfl
  | succ n ih =>
    intro r ec hn hsp
    have hne : ¬ r.sp = 0 := by omega
    have hpop : r.popFromStack ec = (r.stack (r.sp - 1), { r with sp := r.sp - 1 }, ec) := by
      rw [Registers.popFromStack, if_neg hne]
      simp only [sub8_of_le (show 1 ≤ r.sp by omega) hsp]
    rw [Registers.popN, hpop]
    simp only
    rw [ih { r with sp := r.sp - 1 } ec (by simp only; omega) (by simp only; omega)]
    have e1 : ∀ i, r.stack (r.sp - 1 - 1 - i) = r.stack (r.sp - 1 - (i + 1)) := by
      intro i
      congr 1
      omega
    have e2 : r.sp - 1 - n = r.sp - (n + 1) := by omega
    simp only [List.range_succ_eq_map, List.map_cons, List.map_map, Nat.sub_zero,
      Function.comp_def, Nat.succ_eq_add_one, e1, e2]

/-- C6: stack push/pop is LIFO. For every list of at most 16 values pushed in
order onto an empty stack (`sp = 0`), all the pushes succeed, and as many pops
then succeed and return the values in reverse order, leaving `sp = 0`. -/
theorem push_pop_LIFO (r : Registers) (values : List Nat)
    (hlen : values.length ≤ 16) (hsp : r.sp = 0) :
    (∀ k, (r.pushAll (values.take k) none).2 = none) ∧
    (r.pushAll values none).2 = none ∧
    (r.pushAll values none).1.sp = values.length ∧
    (∀ k, k ≤ values.length → ((r.pushAll values none).1.popN k none).2.2 = none) ∧
    ((r.pushAll values none).1.popN values.length none).1 = values.reverse ∧
    ((r.pushAll values none).1.popN values.length none).2.2 = none ∧
    ((r.pushAll values none).1.popN values.length none).2.1.sp = 0 := by
  obtain ⟨h1, h2, h3, _⟩ := pushAll_spec values r none (by omega)
  rw [hsp, Nat.zero_add] at h2
  have hpre : ∀ k, (r.pushAll (values.take k) none).2 = none := by
    intro k
    have hk : (values.take k).length ≤ values.length := by
      rw [List.length_take]
      exact Nat.min_le_right _ _
    exact (pushAll_spec (values.take k) r none (by omega)).1
  have hpop : ∀ k, k ≤ values.length →
      ((r.pushAll values none).1.popN k none).2.2 = none := by
    intro k hk
    rw [popN_spec k _ none (by omega) (by omega)]
  rw [popN_spec values.length _ none (by omega) (by omega)]
  refine ⟨hpre, h1, h2, hpop, ?_, rfl, ?_⟩
  · apply List.ext_getElem
    · simp
    · intro i hi1 hi2
      simp only [List.length_map, List.length_range] at hi1
      simp only [List.getElem_map, List.getElem_range, List.getElem_reverse]
      have h := h3 (values.length - 1 - i) (values[values.length - 1 - i])
        (List.getElem?_eq_getElem (by omega))
      rw [hsp, Nat.zero_add] at h
      rw [h2, h]
  · simp only [h2, Nat.sub_self]

/-- Witness of C6: three return addresses pushed onto the initial registers. -/
theorem push_pop_LIFO_witness :
    ((Registers.initial.pushAll [0x202, 0x310, 0x4AC] none).1.popN 3 none).1
      = [0x4AC, 0x310, 0x202] :=
  (push_pop_LIFO Registers.initial [0x202, 0x310, 0x4AC] (by decide) rfl).2.2.2.2.1

/-! ## Opcode decoding -/

theorem decode_category (w : Nat) : (Opcode.decode w).category = u8 (w / 4096 % 16) := by
  have h := and_mask_shiftRight w 12 4
  have e : MASK_CATEGORY = (2 ^ 4 - 1) <<< 12 := by decide
  simp only [Opcode.decode, e, h]
  norm_num

theorem decode_X (w : Nat) : (Opcode.decode w).X = w / 256 % 16 := by
  have h := and_mask_shiftRight w 8 4
  have e : MASK_X = (2 ^ 4 - 1) <<< 8 := by decide
  simp only [Opcode.decode, e, h]
  rw [u8_of_lt (by omega)]
  norm_num

theorem decode_Y (w : Nat) : (Opcode.decode w).Y = w / 16 % 16 := by
  have h := and_mask_shiftRight w 4 4
  have e : MASK_Y = (2 ^ 4 - 1) <<< 4 := by decide
  simp only [Opcode.decode, e, h]
  rw [u8_of_lt (by omega)]
  norm_num

theorem decode_N (w : Nat) : (Opcode.decode w).N = w % 16 := by
  have h := Nat.and_pow_two_sub_one_eq_mod w 4
  have e : MASK_N = 2 ^ 4 - 1 := by decide
  simp only [Opcode.decode, e, h]
  rw [u8_of_lt (by omega)]

theorem decode_NN (w : Nat) : (Opcode.decode w).NN = w % 256 := by
  have h := Nat.and_pow_two_sub_one_eq_mod w 8
  have e : MASK_NN = 2 ^ 8 - 1 := by decide
  simp only [Opcode.decode, e, h]
  rw [u8_of_lt (by omega)]

theorem decode_NNN (w : Nat) : (Opcode.decode w).NNN = w % 4096 := by
  have h := Nat.and_pow_two_sub_one_eq_mod w 12
  have e : MASK_NNN = 2 ^ 12 - 1 := by decide
  simp only [Opcode.decode, e, h]
  rw [u16_of_lt (by omega)]

/-- C8: for every 16-bit word `w`, the decoded opcode has category
`w div 4096`, `X = (w div 256) mod 16`, `Y = (w div 16) mod 16`, `N = w mod 16`,
`NN = w mod 256` and `NNN = w mod 4096`; category, `X`, `Y` and `N` are below
16, so `X` and `Y` index one of the 16 registers. -/
theorem decode_fields (w : Nat) (hw : w < 65536) :
    (Opcode.decode w).category = w / 4096 ∧
    (Opcode.decode w).X = w / 256 % 16 ∧
    (Opcode.decode w).Y = w / 16 % 16 ∧
    (Opcode.decode w).N = w % 16 ∧
    (Opcode.decode w).NN = w % 256 ∧
    (Opcode.decode w).NNN = w % 4096 ∧
    (Opcode.decode w).raw = w ∧
    (Opcode.decode w).category < 16 ∧
    (Opcode.decode w).X < REGISTERS ∧
    (Opcode.decode w).Y < REGISTERS ∧
    (Opcode.decode w).N < 16 := by
  have hc : (Opcode.decode w).category = w / 4096 := by
    rw [decode_category, u8_of_lt (by omega)]
    omega
  refine ⟨hc, decode_X w, decode_Y w, decode_N w, decode_NN w, decode_NNN w, rfl,
    ?_, ?_, ?_, ?_⟩
  · rw [hc]
    omega
  · rw [decode_X]
    exact Nat.mod_lt _ (by decide)
  · rw [decode_Y]
    exact Nat.mod_lt _ (by decide)
  · rw [decode_N]
    exact Nat.mod_lt _ (by decide)

/-- Witness of C8: the word `0xD12A` decodes to category `0xD`, `X = 1`,
`Y = 2`, `N = 0xA`, `NN = 0x2A`, `NNN = 0x12A`. -/
theorem decode_fields_witness :
    (Opcode.decode 0xD12A).category = 0xD ∧ (Opcode.decode 0xD12A).X = 1 ∧
    (Opcode.decode 0xD12A).Y = 2 ∧ (Opcode.decode 0xD12A).N = 0xA ∧
    (Opcode.decode 0xD12A).NN = 0x2A ∧ (Opcode.decode 0xD12A).NNN = 0x12A :=
  have h := decode_fields 0xD12A (by decide)
  ⟨h.1, h.2.1, h.2.2.1, h.2.2.2.1, h.2.2.2.2.1, h.2.2.2.2.2.1⟩

/-! ## The stack pointer stays within bounds -/

theorem updateTimers_sp (vm : VM) : vm.updateTimers.registers.sp = vm.registers.sp := by
  unfold VM.updateTimers
  dsimp only
  split_ifs <;> rfl

theorem updateTimers_running (vm : VM) : vm.updateTimers.running = vm.running := by
  unfold VM.updateTimers
  dsimp only
  split_ifs <;> rfl

theorem applyEvent_sp (vm : VM) (e : HostEvent) :
    (vm.applyEvent e).registers.sp = vm.registers.sp := by
  cases e with
  | frame k =>
    show (VM.updateTimers _).registers.sp = _
    rw [updateTimers_sp]
  | stop => rfl

theorem awaitRelease_sp (i : Nat) (evs : List HostEvent) : ∀ (vm : VM) res,
    VM.awaitRelease i evs vm = some res → res.1.registers.sp = vm.registers.sp := by
  induction evs with
  | nil =>
    intro vm res h
    unfold VM.awaitRelease at h
    split_ifs at h
    cases h
    rfl
  | cons e rest ih =>
    intro vm res h
    unfold VM.awaitRelease at h
    split_ifs at h
    · rw [ih _ _ h, applyEvent_sp]
    · cases h
      rfl

theorem waitKey_sp (X : Nat) (evs : List HostEvent) : ∀ (vm : VM) res,
    VM.waitKey X evs vm = some res → res.1.registers.sp = vm.registers.sp := by
  induction evs with
  | nil =>
    intro vm res h
    unfold VM.waitKey at h
    split_ifs at h
    · cases h
      rfl
    · split at h
      · obtain ⟨a, ha, hres⟩ := Option.map_eq_some'.mp h
        rw [← hres]
        exact awaitRelease_sp _ _ _ a ha
      · cases h
  | cons e rest ih =>
    intro vm res h
    unfold VM.waitKey at h
    split_ifs at h
    · cases h
      rfl
    · split at h
      · obtain ⟨a, ha, hres⟩ := Option.map_eq_some'.mp h
        rw [← hres]
        exact awaitRelease_sp _ _ _ a ha
      · rw [ih _ _ h, applyEvent_sp]

theorem pushToStack_sp_le (r : Registers) (value : Nat) (ec : ErrorCode) (h : r.sp ≤ 16) :
    (r.pushToStack value ec).1.sp ≤ 16 := by
  unfold Registers.pushToStack
  split_ifs with h1
  · exact h
  · simp only [STACK_SIZE] at h1
    show u8 (r.sp + 1) ≤ 16
    rw [u8_of_lt (by omega)]
    omega

theorem popFromStack_sp_le (r : Registers) (ec : ErrorCode) (h : r.sp ≤ 16) :
    (r.popFromStack ec).2.1.sp ≤ 16 := by
  unfold Registers.popFromStack
  split_ifs with h1
  · exact h
  · show sub8 r.sp 1 ≤ 16
    rw [sub8_of_le (by omega) (by omega)]
    omega

theorem executeCategory0_sp_le (vm : VM) (opcode : Opcode) (ec : ErrorCode)
    (h : vm.registers.sp ≤ 16) : (vm.executeCategory0 opcode ec).1.registers.sp ≤ 16 := by
  unfold VM.executeCategory0
  split_ifs
  all_goals first
    | exact h
    | exact popFromStack_sp_le _ _ h

theorem executeCategory2_sp_le (vm : VM) (opcode : Opcode) (ec : ErrorCode)
    (h : vm.registers.sp ≤ 16) : (vm.executeCategory2 opcode ec).1.registers.sp ≤ 16 :=
  pushToStack_sp_le _ _ _ h

theorem executeCategory8_sp (vm : VM) (opcode : Opcode) (ec : ErrorCode) :
    (vm.executeCategory8 opcode ec).1.registers.sp = vm.registers.sp := by
  unfold VM.executeCategory8
  dsimp only
  split_ifs <;> rfl

theorem executeCategoryD_sp (vm : VM) (opcode : Opcode) (ec : ErrorCode) :
    (vm.executeCategoryD opcode ec).1.registers.sp = vm.registers.sp := by
  unfold VM.executeCategoryD
  dsimp only
  split_ifs <;> rfl

theorem executeCategoryE_sp (vm : VM) (opcode : Opcode) (ec : ErrorCode) :
    (vm.executeCategoryE opcode ec).1.registers.sp = vm.registers.sp := by
  unfold VM.executeCategoryE
  split_ifs <;> rfl

/-- Case analysis on a conditional whose branches may produce a result. -/
theorem ite_some_ind {α : Type} (Q : α → Prop) (c : Prop) [Decidable c] (a b : Option α)
    (ha : c → ∀ res, a = some res → Q res) (hb : ¬ c → ∀ res, b = some res → Q res) :
    ∀ res, (if c then a else b) = some res → Q res := by
  split_ifs with h
  · exact ha h
  · exact hb h

theorem executeCategoryF_sp (env : Env) (vm : VM) (opcode : Opcode) (ec : ErrorCode) :
    ∀ res, VM.executeCategoryF env vm opcode ec = some res →
      res.1.registers.sp = vm.registers.sp := by
  unfold VM.executeCategoryF
  dsimp only
  repeat' refine ite_some_ind _ _ _ _ (fun _ => ?_) (fun _ => ?_)
  all_goals intro res h
  all_goals first
    | (cases h; rfl)
    | (obtain ⟨a, ha, hres⟩ := Option.map_eq_some'.mp h
       rw [← hres]
       exact waitKey_sp _ _ _ a ha)

theorem executeCategory3_sp (vm : VM) (opcode : Opcode) (ec : ErrorCode) :
    (vm.executeCategory3 opcode ec).1.registers.sp = vm.registers.sp := by
  unfold VM.executeCategory3
  split_ifs <;> rfl

theorem executeCategory4_sp (vm : VM) (opcode : Opcode) (ec : ErrorCode) :
    (vm.executeCategory4 opcode ec).1.registers.sp = vm.registers.sp := by
  unfold VM.executeCategory4
  split_ifs <;> rfl

theorem executeCategory5_sp (vm : VM) (opcode : Opcode) (ec : ErrorCode) :
    (vm.executeCategory5 opcode ec).1.registers.sp = vm.registers.sp := by
  unfold VM.executeCategory5
  split_ifs <;> rfl

theorem executeCategory9_sp (vm : VM) (opcode : Opcode) (ec : ErrorCode) :
    (vm.executeCategory9 opcode ec).1.registers.sp = vm.registers.sp := by
  unfold VM.executeCategory9
  split_ifs <;> rfl

/-- Executing any opcode keeps `sp ≤ 16`. -/
theorem executeOpcode_sp_le (env : Env) (vm : VM) (opcode : Opcode) (ec : ErrorCode)
    (hsp : vm.registers.sp ≤ 16) :
    ∀ res, VM.executeOpcode env vm opcode ec = some res → res.1.registers.sp ≤ 16 := by
  unfold VM.executeOpcode
  refine ite_some_ind _ _ _ _ (fun _ r h => ?_) (fun _ => ?_)
  · cases h
    exact executeCategory0_sp_le _ _ _ hsp
  refine ite_some_ind _ _ _ _ (fun _ r h => ?_) (fun _ => ?_)
  · cases h
    exact hsp
  refine ite_some_ind _ _ _ _ (fun _ r h => ?_) (fun _ => ?_)
  · cases h
    exact executeCategory2_sp_le _ _ _ hsp
  refine ite_some_ind _ _ _ _ (fun _ r h => ?_) (fun _ => ?_)
  · cases h
    exact (executeCategory3_sp _ _ _).le.trans hsp
  refine ite_some_ind _ _ _ _ (fun _ r h => ?_) (fun _ => ?_)
  · cases h
    exact (executeCategory4_sp _ _ _).le.trans hsp
  refine ite_some_ind _ _ _ _ (fun _ r h => ?_) (fun _ => ?_)
  · cases h
    exact (executeCategory5_sp _ _ _).le.trans hsp
  refine ite_some_ind _ _ _ _ (fun _ r h => ?_) (fun _ => ?_)
  · cases h
    exact hsp
  refine ite_some_ind _ _ _ _ (fun _ r h => ?_) (fun _ => ?_)
  · cases h
    exact hsp
  refine ite_some_ind _ _ _ _ (fun _ r h => ?_) (fun _ => ?_)
  · cases h
    exact (executeCategory8_sp _ _ _).le.trans hsp
  refine ite_some_ind _ _ _ _ (fun _ r h => ?_) (fun _ => ?_)
  · cases h
    exact (executeCategory9_sp _ _ _).le.trans hsp
  refine ite_some_ind _ _ _ _ (fun _ r h => ?_) (fun _ => ?_)
  · cases h
    exact hsp
  refine ite_some_ind _ _ _ _ (fun _ r h => ?_) (fun _ => ?_)
  · cases h
    exact hsp
  refine ite_some_ind _ _ _ _ (fun _ r h => ?_) (fun _ => ?_)
  · cases h
    exact hsp
  refine ite_some_ind _ _ _ _ (fun _ r h => ?_) (fun _ => ?_)
  · cases h
    exact (executeCategoryD_sp _ _ _).le.trans hsp
  refine ite_some_ind _ _ _ _ (fun _ r h => ?_) (fun _ => ?_)
  · cases h
    exact (executeCategoryE_sp _ _ _).le.trans hsp
  refine ite_some_ind _ _ _ _ (fun _ r h => ?_) (fun _ r h => ?_)
  · exact (executeCategoryF_sp env vm opcode ec r h).le.trans hsp
  · cases h
    exact hsp

/-- Case analysis on a conditional, to show that it produces a result. -/
theorem ite_isSome {α : Type} (c : Prop) [Decidable c] (a b : Option α)
    (ha : c → a.isSome = true) (hb : ¬ c → b.isSome = true) :
    (if c then a else b).isSome = true := by
  split_ifs with h
  · exact ha h
  · exact hb h

theorem applyEvent_stop_running (vm : VM) : (vm.applyEvent HostEvent.stop).running = false := rfl

theorem awaitRelease_not_running (i : Nat) (evs : List HostEvent) (vm : VM)
    (h : vm.running = false) : VM.awaitRelease i evs vm = some (vm, evs) := by
  cases evs with
  | nil => simp [VM.awaitRelease, h]
  | cons e rest => simp [VM.awaitRelease, h]

/-- The inner loop of `FX0A` is left once the host has stopped the machine. -/
theorem awaitRelease_isSome_of_stop (i : Nat) (evs : List HostEvent) : ∀ (vm : VM),
    HostEvent.stop ∈ evs → (VM.awaitRelease i evs vm).isSome = true := by
  induction evs with
  | nil =>
    intro vm h
    simp at h
  | cons e rest ih =>
    intro vm h
    unfold VM.awaitRelease
    refine ite_isSome _ _ _ (fun _ => ?_) (fun _ => rfl)
    rcases List.mem_cons.mp h with h1 | h1
    · subst h1
      rw [awaitRelease_not_running _ _ _ (applyEvent_stop_running vm)]
      rfl
    · exact ih _ h1

theorem waitKey_not_running (X : Nat) (evs : List HostEvent) (vm : VM)
    (h : vm.running = false) : VM.waitKey X evs vm = some (vm, evs) := by
  cases evs with
  | nil => simp [VM.waitKey, h]
  | cons e rest => simp [VM.waitKey, h]

/-- The instruction `FX0A` returns once the host has stopped the machine. -/
theorem waitKey_isSome_of_stop (X : Nat) (evs : List HostEvent) : ∀ (vm : VM),
    HostEvent.stop ∈ evs → (VM.waitKey X evs vm).isSome = true := by
  induction evs with
  | nil =>
    intro vm h
    simp at h
  | cons e rest ih =>
    intro vm h
    unfold VM.waitKey
    refine ite_isSome _ _ _ (fun _ => rfl) (fun _ => ?_)
    split
    · rw [Option.isSome_map']
      exact awaitRelease_isSome_of_stop _ _ _ h
    · rcases List.mem_cons.mp h with h1 | h1
      · subst h1
        rw [waitKey_not_running _ _ _ (applyEvent_stop_running vm)]
        rfl
      · exact ih _ h1

/-- Every instruction other than `FX0A` returns; `FX0A` returns once the host
has stopped the machine. -/
theorem executeOpcode_isSome (env : Env) (vm : VM) (opcode : Opcode) (ec : ErrorCode)
    (h : ¬ (opcode.category = 0xF ∧ opcode.NN = 0x0A) ∨ HostEvent.stop ∈ env.events) :
    (VM.executeOpcode env vm opcode ec).isSome = true := by
  unfold VM.executeOpcode
  iterate 15 refine ite_isSome _ _ _ (fun _ => rfl) (fun _ => ?_)
  refine ite_isSome _ _ _ (fun hF => ?_) (fun _ => rfl)
  unfold VM.executeCategoryF
  dsimp only
  refine ite_isSome _ _ _ (fun _ => rfl) (fun _ => ?_)
  refine ite_isSome _ _ _ (fun hA => ?_) (fun _ => ?_)
  · rw [Option.isSome_map']
    rcases h with h | h
    · exact absurd ⟨hF, hA⟩ h
    · exact waitKey_isSome_of_stop _ _ _ h
  · iterate 10 refine ite_isSome _ _ _ (fun _ => rfl) (fun _ => ?_)
    rfl

/-- C7: the stack pointer stays within `0..16`. `Registers::clear` sets
`sp = 0`, and from any state with `sp ≤ 16`, `pushToStack`, `popFromStack` and
the execution of any instruction word (successful or failing) yield a state
with `sp ≤ 16`. The execution does yield a state: every instruction other than
`FX0A` returns, and `FX0A` returns once the host has stopped the machine. The
frame tick and the stop request of the presentation thread leave `sp` as it is. -/
theorem sp_invariant (env : Env) (vm : VM) (w value : Nat) (ec : ErrorCode)
    (hsp : vm.registers.sp ≤ 16) :
    vm.registers.clear.sp = 0 ∧
    (vm.registers.pushToStack value ec).1.sp ≤ 16 ∧
    (vm.registers.popFromStack ec).2.1.sp ≤ 16 ∧
    (∀ res, VM.executeOpcode env vm (Opcode.decode w) ec = some res →
      res.1.registers.sp ≤ 16) ∧
    ((¬ ((Opcode.decode w).category = 0xF ∧ (Opcode.decode w).NN = 0x0A) ∨
        HostEvent.stop ∈ env.events) →
      (VM.executeOpcode env vm (Opcode.decode w) ec).isSome = true) ∧
    (∀ e, (vm.applyEvent e).registers.sp ≤ 16) :=
  ⟨rfl, pushToStack_sp_le _ _ _ hsp, popFromStack_sp_le _ _ hsp,
   executeOpcode_sp_le env vm _ ec hsp, executeOpcode_isSome env vm _ ec,
   fun e => (applyEvent_sp vm e).le.trans hsp⟩

/-- Witness of C7: `2NNN` on a full stack and `00EE` on an empty one. -/
theorem sp_invariant_witness :
    (∀ res, VM.executeOpcode (Env.mk 0 [] 5 10 80)
        { VM.initial 10 with registers := { Registers.initial with sp := 16 } }
        (Opcode.decode 0x2345) none = some res → res.1.registers.sp ≤ 16) ∧
    (VM.executeOpcode (Env.mk 0 [] 5 10 80)
        { VM.initial 10 with registers := { Registers.initial with sp := 16 } }
        (Opcode.decode 0x2345) none).map (fun res => (res.1.registers.sp, res.2))
      = some (16, some Error.STACK_OVERFLOW) ∧
    (VM.executeOpcode (Env.mk 0 [] 5 10 80) (VM.initial 10)
        (Opcode.decode 0x00EE) none).map (fun res => (res.1.registers.sp, res.2))
      = some (0, some Error.STACK_UNDERFLOW) :=
  ⟨(sp_invariant (Env.mk 0 [] 5 10 80)
      { VM.initial 10 with registers := { Registers.initial with sp := 16 } }
      0x2345 0 none (by decide)).2.2.2.1,
   by decide, by decide⟩

/-! ## Register arithmetic with flag: `8XY4`, `8XY5`, `8XY7` -/

theorem executeOpcode_category8 (env : Env) (vm : VM) (opcode : Opcode) (ec : ErrorCode)
    (h : opcode.category = 0x8) :
    VM.executeOpcode env vm opcode ec = some (vm.executeCategory8 opcode ec) := by
  rw [VM.executeOpcode, h]
  rfl

/-- The fields of the word `8XYN` built from its nibbles. -/
theorem decode_8XYN (X Y N : Nat) (hX : X < 16) (hY : Y < 16) (hN : N < 16) :
    (Opcode.decode (0x8000 + 256 * X + 16 * Y + N)).category = 0x8 ∧
    (Opcode.decode (0x8000 + 256 * X + 16 * Y + N)).X = X ∧
    (Opcode.decode (0x8000 + 256 * X + 16 * Y + N)).Y = Y ∧
    (Opcode.decode (0x8000 + 256 * X + 16 * Y + N)).N = N := by
  rw [decode_category, decode_X, decode_Y, decode_N, u8_of_lt (by omega)]
  refine ⟨?_, ?_, ?_, ?_⟩ <;> omega

theorem executeCategory8_N4 (vm : VM) (opcode : Opcode) (ec : ErrorCode) (h : opcode.N = 0x4) :
    vm.executeCategory8 opcode ec =
      ((vm.setV opcode.X (u8 (vm.registers.V opcode.X + vm.registers.V opcode.Y))).setV 0xF
        (u8 ((vm.registers.V opcode.X + vm.registers.V opcode.Y) >>> 8)), ec) := by
  rw [VM.executeCategory8, h]
  rfl

theorem executeCategory8_N5 (vm : VM) (opcode : Opcode) (ec : ErrorCode) (h : opcode.N = 0x5) :
    vm.executeCategory8 opcode ec =
      ((vm.setV opcode.X (sub8 (vm.registers.V opcode.X) (vm.registers.V opcode.Y))).setV 0xF
        (if vm.registers.V opcode.X ≥ vm.registers.V opcode.Y then 1 else 0), ec) := by
  rw [VM.executeCategory8, h]
  rfl

theorem executeCategory8_N7 (vm : VM) (opcode : Opcode) (ec : ErrorCode) (h : opcode.N = 0x7) :
    vm.executeCategory8 opcode ec =
      ((vm.setV opcode.X (sub8 (vm.registers.V opcode.Y) (vm.registers.V opcode.X))).setV 0xF
        (if vm.registers.V opcode.Y ≥ vm.registers.V opcode.X then 1 else 0), ec) := by
  rw [VM.executeCategory8, h]
  rfl

/-- Two successive writes `V[X] = a; V[0xF] = f` seen as one update of `V`. -/
theorem setV_setV_F (vm : VM) (X a f : Nat) :
    (vm.setV X a).setV 0xF f =
      { vm with registers := { vm.registers with V := setAt (setAt vm.registers.V X a) 0xF f } } :=
  rfl

/-- C9: for every register state and every `X`, `Y`, executing `8XY4` sets `VF`
to 1 if the sum `old VX + old VY` exceeds 255 and to 0 otherwise and, when `X`
is not `0xF`, sets `VX` to `(old VX + old VY) mod 256`; when `X` is `0xF` the
flag is what remains in `VF`. No register other than `VX` and `VF` changes,
nothing else in the machine changes, and no error is reported. -/
theorem add_reg_8XY4 (env : Env) (vm : VM) (X Y : Nat) (ec : ErrorCode)
    (hX : X < 16) (hY : Y < 16) (hV : ∀ i, i < REGISTERS → vm.registers.V i < 256) :
    ∃ V1 : Nat → Nat,
      VM.executeOpcode env vm (Opcode.decode (0x8000 + 256 * X + 16 * Y + 0x4)) ec =
        some ({ vm with registers := { vm.registers with V := V1 } }, ec) ∧
      V1 0xF = (if vm.registers.V X + vm.registers.V Y > 255 then 1 else 0) ∧
      (X ≠ 0xF → V1 X = (vm.registers.V X + vm.registers.V Y) % 256) ∧
      (∀ i, i ≠ X → i ≠ 0xF → V1 i = vm.registers.V i) := by
  obtain ⟨hc, hx, hy, hn⟩ := decode_8XYN X Y 0x4 hX hY (by decide)
  have hVX := hV X hX
  have hVY := hV Y hY
  refine ⟨setAt (setAt vm.registers.V X (u8 (vm.registers.V X + vm.registers.V Y))) 0xF
    (u8 ((vm.registers.V X + vm.registers.V Y) >>> 8)), ?_, ?_, ?_, ?_⟩
  · rw [executeOpcode_category8 _ _ _ _ hc, executeCategory8_N4 _ _ _ hn, hx, hy, setV_setV_F]
  · rw [setAt_same, Nat.shiftRight_eq_div_pow, u8_of_lt (by omega)]
    split_ifs <;> omega
  · intro hXF
    rw [setAt_other _ _ _ _ hXF, setAt_same]
    rfl
  · intro i hiX hiF
    rw [setAt_other _ _ _ _ hiF, setAt_other _ _ _ _ hiX]

/-- Witness of C9: `8014` with `V0 = 0xFF`, `V1 = 0x01` leaves `V0 = 0x00`
and `VF = 1`. -/
theorem add_reg_8XY4_witness :
    (∀ i, i < REGISTERS → (VM.withV0V1 0xFF 0x01).registers.V i < 256) ∧
    (∃ V1 : Nat → Nat,
      VM.executeOpcode (Env.mk 0 [] 5 10 80) (VM.withV0V1 0xFF 0x01)
          (Opcode.decode (0x8000 + 256 * 0 + 16 * 1 + 0x4)) none =
        some ({ VM.withV0V1 0xFF 0x01 with
          registers := { (VM.withV0V1 0xFF 0x01).registers with V := V1 } }, none) ∧
      V1 0xF = (if (VM.withV0V1 0xFF 0x01).registers.V 0 +
          (VM.withV0V1 0xFF 0x01).registers.V 1 > 255 then 1 else 0) ∧
      (0 ≠ 0xF → V1 0 = ((VM.withV0V1 0xFF 0x01).registers.V 0 +
          (VM.withV0V1 0xFF 0x01).registers.V 1) % 256) ∧
      (∀ i, i ≠ 0 → i ≠ 0xF → V1 i = (VM.withV0V1 0xFF 0x01).registers.V i)) ∧
    (VM.executeOpcode (Env.mk 0 [] 5 10 80) (VM.withV0V1 0xFF 0x01)
        (Opcode.decode 0x8014) none).map
          (fun res => (res.1.registers.V 0, res.1.registers.V 0xF, res.2))
      = some (0x00, 1, none) :=
  ⟨by decide,
   add_reg_8XY4 (Env.mk 0 [] 5 10 80) (VM.withV0V1 0xFF 0x01) 0 1 none
     (by decide) (by decide) (by decide),
   by decide⟩

/-- C10: for every register state and every `X`, `Y`: `8XY5` sets `VF` to 1
exactly when `old VX ≥ old VY` and, when `X` is not `0xF`, `VX` to
`(old VX - old VY) mod 256`; `8XY7` sets `VF` to 1 exactly when
`old VY ≥ old VX` and, when `X` is not `0xF`, `VX` to `(old VY - old VX) mod 256`.
`VF` is written last (it holds the flag also when `X` is `0xF`), no other
register changes, nothing else in the machine changes, no error is reported. -/
theorem sub_reg_8XY5_8XY7 (env : Env) (vm : VM) (X Y : Nat) (ec : ErrorCode)
    (hX : X < 16) (hY : Y < 16) (hV : ∀ i, i < REGISTERS → vm.registers.V i < 256) :
    (∃ V1 : Nat → Nat,
      VM.executeOpcode env vm (Opcode.decode (0x8000 + 256 * X + 16 * Y + 0x5)) ec =
        some ({ vm with registers := { vm.registers with V := V1 } }, ec) ∧
      V1 0xF = (if vm.registers.V X ≥ vm.registers.V Y then 1 else 0) ∧
      (X ≠ 0xF → (V1 X : Int) = ((vm.registers.V X : Int) - (vm.registers.V Y : Int)) % 256) ∧
      (∀ i, i ≠ X → i ≠ 0xF → V1 i = vm.registers.V i)) ∧
    (∃ V1 : Nat → Nat,
      VM.executeOpcode env vm (Opcode.decode (0x8000 + 256 * X + 16 * Y + 0x7)) ec =
        some ({ vm with registers := { vm.registers with V := V1 } }, ec) ∧
      V1 0xF = (if vm.registers.V Y ≥ vm.registers.V X then 1 else 0) ∧
      (X ≠ 0xF → (V1 X : Int) = ((vm.registers.V Y : Int) - (vm.registers.V X : Int)) % 256) ∧
      (∀ i, i ≠ X → i ≠ 0xF → V1 i = vm.registers.V i)) := by
  have hVX := hV X hX
  have hVY := hV Y hY
  constructor
  · obtain ⟨hc, hx, hy, hn⟩ := decode_8XYN X Y 0x5 hX hY (by decide)
    refine ⟨setAt (setAt vm.registers.V X (sub8 (vm.registers.V X) (vm.registers.V Y))) 0xF
      (if vm.registers.V X ≥ vm.registers.V Y then 1 else 0), ?_, ?_, ?_, ?_⟩
    · rw [executeOpcode_category8 _ _ _ _ hc, executeCategory8_N5 _ _ _ hn, hx, hy,
        setV_setV_F]
    · rw [setAt_same]
    · intro hXF
      rw [setAt_other _ _ _ _ hXF, setAt_same]
      unfold sub8
      omega
    · intro i hiX hiF
      rw [setAt_other _ _ _ _ hiF, setAt_other _ _ _ _ hiX]
  · obtain ⟨hc, hx, hy, hn⟩ := decode_8XYN X Y 0x7 hX hY (by decide)
    refine ⟨setAt (setAt vm.registers.V X (sub8 (vm.registers.V Y) (vm.registers.V X))) 0xF
      (if vm.registers.V Y ≥ vm.registers.V X then 1 else 0), ?_, ?_, ?_, ?_⟩
    · rw [executeOpcode_category8 _ _ _ _ hc, executeCategory8_N7 _ _ _ hn, hx, hy,
        setV_setV_F]
    · rw [setAt_same]
    · intro hXF
      rw [setAt_other _ _ _ _ hXF, setAt_same]
      unfold sub8
      omega
    · intro i hiX hiF
      rw [setAt_other _ _ _ _ hiF, setAt_other _ _ _ _ hiX]

/-- Witness of C10: `8015` with `V0 = 0x01`, `V1 = 0x02` leaves `V0 = 0xFF`
and `VF = 0`; `8017` on the same registers leaves `V0 = 0x01` and `VF = 1`. -/
theorem sub_reg_8XY5_8XY7_witness :
    (∀ i, i < REGISTERS → (VM.withV0V1 0x01 0x02).registers.V i < 256) ∧
    (∃ V1 : Nat → Nat,
      VM.executeOpcode (Env.mk 0 [] 5 10 80) (VM.withV0V1 0x01 0x02)
          (Opcode.decode (0x8000 + 256 * 0 + 16 * 1 + 0x5)) none =
        some ({ VM.withV0V1 0x01 0x02 with
          registers := { (VM.withV0V1 0x01 0x02).registers with V := V1 } }, none) ∧
      V1 0xF = (if (VM.withV0V1 0x01 0x02).registers.V 0 ≥
          (VM.withV0V1 0x01 0x02).registers.V 1 then 1 else 0) ∧
      (0 ≠ 0xF → (V1 0 : Int) = (((VM.withV0V1 0x01 0x02).registers.V 0 : Int) -
          ((VM.withV0V1 0x01 0x02).registers.V 1 : Int)) % 256) ∧
      (∀ i, i ≠ 0 → i ≠ 0xF → V1 i = (VM.withV0V1 0x01 0x02).registers.V i)) ∧
    (VM.executeOpcode (Env.mk 0 [] 5 10 80) (VM.withV0V1 0x01 0x02)
        (Opcode.decode 0x8015) none).map
          (fun res => (res.1.registers.V 0, res.1.registers.V 0xF, res.2))
      = some (0xFF, 0, none) ∧
    (VM.executeOpcode (Env.mk 0 [] 5 10 80) (VM.withV0V1 0x01 0x02)
        (Opcode.decode 0x8017) none).map
          (fun res => (res.1.registers.V 0, res.1.registers.V 0xF, res.2))
      = some (0x01, 1, none) :=
  ⟨by decide,
   (sub_reg_8XY5_8XY7 (Env.mk 0 [] 5 10 80) (VM.withV0V1 0x01 0x02) 0 1 none
     (by decide) (by decide) (by decide)).1,
   by decide, by decide⟩

/-! ## Shifts `8XY6`, `8XYE` -/

/-- The fields of the word `CXYN` built from its nibbles. -/
theorem decode_CXYN (C X Y N : Nat) (hC : C < 16) (hX : X < 16) (hY : Y < 16) (hN : N < 16) :
    (Opcode.decode (4096 * C + 256 * X + 16 * Y + N)).category = C ∧
    (Opcode.decode (4096 * C + 256 * X + 16 * Y + N)).X = X ∧
    (Opcode.decode (4096 * C + 256 * X + 16 * Y + N)).Y = Y ∧
    (Opcode.decode (4096 * C + 256 * X + 16 * Y + N)).N = N := by
  rw [decode_category, decode_X, decode_Y, decode_N, u8_of_lt (by omega)]
  refine ⟨?_, ?_, ?_, ?_⟩ <;> omega

theorem executeCategory8_N6 (vm : VM) (opcode : Opcode) (ec : ErrorCode) (h : opcode.N = 0x6) :
    vm.executeCategory8 opcode ec =
      ((vm.setV opcode.X (u8 (vm.registers.V opcode.X >>> 1))).setV 0xF
        (u8 (vm.registers.V opcode.X &&& 0x1)), ec) := by
  rw [VM.executeCategory8, h]
  rfl

theorem executeCategory8_NE (vm : VM) (opcode : Opcode) (ec : ErrorCode) (h : opcode.N = 0xE) :
    vm.executeCategory8 opcode ec =
      ((vm.setV opcode.X (u8 (vm.registers.V opcode.X <<< 1))).setV 0xF
        (u8 ((vm.registers.V opcode.X &&& 0x80) >>> 7)), ec) := by
  rw [VM.executeCategory8, h]
  rfl

/-- The instruction `8XY6` as one update of the register file. -/
theorem execute_8XY6 (env : Env) (vm : VM) (X Y : Nat) (ec : ErrorCode)
    (hX : X < 16) (hY : Y < 16) :
    VM.executeOpcode env vm (Opcode.decode (0x8000 + 256 * X + 16 * Y + 0x6)) ec =
      some ({ vm with registers := { vm.registers with
        V := setAt (setAt vm.registers.V X (u8 (vm.registers.V X >>> 1))) 0xF
          (u8 (vm.registers.V X &&& 0x1)) } }, ec) := by
  obtain ⟨hc, hx, _, hn⟩ := decode_8XYN X Y 0x6 hX hY (by decide)
  rw [executeOpcode_category8 _ _ _ _ hc, executeCategory8_N6 _ _ _ hn, hx, setV_setV_F]

/-- The instruction `8XYE` as one update of the register file. -/
theorem execute_8XYE (env : Env) (vm : VM) (X Y : Nat) (ec : ErrorCode)
    (hX : X < 16) (hY : Y < 16) :
    VM.executeOpcode env vm (Opcode.decode (0x8000 + 256 * X + 16 * Y + 0xE)) ec =
      some ({ vm with registers := { vm.registers with
        V := setAt (setAt vm.registers.V X (u8 (vm.registers.V X <<< 1))) 0xF
          (u8 ((vm.registers.V X &&& 0x80) >>> 7)) } }, ec) := by
  obtain ⟨hc, hx, _, hn⟩ := decode_8XYN X Y 0xE hX hY (by decide)
  rw [executeOpcode_category8 _ _ _ _ hc, executeCategory8_NE _ _ _ hn, hx, setV_setV_F]

theorem lsb_eq (v : Nat) : u8 (v &&& 0x1) = v % 2 := by
  rw [Nat.and_one_is_mod, u8_of_lt (by omega)]

theorem msb_eq (v : Nat) (hv : v < 256) : u8 ((v &&& 0x80) >>> 7) = v / 128 := by
  have h : (v &&& 0x80) >>> 7 = v / 2 ^ 7 % 2 ^ 1 := and_mask_shiftRight v 7 1
  rw [h, u8_of_lt (by omega)]
  omega

theorem shr_eq (v : Nat) (hv : v < 256) : u8 (v >>> 1) = v / 2 := by
  rw [Nat.shiftRight_eq_div_pow, u8_of_lt (by omega)]

theorem shl_eq (v : Nat) : u8 (v <<< 1) = 2 * v % 256 := by
  rw [Nat.shiftLeft_eq]
  unfold u8
  omega

/-- C11 (amended): for every register state and every `X`, `Y`: `8XY6` sets
`VF` to the least significant bit of old `VX` and, when `X` is not `0xF`, `VX`
to `old VX div 2`; `8XYE` sets `VF` to the most significant bit of old `VX`
and, when `X` is not `0xF`, `VX` to `(2 * old VX) mod 256`. The field `Y` is
ignored (the outcome is the same for every `Y`), no register other than `VX`
and `VF` changes (so `VY` keeps its value unless `Y` is `X` or `0xF`), and
when `X` is not `0xF` the pair (new `VX`, `VF`) determines old `VX`. -/
theorem shift_8XY6_8XYE (env : Env) (vm : VM) (X Y : Nat) (ec : ErrorCode)
    (hX : X < 16) (hY : Y < 16) (hV : ∀ i, i < REGISTERS → vm.registers.V i < 256) :
    (∃ V1 : Nat → Nat,
      VM.executeOpcode env vm (Opcode.decode (0x8000 + 256 * X + 16 * Y + 0x6)) ec =
        some ({ vm with registers := { vm.registers with V := V1 } }, ec) ∧
      V1 0xF = vm.registers.V X % 2 ∧
      (X ≠ 0xF → V1 X = vm.registers.V X / 2) ∧
      (∀ i, i ≠ X → i ≠ 0xF → V1 i = vm.registers.V i) ∧
      (X ≠ 0xF → vm.registers.V X = 2 * V1 X + V1 0xF) ∧
      (∀ Y2, Y2 < 16 →
        VM.executeOpcode env vm (Opcode.decode (0x8000 + 256 * X + 16 * Y2 + 0x6)) ec =
        VM.executeOpcode env vm (Opcode.decode (0x8000 + 256 * X + 16 * Y + 0x6)) ec)) ∧
    (∃ V1 : Nat → Nat,
      VM.executeOpcode env vm (Opcode.decode (0x8000 + 256 * X + 16 * Y + 0xE)) ec =
        some ({ vm with registers := { vm.registers with V := V1 } }, ec) ∧
      V1 0xF = vm.registers.V X / 128 ∧
      (X ≠ 0xF → V1 X = 2 * vm.registers.V X % 256) ∧
      (∀ i, i ≠ X → i ≠ 0xF → V1 i = vm.registers.V i) ∧
      (X ≠ 0xF → vm.registers.V X = V1 X / 2 + 128 * V1 0xF) ∧
      (∀ Y2, Y2 < 16 →
        VM.executeOpcode env vm (Opcode.decode (0x8000 + 256 * X + 16 * Y2 + 0xE)) ec =
        VM.executeOpcode env vm (Opcode.decode (0x8000 + 256 * X + 16 * Y + 0xE)) ec)) := by
  have hVX := hV X hX
  constructor
  · refine ⟨_, execute_8XY6 env vm X Y ec hX hY, ?_, ?_, ?_, ?_, ?_⟩
    · rw [setAt_same, lsb_eq]
    · intro hXF
      rw [setAt_other _ _ _ _ hXF, setAt_same, shr_eq _ hVX]
    · intro i hiX hiF
      rw [setAt_other _ _ _ _ hiF, setAt_other _ _ _ _ hiX]
    · intro hXF
      rw [setAt_other _ _ _ _ hXF, setAt_same, setAt_same, shr_eq _ hVX, lsb_eq]
      omega
    · intro Y2 hY2
      rw [execute_8XY6 env vm X Y2 ec hX hY2, execute_8XY6 env vm X Y ec hX hY]
  · refine ⟨_, execute_8XYE env vm X Y ec hX hY, ?_, ?_, ?_, ?_, ?_⟩
    · rw [setAt_same, msb_eq _ hVX]
    · intro hXF
      rw [setAt_other _ _ _ _ hXF, setAt_same, shl_eq]
    · intro i hiX hiF
      rw [setAt_other _ _ _ _ hiF, setAt_other _ _ _ _ hiX]
    · intro hXF
      rw [setAt_other _ _ _ _ hXF, setAt_same, setAt_same, shl_eq, msb_eq _ hVX]
      omega
    · intro Y2 hY2
      rw [execute_8XYE env vm X Y2 ec hX hY2, execute_8XYE env vm X Y ec hX hY]

/-- Witness of C11 (amended): `8016` with `V0 = 0x03` leaves `V0 = 0x01` and
`VF = 1`. -/
theorem shift_8XY6_8XYE_witness :
    (∀ i, i < REGISTERS → (VM.withV0V1 0x03 0x00).registers.V i < 256) ∧
    (∃ V1 : Nat → Nat,
      VM.executeOpcode (Env.mk 0 [] 5 10 80) (VM.withV0V1 0x03 0x00)
          (Opcode.decode (0x8000 + 256 * 0 + 16 * 1 + 0x6)) none =
        some ({ VM.withV0V1 0x03 0x00 with
          registers := { (VM.withV0V1 0x03 0x00).registers with V := V1 } }, none) ∧
      V1 0xF = (VM.withV0V1 0x03 0x00).registers.V 0 % 2 ∧
      (0 ≠ 0xF → V1 0 = (VM.withV0V1 0x03 0x00).registers.V 0 / 2) ∧
      (∀ i, i ≠ 0 → i ≠ 0xF → V1 i = (VM.withV0V1 0x03 0x00).registers.V i) ∧
      (0 ≠ 0xF → (VM.withV0V1 0x03 0x00).registers.V 0 = 2 * V1 0 + V1 0xF) ∧
      (∀ Y2, Y2 < 16 →
        VM.executeOpcode (Env.mk 0 [] 5 10 80) (VM.withV0V1 0x03 0x00)
          (Opcode.decode (0x8000 + 256 * 0 + 16 * Y2 + 0x6)) none =
        VM.executeOpcode (Env.mk 0 [] 5 10 80) (VM.withV0V1 0x03 0x00)
          (Opcode.decode (0x8000 + 256 * 0 + 16 * 1 + 0x6)) none)) ∧
    (VM.executeOpcode (Env.mk 0 [] 5 10 80) (VM.withV0V1 0x03 0x00)
        (Opcode.decode 0x8016) none).map
          (fun res => (res.1.registers.V 0, res.1.registers.V 0xF, res.2))
      = some (0x01, 1, none) :=
  ⟨by decide,
   (shift_8XY6_8XYE (Env.mk 0 [] 5 10 80) (VM.withV0V1 0x03 0x00) 0 1 none
     (by decide) (by decide) (by decide)).1,
   by decide⟩

/-- C11, counterexample to the claim as stated. With `X = 0xF` the instruction
`8F06` takes the register files with `VF = 1` and with `VF = 3` to the same
pair (new `VX`, `VF`) `= (1, 1)`, so the pair does not determine old `VX`; and
with `Y = 0xF` the instruction `80F6` on `V0 = 3`, `VF = 0` writes `VY`, which
goes from 0 to 1. -/
theorem shift_claim_counterexample :
    ((VM.executeOpcode (Env.mk 0 [] 5 10 80) (VM.withV (fun i => if i = 0xF then 1 else 0))
        (Opcode.decode 0x8F06) none).map
          (fun res => (res.1.registers.V 0xF, res.1.registers.V 0xF)) = some (1, 1) ∧
     (VM.executeOpcode (Env.mk 0 [] 5 10 80) (VM.withV (fun i => if i = 0xF then 3 else 0))
        (Opcode.decode 0x8F06) none).map
          (fun res => (res.1.registers.V 0xF, res.1.registers.V 0xF)) = some (1, 1) ∧
     (VM.withV (fun i => if i = 0xF then 1 else 0)).registers.V 0xF ≠
       (VM.withV (fun i => if i = 0xF then 3 else 0)).registers.V 0xF) ∧
    ((VM.withV (fun i => if i = 0 then 3 else 0)).registers.V 0xF = 0 ∧
     (VM.executeOpcode (Env.mk 0 [] 5 10 80) (VM.withV (fun i => if i = 0 then 3 else 0))
        (Opcode.decode 0x80F6) none).map (fun res => res.1.registers.V 0xF) = some 1) := by
  decide

/-! ## Drawing: `DXYN` refused when the sprite is not readable -/

theorem executeOpcode_categoryD (env : Env) (vm : VM) (opcode : Opcode) (ec : ErrorCode)
    (h : opcode.category = 0xD) :
    VM.executeOpcode env vm opcode ec = some (vm.executeCategoryD opcode ec) := by
  rw [VM.executeOpcode, h]
  rfl

/-- When `I` is outside the memory, `DXYN` stops at `getBytePointer`. -/
theorem executeCategoryD_pointer_fails (vm : VM) (opcode : Opcode) (ec : ErrorCode)
    (h : vm.registers.I ≥ RAM_SIZE) :
    vm.executeCategoryD opcode ec = (vm, some Error.OUT_OF_RANGE) := by
  simp only [VM.executeCategoryD, RAM.getBytePointer, if_pos h, Option.isSome_some, if_true]

/-- When `I` is inside the memory and the size test fails, `DXYN` reports
`OUT_OF_RANGE` and leaves the machine as it was. -/
theorem executeCategoryD_size_fails (vm : VM) (opcode : Opcode)
    (h : vm.registers.I < RAM_SIZE)
    (hs : vm.registers.I + (if opcode.N = 0x0 then 16 else opcode.N) *
      (if opcode.N = 0x0 then 16 else 8) ≥ RAM_SIZE)
    (hN : opcode.N < 16) :
    vm.executeCategoryD opcode none = (vm, some Error.OUT_OF_RANGE) := by
  have h1 : ¬ vm.registers.I ≥ RAM_SIZE := Nat.not_le.mpr h
  have hlt : vm.registers.I + (if opcode.N = 0x0 then 16 else opcode.N) *
      (if opcode.N = 0x0 then 16 else 8) < 2 ^ 64 := by
    simp only [RAM_SIZE] at h
    split_ifs <;> omega
  have h2 : vm.ram.isSizeReadable vm.registers.I ((if opcode.N = 0x0 then 16 else opcode.N) *
      (if opcode.N = 0x0 then 16 else 8)) = false := by
    unfold RAM.isSizeReadable
    rw [Nat.mod_eq_of_lt hlt]
    exact decide_eq_false (Nat.not_lt.mpr hs)
  simp only [VM.executeCategoryD, RAM.getBytePointer, if_neg h1, Option.isSome_none, h2,
    Bool.not_false, if_true]
  rfl

/-- C12: for every machine state and every word `DXYN`, if the full extent of
the sprite at address `I` (`N` bytes, or 32 bytes when `N = 0`) is not entirely
inside the 4096-byte memory, executing `DXYN` reports `OUT_OF_RANGE` and plots
nothing: the machine (back buffer, `VF`, every other register, memory) is
exactly as before. -/
theorem draw_out_of_range (env : Env) (vm : VM) (X Y N : Nat)
    (hX : X < 16) (hY : Y < 16) (hN : N < 16)
    (hext : vm.registers.I + (if N = 0 then 32 else N) > 4096) :
    VM.executeOpcode env vm (Opcode.decode (0xD000 + 256 * X + 16 * Y + N)) none =
      some (vm, some Error.OUT_OF_RANGE) := by
  obtain ⟨hc, _, _, hn⟩ := decode_CXYN 0xD X Y N (by decide) hX hY hN
  have hc1 : (Opcode.decode (0xD000 + 256 * X + 16 * Y + N)).category = 0xD := hc
  have hn1 : (Opcode.decode (0xD000 + 256 * X + 16 * Y + N)).N = N := hn
  rw [executeOpcode_categoryD _ _ _ _ hc1]
  congr 1
  by_cases hI : vm.registers.I ≥ RAM_SIZE
  · exact executeCategoryD_pointer_fails _ _ _ hI
  · apply executeCategoryD_size_fails _ _ (Nat.not_le.mp hI)
    · rw [hn1]
      simp only [RAM_SIZE]
      split_ifs at hext ⊢ <;> omega
    · rw [hn1]
      exact hN

/-- Witness of C12: `D128` with `I = 4090`, whose 8 bytes end beyond the
memory. -/
theorem draw_out_of_range_witness :
    ((VM.initial 10).setI 4090).registers.I + (if 8 = 0 then 32 else 8) > 4096 ∧
    VM.executeOpcode (Env.mk 0 [] 5 10 80) ((VM.initial 10).setI 4090)
        (Opcode.decode (0xD000 + 256 * 1 + 16 * 2 + 8)) none =
      some ((VM.initial 10).setI 4090, some Error.OUT_OF_RANGE) :=
  ⟨by decide,
   draw_out_of_range (Env.mk 0 [] 5 10 80) ((VM.initial 10).setI 4090) 1 2 8
     (by decide) (by decide) (by decide) (by decide)⟩

/-! ## Loop invariants -/

/-- Invariant rule for the ascending loop: `P lo` holds at the start and every
iteration takes `P i` to `P (i + 1)`, so `P hi` holds at the end. -/
theorem forLoop_induct {σ : Type} (P : Nat → σ → Prop) (lo hi : Nat) (body : Nat → σ → σ)
    (s : σ) (hle : lo ≤ hi) (h0 : P lo s)
    (hstep : ∀ i st, lo ≤ i → i < hi → P i st → P (i + 1) (body i st)) :
    P hi (forLoop lo hi body s) := by
  induction hi, hle using Nat.le_induction with
  | base =>
    rw [forLoop_empty _ _ _ _ (Nat.le_refl lo)]
    exact h0
  | succ k hk ih =>
    rw [forLoop_succ _ _ _ _ hk]
    exact hstep k _ hk (Nat.lt_succ_self k)
      (ih (fun i st h1 h2 h3 => hstep i st h1 (Nat.lt_succ_of_lt h2) h3))

/-- Invariant rule for the descending loop: `P start` holds at the start and
the iteration at `i` takes `P (i + 1)` to `P i`; the loop stops below `n`. -/
theorem downLoop_induct {σ : Type} (P : Nat → σ → Prop) (n : Nat) (body : Nat → σ → σ) :
    ∀ (start : Nat) (s : σ), P start s →
      (∀ i st, n ≤ i → i < start → P (i + 1) st → P i (body i st)) →
      P (min start n) (Display.downLoop n body start s) := by
  intro start
  induction start with
  | zero =>
    intro s h0 _
    rw [Display.downLoop, Nat.zero_min]
    exact h0
  | succ i ih =>
    intro s h0 hstep
    rw [Display.downLoop]
    split_ifs with hi
    · have h1 := ih (body i s) (hstep i s hi (Nat.lt_succ_self i) h0)
        (fun j st h1 h2 h3 => hstep j st h1 (Nat.lt_succ_of_lt h2) h3)
      rw [Nat.min_eq_right hi] at h1
      rw [Nat.min_eq_right (Nat.le_succ_of_le hi)]
      exact h1
    · rw [Nat.min_eq_left (by omega)]
      exact h0

theorem setLine_apply (s : Screen) (i : Nat) (line : Nat → Bool) (row col : Nat) :
    Display.setLine s i line row col =
      if row = i then (if col < 128 then line col else s i col) else s row col := by
  unfold Display.setLine
  rw [setAt_apply]
  by_cases h : row = i
  · rw [if_pos h, if_pos h]
  · rw [if_neg h, if_neg h]

theorem setPixel_apply (s : Screen) (y x : Nat) (v : Bool) (row col : Nat) :
    Display.setPixel s y x v row col = if row = y ∧ col = x then v else s row col := by
  unfold Display.setPixel
  rw [setAt_apply]
  by_cases h1 : row = y
  · subst h1
    rw [if_pos rfl, setAt_apply]
    by_cases h2 : col = x
    · rw [if_pos h2, if_pos ⟨rfl, h2⟩]
    · rw [if_neg h2, if_neg (fun h => h2 h.2)]
  · rw [if_neg h1, if_neg (fun h => h1 h.1)]

/-! ## Scrolling down -/

/-- The first loop of `scrollDown`: every line from `n` up to the height holds
the old line `n` places above, on its 128 cells; nothing else has changed. -/
theorem scrollDown_shift (s0 : Screen) (n H : Nat) (row col : Nat) :
    Display.downLoop n (fun i s => Display.setLine s i (s (i - n))) H s0 row col =
      if col < 128 ∧ n ≤ row ∧ row < H then s0 (row - n) col else s0 row col := by
  have key := downLoop_induct
    (fun i (st : Screen) => ∀ row col, st row col =
      if col < 128 ∧ i ≤ row ∧ row < H then s0 (row - n) col else s0 row col)
    n (fun i s => Display.setLine s i (s (i - n))) H s0
    (by
      intro row col
      rw [if_neg (by omega)])
    (by
      intro i st hn hi hP row col
      show Display.setLine st i (st (i - n)) row col = _
      rw [setLine_apply]
      by_cases h1 : row = i
      · subst h1
        rw [if_pos rfl]
        by_cases h2 : col < 128
        · rw [if_pos h2, if_pos ⟨h2, Nat.le_refl _, hi⟩, hP, if_neg (by omega)]
        · rw [if_neg h2, if_neg (fun h => h2 h.1), hP, if_neg (fun h => h2 h.1)]
      · rw [if_neg h1, hP]
        by_cases h3 : col < 128 ∧ i + 1 ≤ row ∧ row < H
        · rw [if_pos h3, if_pos ⟨h3.1, by omega, h3.2.2⟩]
        · rw [if_neg h3, if_neg (by omega)])
  rw [key row col]
  by_cases h : col < 128 ∧ n ≤ row ∧ row < H
  · rw [if_pos h, if_pos ⟨h.1, by omega, h.2.2⟩]
  · rw [if_neg h, if_neg (by omega)]

/-- The second loop of `scrollDown`: the lines below `n` are cleared on their
128 cells. -/
theorem scrollDown_clear (s1 : Screen) (n : Nat) (row col : Nat) :
    forLoop 0 n (fun i s => Display.setLine s i (fun _ => false)) s1 row col =
      if col < 128 ∧ row < n then false else s1 row col := by
  have key := forLoop_induct
    (fun k (st : Screen) => ∀ row col, st row col =
      if col < 128 ∧ row < k then false else s1 row col)
    0 n (fun i s => Display.setLine s i (fun _ => false)) s1 (Nat.zero_le n)
    (by
      intro row col
      rw [if_neg (by omega)])
    (by
      intro i st _ _ hP row col
      show Display.setLine st i (fun _ => false) row col = _
      rw [setLine_apply]
      by_cases h1 : row = i
      · subst h1
        rw [if_pos rfl]
        by_cases h2 : col < 128
        · rw [if_pos h2, if_pos ⟨h2, Nat.lt_succ_self _⟩]
        · rw [if_neg h2, if_neg (fun h => h2 h.1), hP, if_neg (fun h => h2 h.1)]
      · rw [if_neg h1, hP]
        by_cases h3 : col < 128 ∧ row < i
        · rw [if_pos h3, if_pos ⟨h3.1, by omega⟩]
        · rw [if_neg h3, if_neg (by omega)])
  exact key row col

/-- Every cell of the back screen after `scrollDown(n)`. -/
theorem scrollDown_apply (d : Display) (n row col : Nat) :
    (d.scrollDown n).virtual_back_screen row col =
      if col < 128 then
        (if row < n then false
         else if row < d.virtual_back_screen_height then d.virtual_back_screen (row - n) col
         else d.virtual_back_screen row col)
      else d.virtual_back_screen row col := by
  show forLoop 0 n (fun i s => Display.setLine s i (fun _ => false))
    (Display.downLoop n (fun i s => Display.setLine s i (s (i - n)))
      d.virtual_back_screen_height d.virtual_back_screen) row col = _
  rw [scrollDown_clear, scrollDown_shift]
  by_cases h1 : col < 128
  · rw [if_pos h1]
    by_cases h2 : row < n
    · rw [if_pos ⟨h1, h2⟩, if_pos h2]
    · rw [if_neg (fun h => h2 h.2), if_neg h2]
      by_cases h3 : row < d.virtual_back_screen_height
      · rw [if_pos ⟨h1, by omega, h3⟩, if_pos h3]
      · rw [if_neg (fun h => h3 h.2.2), if_neg h3]
  · rw [if_neg h1, if_neg (fun h => h1 h.1), if_neg (fun h => h1 h.1)]

/-! ## Scrolling right and left -/

/-- Every cell after the loops of `scrollRight` on line `i`. -/
theorem scrollRightLine_apply (W n i : Nat) (s : Screen) (row col : Nat) :
    Display.scrollRightLine W n i s row col =
      if row = i then
        (if col < n then false else if col < W then s i (col - n) else s i col)
      else s row col := by
  have shift : ∀ row col,
      Display.downLoop n (fun j s => Display.setPixel s i j (s i (j - n))) W s row col =
        if row = i ∧ n ≤ col ∧ col < W then s i (col - n) else s row col := by
    have key := downLoop_induct
      (fun j (st : Screen) => ∀ row col, st row col =
        if row = i ∧ j ≤ col ∧ col < W then s i (col - n) else s row col)
      n (fun j s => Display.setPixel s i j (s i (j - n))) W s
      (by
        intro row col
        rw [if_neg (by omega)])
      (by
        intro j st hn hj hP row col
        show Display.setPixel st i j (st i (j - n)) row col = _
        rw [setPixel_apply]
        by_cases h1 : row = i ∧ col = j
        · obtain ⟨h1a, h1b⟩ := h1
          subst h1a h1b
          rw [if_pos ⟨rfl, rfl⟩, if_pos ⟨rfl, Nat.le_refl _, hj⟩, hP, if_neg (by omega)]
        · rw [if_neg h1, hP]
          by_cases h3 : row = i ∧ j + 1 ≤ col ∧ col < W
          · rw [if_pos h3, if_pos ⟨h3.1, by omega, h3.2.2⟩]
          · rw [if_neg h3, if_neg (by omega)])
    intro row col
    rw [key row col]
    by_cases h : row = i ∧ n ≤ col ∧ col < W
    · rw [if_pos h, if_pos ⟨h.1, by omega, h.2.2⟩]
    · rw [if_neg h, if_neg (by omega)]
  have clear : ∀ (s1 : Screen) row col,
      forLoop 0 n (fun j s => Display.setPixel s i j false) s1 row col =
        if row = i ∧ col < n then false else s1 row col := by
    intro s1
    exact forLoop_induct
      (fun k (st : Screen) => ∀ row col, st row col =
        if row = i ∧ col < k then false else s1 row col)
      0 n (fun j s => Display.setPixel s i j false) s1 (Nat.zero_le n)
      (by
        intro row col
        rw [if_neg (by omega)])
      (by
        intro j st _ _ hP row col
        show Display.setPixel st i j false row col = _
        rw [setPixel_apply]
        by_cases h1 : row = i ∧ col = j
        · rw [if_pos h1, if_pos ⟨h1.1, by omega⟩]
        · rw [if_neg h1, hP]
          by_cases h3 : row = i ∧ col < j
          · rw [if_pos h3, if_pos ⟨h3.1, by omega⟩]
          · rw [if_neg h3, if_neg (by omega)])
  show forLoop 0 n (fun j s => Display.setPixel s i j false)
    (Display.downLoop n (fun j s => Display.setPixel s i j (s i (j - n))) W s) row col = _
  rw [clear, shift]
  by_cases h1 : row = i
  · subst h1
    rw [if_pos rfl]
    by_cases h2 : col < n
    · rw [if_pos ⟨rfl, h2⟩, if_pos h2]
    · rw [if_neg (fun h => h2 h.2), if_neg h2]
      by_cases h3 : col < W
      · rw [if_pos ⟨rfl, by omega, h3⟩, if_pos h3]
      · rw [if_neg (fun h => h3 h.2.2), if_neg h3]
  · rw [if_neg (fun h => h1 h.1), if_neg (fun h => h1 h.1), if_neg h1]

/-- Every cell after the loops of `scrollLeft` on line `i`. -/
theorem scrollLeftLine_apply (W n i : Nat) (s : Screen) (row col : Nat) :
    Display.scrollLeftLine W n i s row col =
      if row = i then
        (if col < W - n then s i (col + n) else if col < W then false else s i col)
      else s row col := by
  have shift : ∀ row col,
      forLoop 0 (W - n) (fun j s => Display.setPixel s i j (s i (j + n))) s row col =
        if row = i ∧ col < W - n then s i (col + n) else s row col := by
    exact forLoop_induct
      (fun k (st : Screen) => ∀ row col, st row col =
        if row = i ∧ col < k then s i (col + n) else s row col)
      0 (W - n) (fun j s => Display.setPixel s i j (s i (j + n))) s (Nat.zero_le _)
      (by
        intro row col
        rw [if_neg (by omega)])
      (by
        intro j st _ _ hP row col
        show Display.setPixel st i j (st i (j + n)) row col = _
        rw [setPixel_apply]
        by_cases h1 : row = i ∧ col = j
        · obtain ⟨h1a, h1b⟩ := h1
          subst h1a h1b
          rw [if_pos ⟨rfl, rfl⟩, if_pos ⟨rfl, Nat.lt_succ_self _⟩, hP, if_neg (by omega)]
        · rw [if_neg h1, hP]
          by_cases h3 : row = i ∧ col < j
          · rw [if_pos h3, if_pos ⟨h3.1, by omega⟩]
          · rw [if_neg h3, if_neg (by omega)])
  have clear : ∀ (s1 : Screen) row col,
      forLoop (W - n) W (fun j s => Display.setPixel s i j false) s1 row col =
        if row = i ∧ W - n ≤ col ∧ col < W then false else s1 row col := by
    intro s1
    exact forLoop_induct
      (fun k (st : Screen) => ∀ row col, st row col =
        if row = i ∧ W - n ≤ col ∧ col < k then false else s1 row col)
      (W - n) W (fun j s => Display.setPixel s i j false) s1 (Nat.sub_le _ _)
      (by
        intro row col
        rw [if_neg (by omega)])
      (by
        intro j st hj _ hP row col
        show Display.setPixel st i j false row col = _
        rw [setPixel_apply]
        by_cases h1 : row = i ∧ col = j
        · rw [if_pos h1, if_pos ⟨h1.1, by omega, by omega⟩]
        · rw [if_neg h1, hP]
          by_cases h3 : row = i ∧ W - n ≤ col ∧ col < j
          · rw [if_pos h3, if_pos ⟨h3.1, h3.2.1, by omega⟩]
          · rw [if_neg h3, if_neg (by omega)])
  show forLoop (W - n) W (fun j s => Display.setPixel s i j false)
    (forLoop 0 (W - n) (fun j s => Display.setPixel s i j (s i (j + n))) s) row col = _
  rw [clear, shift]
  by_cases h1 : row = i
  · subst h1
    rw [if_pos rfl]
    by_cases h2 : col < W - n
    · rw [if_neg (by omega), if_pos ⟨rfl, h2⟩, if_pos h2]
    · rw [if_neg h2]
      by_cases h3 : col < W
      · rw [if_pos ⟨rfl, by omega, h3⟩, if_pos h3]
      · rw [if_neg (fun h => h3 h.2.2), if_neg (fun h => h2 h.2), if_neg h3]
  · rw [if_neg (fun h => h1 h.1), if_neg (fun h => h1 h.1), if_neg h1]

/-- A loop over the lines whose body rewrites line `i` from line `i` alone
rewrites every line below the height from the old screen. -/
theorem lineLoop_apply (H : Nat) (body : Nat → Screen → Screen) (f : Screen → Nat → Nat → Bool)
    (hbody : ∀ i (s : Screen) row col,
      body i s row col = if row = i then f s i col else s row col)
    (hf : ∀ (s1 s2 : Screen) i col, (∀ c, s1 i c = s2 i c) → f s1 i col = f s2 i col)
    (s0 : Screen) (row col : Nat) :
    forLoop 0 H body s0 row col = if row < H then f s0 row col else s0 row col := by
  exact forLoop_induct
    (fun k (st : Screen) => ∀ row col, st row col =
      if row < k then f s0 row col else s0 row col)
    0 H body s0 (Nat.zero_le _)
    (by
      intro row col
      rw [if_neg (by omega)])
    (by
      intro i st _ _ hP row col
      rw [hbody]
      by_cases h1 : row = i
      · subst h1
        rw [if_pos rfl, if_pos (Nat.lt_succ_self _)]
        apply hf
        intro c
        rw [hP, if_neg (Nat.lt_irrefl _)]
      · rw [if_neg h1, hP]
        by_cases h3 : row < i
        · rw [if_pos h3, if_pos (by omega)]
        · rw [if_neg h3, if_neg (by omega)])
    row col

/-- Every cell of the back screen after `scrollRight(n)`. -/
theorem scrollRight_apply (d : Display) (n row col : Nat) :
    (d.scrollRight n).virtual_back_screen row col =
      if row < d.virtual_back_screen_height then
        (if col < n then false
         else if col < d.virtual_back_screen_width then d.virtual_back_screen row (col - n)
         else d.virtual_back_screen row col)
      else d.virtual_back_screen row col := by
  show forLoop 0 d.virtual_back_screen_height
    (Display.scrollRightLine d.virtual_back_screen_width n) d.virtual_back_screen row col = _
  rw [lineLoop_apply _ _
    (fun s i col => if col < n then false
      else if col < d.virtual_back_screen_width then s i (col - n) else s i col)
    (fun i s row col => scrollRightLine_apply _ _ _ _ _ _)
    (by
      intro s1 s2 i col h
      simp only [h])]

/-- Every cell of the back screen after `scrollLeft(n)`. -/
theorem scrollLeft_apply (d : Display) (n row col : Nat) :
    (d.scrollLeft n).virtual_back_screen row col =
      if row < d.virtual_back_screen_height then
        (if col < d.virtual_back_screen_width - n then d.virtual_back_screen row (col + n)
         else if col < d.virtual_back_screen_width then false
         else d.virtual_back_screen row col)
      else d.virtual_back_screen row col := by
  show forLoop 0 d.virtual_back_screen_height
    (Display.scrollLeftLine d.virtual_back_screen_width n) d.virtual_back_screen row col = _
  rw [lineLoop_apply _ _
    (fun s i col => if col < d.virtual_back_screen_width - n then s i (col + n)
      else if col < d.virtual_back_screen_width then false else s i col)
    (fun i s row col => scrollLeftLine_apply _ _ _ _ _ _)
    (by
      intro s1 s2 i col h
      simp only [h])]

/-- C16: `scrollDown(n)` leaves line `i` equal to the old line `i - n` for
every `n ≤ i < H` and the lines `0 .. n-1` cleared, on the 128 cells of each
line (hence on the visible ones); the old bottom `n` lines are discarded and
nothing wraps: the lines below `H` after the scroll are the same whatever the
old lines from `H - n` on held. Nothing but the back screen changes. -/
theorem scrollDown_spec (d : Display) (n : Nat) :
    (∀ row col, n ≤ row → row < d.virtual_back_screen_height → col < 128 →
      (d.scrollDown n).virtual_back_screen row col = d.virtual_back_screen (row - n) col) ∧
    (∀ row col, row < n → col < 128 →
      (d.scrollDown n).virtual_back_screen row col = false) ∧
    (∀ d2 : Display, d2.virtual_back_screen_height = d.virtual_back_screen_height →
      (∀ row col, row + n < d.virtual_back_screen_height →
        d2.virtual_back_screen row col = d.virtual_back_screen row col) →
      ∀ row col, row < d.virtual_back_screen_height → col < 128 →
        (d2.scrollDown n).virtual_back_screen row col =
          (d.scrollDown n).virtual_back_screen row col) ∧
    d.scrollDown n = { d with virtual_back_screen := (d.scrollDown n).virtual_back_screen } := by
  refine ⟨?_, ?_, ?_, rfl⟩
  · intro row col h1 h2 h3
    rw [scrollDown_apply, if_pos h3, if_neg (by omega), if_pos h2]
  · intro row col h1 h2
    rw [scrollDown_apply, if_pos h2, if_pos h1]
  · intro d2 hH hagree row col h1 h2
    rw [scrollDown_apply, scrollDown_apply, if_pos h2, if_pos h2, hH]
    by_cases h3 : row < n
    · rw [if_pos h3, if_pos h3]
    · rw [if_neg h3, if_neg h3, if_pos h1, if_pos h1, hagree _ _ (by omega)]

/-- Witness of C16: on the low-resolution display with only line 0 set,
`scrollDown(1)` gives line 1 set, line 0 cleared and the bottom line clear. -/
theorem scrollDown_spec_witness :
    ({ Display.initial with virtual_back_screen := fun y _ => decide (y = 0) }.scrollDown
        1).virtual_back_screen 1 5 = true ∧
    ({ Display.initial with virtual_back_screen := fun y _ => decide (y = 0) }.scrollDown
        1).virtual_back_screen 0 5 = false ∧
    ({ Display.initial with virtual_back_screen := fun y _ => decide (y = 0) }.scrollDown
        1).virtual_back_screen 31 5 = false :=
  have h := scrollDown_spec
    { Display.initial with virtual_back_screen := fun y _ => decide (y = 0) } 1
  ⟨h.1 1 5 (by decide) (by decide) (by decide),
   h.2.1 0 5 (by decide) (by decide),
   h.1 31 5 (by decide) (by decide) (by decide)⟩

/-- C17: for every `n ≤ W`, in every line below `H`: `scrollRight(n)` makes
cell `j` equal to the old cell `j - n` for `n ≤ j < W` and clears the cells
`0 .. n-1`; `scrollLeft(n)` makes cell `j` equal to the old cell `j + n` for
`j < W - n` and clears the cells `W-n .. W-1`. The new cells are given by the
old screen (no cell is read after it has been overwritten), nothing wraps
around, and the cells outside the `W x H` area keep their value. -/
theorem scrollRight_scrollLeft_spec (d : Display) (n : Nat)
    (hn : n ≤ d.virtual_back_screen_width) :
    (∀ row col, row < d.virtual_back_screen_height → n ≤ col →
      col < d.virtual_back_screen_width →
      (d.scrollRight n).virtual_back_screen row col = d.virtual_back_screen row (col - n)) ∧
    (∀ row col, row < d.virtual_back_screen_height → col < n →
      (d.scrollRight n).virtual_back_screen row col = false) ∧
    (∀ row col, (d.virtual_back_screen_height ≤ row ∨ d.virtual_back_screen_width ≤ col) →
      (d.scrollRight n).virtual_back_screen row col = d.virtual_back_screen row col) ∧
    (∀ row col, row < d.virtual_back_screen_height →
      col < d.virtual_back_screen_width - n →
      (d.scrollLeft n).virtual_back_screen row col = d.virtual_back_screen row (col + n)) ∧
    (∀ row col, row < d.virtual_back_screen_height →
      d.virtual_back_screen_width - n ≤ col → col < d.virtual_back_screen_width →
      (d.scrollLeft n).virtual_back_screen row col = false) ∧
    (∀ row col, (d.virtual_back_screen_height ≤ row ∨ d.virtual_back_screen_width ≤ col) →
      (d.scrollLeft n).virtual_back_screen row col = d.virtual_back_screen row col) := by
  refine ⟨?_, ?_, ?_, ?_, ?_, ?_⟩
  · intro row col h1 h2 h3
    rw [scrollRight_apply, if_pos h1, if_neg (by omega), if_pos h3]
  · intro row col h1 h2
    rw [scrollRight_apply, if_pos h1, if_pos h2]
  · intro row col h
    rw [scrollRight_apply]
    by_cases h1 : row < d.virtual_back_screen_height
    · rw [if_pos h1, if_neg (by omega), if_neg (by omega)]
    · rw [if_neg h1]
  · intro row col h1 h2
    rw [scrollLeft_apply, if_pos h1, if_pos h2]
  · intro row col h1 h2 h3
    rw [scrollLeft_apply, if_pos h1, if_neg (by omega), if_pos h3]
  · intro row col h
    rw [scrollLeft_apply]
    by_cases h1 : row < d.virtual_back_screen_height
    · rw [if_pos h1, if_neg (by omega), if_neg (by omega)]
    · rw [if_neg h1]

/-- Witness of C17: on the low-resolution display whose only set cells are
those of column 10, `scrollRight(4)` sets column 14 and clears column 10, and
`scrollLeft(4)` sets column 6. -/
theorem scrollRight_scrollLeft_spec_witness :
    (4 ≤ ({ Display.initial with
      virtual_back_screen := fun _ x => decide (x = 10) } : Display).virtual_back_screen_width) ∧
    ({ Display.initial with virtual_back_screen := fun _ x => decide (x = 10) }.scrollRight
        4).virtual_back_screen 3 14 = true ∧
    ({ Display.initial with virtual_back_screen := fun _ x => decide (x = 10) }.scrollRight
        4).virtual_back_screen 3 10 = false ∧
    ({ Display.initial with virtual_back_screen := fun _ x => decide (x = 10) }.scrollLeft
        4).virtual_back_screen 3 6 = true :=
  have h := scrollRight_scrollLeft_spec
    { Display.initial with virtual_back_screen := fun _ x => decide (x = 10) } 4 (by decide)
  ⟨by decide,
   h.1 3 14 (by decide) (by decide) (by decide),
   h.1 3 10 (by decide) (by decide) (by decide),
   h.2.2.2.1 3 6 (by decide) (by decide)⟩

/-- C18: `setResolution(mode)` changes only the logical width, the logical
height and the resolution tag of the back buffer (to 64x32 for `LOW_RES`, to
128x64 for `HIGH_RES`): every pixel of the back screen, and the whole front
buffer with its dimensions and tags, are unchanged. -/
theorem setResolution_spec (d : Display) (mode : Resolution) :
    d.setResolution mode =
      { d with
        virtual_back_screen_width := (if mode = Resolution.LOW_RES then 64 else 128)
        virtual_back_screen_height := (if mode = Resolution.LOW_RES then 32 else 64)
        current_back_resolution := mode } ∧
    (d.setResolution mode).virtual_back_screen = d.virtual_back_screen ∧
    (d.setResolution mode).virtual_front_screen = d.virtual_front_screen ∧
    (d.setResolution mode).virtual_front_screen_width = d.virtual_front_screen_width ∧
    (d.setResolution mode).virtual_front_screen_height = d.virtual_front_screen_height ∧
    (d.setResolution mode).current_front_resolution = d.current_front_resolution ∧
    (d.setResolution mode).next_front_resolution = d.next_front_resolution := by
  cases mode <;> exact ⟨rfl, rfl, rfl, rfl, rfl, rfl, rfl⟩

/-- Witness of C18: the switch of the initial display to high resolution. -/
theorem setResolution_spec_witness :
    (Display.initial.setResolution Resolution.HIGH_RES).virtual_back_screen_width = 128 ∧
    (Display.initial.setResolution Resolution.HIGH_RES).virtual_back_screen_height = 64 ∧
    (Display.initial.setResolution Resolution.HIGH_RES).virtual_front_screen_width = 64 :=
  have h := setResolution_spec Display.initial Resolution.HIGH_RES
  ⟨congrArg Display.virtual_back_screen_width h.1,
   congrArg Display.virtual_back_screen_height h.1, h.2.2.2.1⟩

/-! ## Drawing and scrolling stay inside the logical screen -/

/-- One step of the column loop of `addSprite` writes inside the `W x H` area. -/
theorem addSpriteColumn_outside (W H sw sb swd x y r c : Nat) (st : Screen × Bool)
    (hW : 0 < W) (hH : 0 < H) (row col : Nat) (h : H ≤ row ∨ W ≤ col) :
    (Display.addSpriteColumn W H sw sb swd x y r c st).1 row col = st.1 row col := by
  unfold Display.addSpriteColumn
  dsimp only
  rw [setPixel_apply, if_neg]
  intro h1
  have h2 : (y + r) % H < H := Nat.mod_lt _ hH
  have h3 : (x + c) % W < W := Nat.mod_lt _ hW
  omega

/-- One iteration of the line loop of `addSprite` writes inside the `W x H` area. -/
theorem addSpriteRow_outside (W H : Nat) (sprite : Sprite) (x y r : Nat)
    (st : Screen × Bool × Nat) (hW : 0 < W) (hH : 0 < H) (row col : Nat)
    (h : H ≤ row ∨ W ≤ col) :
    (Display.addSpriteRow W H sprite x y r st).1 row col = st.1 row col := by
  unfold Display.addSpriteRow
  dsimp only
  exact forLoop_induct (fun _ (s : Screen × Bool) => s.1 row col = st.1 row col)
    0 sprite.width _ (st.1, st.2.1) (Nat.zero_le _) rfl
    (fun c s _ _ hP => (addSpriteColumn_outside _ _ _ _ _ _ _ _ _ _ hW hH _ _ h).trans hP)

/-- The function `addSprite` leaves every cell outside the logical screen as it was. -/
theorem addSprite_outside (d : Display) (sprite : Sprite) (x y : Nat)
    (hW : 0 < d.virtual_back_screen_width) (hH : 0 < d.virtual_back_screen_height)
    (row col : Nat)
    (h : d.virtual_back_screen_height ≤ row ∨ d.virtual_back_screen_width ≤ col) :
    (d.addSprite sprite x y).1.virtual_back_screen row col = d.virtual_back_screen row col := by
  unfold Display.addSprite
  dsimp only
  exact forLoop_induct
    (fun _ (s : Screen × Bool × Nat) => s.1 row col = d.virtual_back_screen row col)
    0 sprite.height _ (d.virtual_back_screen, false, 0) (Nat.zero_le _) rfl
    (fun r s _ _ hP => (addSpriteRow_outside _ _ _ _ _ _ _ hW hH _ _ h).trans hP)

/-- C19: after a switch to low resolution (64x32), for every back-buffer
state, sprite and coordinates, `addSprite` leaves every cell with column
`≥ 64` or line `≥ 32` unchanged. -/
theorem addSprite_low_res_outside (d : Display) (sprite : Sprite) (x y row col : Nat)
    (h : 64 ≤ col ∨ 32 ≤ row) :
    ((d.setResolution Resolution.LOW_RES).addSprite sprite x y).1.virtual_back_screen row col =
      d.virtual_back_screen row col :=
  addSprite_outside (d.setResolution Resolution.LOW_RES) sprite x y
    (show 0 < 64 by decide) (show 0 < 32 by decide) row col (h.symm)

/-- Witness of C19: a full 16x16 sprite drawn at `(56, 24)` on a screen with
the cell of line 40, column 100 set leaves that cell set. -/
theorem addSprite_low_res_outside_witness :
    (64 ≤ 100 ∨ 32 ≤ 40) ∧
    ((({ Display.initial with
        virtual_back_screen := fun y x => decide (y = 40 ∧ x = 100) } : Display).setResolution
      Resolution.LOW_RES).addSprite (Sprite.mk 16 16 (fun _ => 0xFF)) 56 24).1.virtual_back_screen
        40 100 = true :=
  ⟨by decide,
   addSprite_low_res_outside
     { Display.initial with virtual_back_screen := fun y x => decide (y = 40 ∧ x = 100) }
     (Sprite.mk 16 16 (fun _ => 0xFF)) 56 24 40 100 (by decide)⟩

/-- The part of C20 that holds: in low resolution `scrollRight(n)` and
`scrollLeft(n)` leave every cell with column `≥ 64` or line `≥ 32` unchanged
(for `n ≤ 64`), and `scrollDown(n)` leaves every cell of a line `≥ 32`
unchanged (for `n ≤ 32`). -/
theorem scroll_low_res_outside (d : Display) (n row col : Nat) :
    (n ≤ 64 → (64 ≤ col ∨ 32 ≤ row) →
      ((d.setResolution Resolution.LOW_RES).scrollRight n).virtual_back_screen row col =
        d.virtual_back_screen row col ∧
      ((d.setResolution Resolution.LOW_RES).scrollLeft n).virtual_back_screen row col =
        d.virtual_back_screen row col) ∧
    (n ≤ 32 → 32 ≤ row →
      ((d.setResolution Resolution.LOW_RES).scrollDown n).virtual_back_screen row col =
        d.virtual_back_screen row col) := by
  constructor
  · intro hn h
    have eH : (d.setResolution Resolution.LOW_RES).virtual_back_screen_height = 32 := rfl
    have eW : (d.setResolution Resolution.LOW_RES).virtual_back_screen_width = 64 := rfl
    rw [scrollRight_apply, scrollLeft_apply, eH, eW]
    by_cases h1 : row < 32
    · rw [if_pos h1, if_pos h1, if_neg (by omega), if_neg (by omega), if_neg (by omega),
        if_neg (by omega)]
      exact ⟨rfl, rfl⟩
    · rw [if_neg h1, if_neg h1]
      exact ⟨rfl, rfl⟩
  · intro hn h
    rw [scrollDown_apply]
    have e : (d.setResolution Resolution.LOW_RES).virtual_back_screen_height = 32 := rfl
    rw [e]
    by_cases h1 : col < 128
    · rw [if_pos h1, if_neg (by omega), if_neg (by omega)]
      rfl
    · rw [if_neg h1]
      rfl

/-- C20, the code at the failing input: in low resolution, with the single cell
of line 0, column 100 set, `scrollDown(1)` sets the cell of line 1, column 100
and clears the cell of line 0, column 100, both with column `≥ 64`. -/
theorem scrollDown_low_res_mutates_hidden_columns :
    (({ Display.initial with
        virtual_back_screen := fun y x => decide (y = 0 ∧ x = 100) } : Display).setResolution
      Resolution.LOW_RES).virtual_back_screen 1 100 = false ∧
    ((({ Display.initial with
        virtual_back_screen := fun y x => decide (y = 0 ∧ x = 100) } : Display).setResolution
      Resolution.LOW_RES).scrollDown 1).virtual_back_screen 1 100 = true ∧
    (({ Display.initial with
        virtual_back_screen := fun y x => decide (y = 0 ∧ x = 100) } : Display).setResolution
      Resolution.LOW_RES).virtual_back_screen 0 100 = true ∧
    ((({ Display.initial with
        virtual_back_screen := fun y x => decide (y = 0 ∧ x = 100) } : Display).setResolution
      Resolution.LOW_RES).scrollDown 1).virtual_back_screen 0 100 = false := by
  decide

/-! ## Drawing a sprite -/

/-- Wrapped coordinates of distinct offsets below the modulus are distinct. -/
theorem add_mod_inj (x W c1 c2 : Nat) (h1 : c1 < W) (h2 : c2 < W)
    (h : (x + c1) % W = (x + c2) % W) : c1 = c2 := by
  have h3 : c1 ≡ c2 [MOD W] := Nat.ModEq.add_left_cancel' x h
  exact Nat.ModEq.eq_of_lt_of_lt h3 h1 h2

/-- The column loop of `addSprite` on one line: the `n` cells it visits are
xor-ed with their bits, every other cell is kept, and the collision flag is
raised exactly when it was raised before or a set bit met a set cell. -/
theorem addSprite_columns (W H sw sb swd x y r : Nat) (s0 : Screen) (coll0 : Bool)
    (n : Nat) (hn : n ≤ W) :
    (∀ c, c < n →
      (forLoop 0 n (Display.addSpriteColumn W H sw sb swd x y r) (s0, coll0)).1
          ((y + r) % H) ((x + c) % W) =
        xor (s0 ((y + r) % H) ((x + c) % W)) (Display.spriteBit sw sb swd c)) ∧
    (∀ row col, (row ≠ (y + r) % H ∨ ∀ c, c < n → col ≠ (x + c) % W) →
      (forLoop 0 n (Display.addSpriteColumn W H sw sb swd x y r) (s0, coll0)).1 row col =
        s0 row col) ∧
    ((forLoop 0 n (Display.addSpriteColumn W H sw sb swd x y r) (s0, coll0)).2 = true ↔
      (coll0 = true ∨ ∃ c, c < n ∧ s0 ((y + r) % H) ((x + c) % W) = true ∧
        Display.spriteBit sw sb swd c = true)) := by
  refine forLoop_induct
    (fun k (st : Screen × Bool) =>
      (∀ c, c < k → st.1 ((y + r) % H) ((x + c) % W) =
        xor (s0 ((y + r) % H) ((x + c) % W)) (Display.spriteBit sw sb swd c)) ∧
      (∀ row col, (row ≠ (y + r) % H ∨ ∀ c, c < k → col ≠ (x + c) % W) →
        st.1 row col = s0 row col) ∧
      (st.2 = true ↔ (coll0 = true ∨ ∃ c, c < k ∧ s0 ((y + r) % H) ((x + c) % W) = true ∧
        Display.spriteBit sw sb swd c = true)))
    0 n _ (s0, coll0) (Nat.zero_le _) ?_ ?_
  · refine ⟨fun c hc => absurd hc (Nat.not_lt_zero c), fun _ _ _ => rfl, ?_⟩
    constructor
    · intro h
      exact Or.inl h
    · rintro (h | ⟨c, hc, _⟩)
      · exact h
      · exact absurd hc (Nat.not_lt_zero c)
  · intro k st _ hk ⟨ha, hb, hc⟩
    have hkW : k < W := Nat.lt_of_lt_of_le hk hn
    have hold : st.1 ((y + r) % H) ((x + k) % W) = s0 ((y + r) % H) ((x + k) % W) := by
      apply hb
      right
      intro c hc1 heq
      have := add_mod_inj x W k c hkW (by omega) heq
      omega
    have hnew : ∀ row col,
        (Display.addSpriteColumn W H sw sb swd x y r k st).1 row col =
          if row = (y + r) % H ∧ col = (x + k) % W then
            xor (s0 ((y + r) % H) ((x + k) % W)) (Display.spriteBit sw sb swd k)
          else st.1 row col := by
      intro row col
      unfold Display.addSpriteColumn
      dsimp only
      rw [setPixel_apply, hold]
    have hcoll : (Display.addSpriteColumn W H sw sb swd x y r k st).2 =
        (st.2 || (s0 ((y + r) % H) ((x + k) % W) && Display.spriteBit sw sb swd k)) := by
      unfold Display.addSpriteColumn
      dsimp only
      rw [hold]
    refine ⟨?_, ?_, ?_⟩
    · intro c hc1
      rw [hnew]
      by_cases hck : c = k
      · subst hck
        rw [if_pos ⟨rfl, rfl⟩]
      · rw [if_neg, ha c (by omega)]
        intro h
        exact hck (add_mod_inj x W c k (by omega) hkW h.2)
    · intro row col h
      rw [hnew, if_neg, hb]
      · rcases h with h | h
        · exact Or.inl h
        · exact Or.inr (fun c hc1 => h c (by omega))
      · rintro ⟨h1, h2⟩
        rcases h with h | h
        · exact h h1
        · exact h k (Nat.lt_succ_self k) h2
    · rw [hcoll, Bool.or_eq_true, hc, Bool.and_eq_true]
      constructor
      · rintro (h | h)
        · rcases h with h | ⟨c, hc1, hc2⟩
          · exact Or.inl h
          · exact Or.inr ⟨c, by omega, hc2⟩
        · exact Or.inr ⟨k, Nat.lt_succ_self k, h⟩
      · rintro (h | ⟨c, hc1, hc2⟩)
        · exact Or.inl (Or.inl h)
        · by_cases hck : c = k
          · subst hck
            exact Or.inr hc2
          · exact Or.inl (Or.inr ⟨c, by omega, hc2⟩)

/-- One iteration of the line loop of `addSprite`, in terms of its column loop. -/
theorem addSpriteRow_eq (W H : Nat) (sprite : Sprite) (x y r : Nat) (st : Screen × Bool × Nat) :
    Display.addSpriteRow W H sprite x y r st =
      ((forLoop 0 sprite.width (Display.addSpriteColumn W H sprite.width
          (sprite.data st.2.2)
          (if sprite.width = 16 then
            u16 ((sprite.data st.2.2 <<< 8) ||| sprite.data (st.2.2 + 1)) else 0)
          x y r) (st.1, st.2.1)).1,
       (forLoop 0 sprite.width (Display.addSpriteColumn W H sprite.width
          (sprite.data st.2.2)
          (if sprite.width = 16 then
            u16 ((sprite.data st.2.2 <<< 8) ||| sprite.data (st.2.2 + 1)) else 0)
          x y r) (st.1, st.2.1)).2,
       u8 ((if sprite.width = 16 then u8 (st.2.2 + 1) else st.2.2) + 1)) := rfl

/-- The byte counter after one more line, while it stays below 256. -/
theorem data_row_next (sprite : Sprite) (k : Nat) (hk : k < 16) :
    u8 ((if sprite.width = 16 then u8 (Display.lineBytes sprite * k + 1)
      else Display.lineBytes sprite * k) + 1) = Display.lineBytes sprite * (k + 1) := by
  unfold Display.lineBytes u8
  split_ifs <;> omega

/-- The line loop of `addSprite` after `k` lines: the cells of the lines drawn
so far are xor-ed with their bits, every other cell is kept, the collision flag
is raised exactly when a set bit met a cell that was set at the start, and the
byte counter has advanced by `lineBytes` per line. -/
theorem addSprite_lines (W H : Nat) (sprite : Sprite) (x y : Nat) (s0 : Screen)
    (hw : sprite.width ≤ W) (k : Nat) (hkH : k ≤ H) (hk16 : k ≤ 16) :
    (∀ r c, r < k → c < sprite.width →
      (forLoop 0 k (Display.addSpriteRow W H sprite x y) (s0, false, 0)).1
          ((y + r) % H) ((x + c) % W) =
        xor (s0 ((y + r) % H) ((x + c) % W))
          (Display.lineBit sprite (Display.lineBytes sprite * r) c)) ∧
    (∀ row col, (∀ r c, r < k → c < sprite.width →
        ¬ (row = (y + r) % H ∧ col = (x + c) % W)) →
      (forLoop 0 k (Display.addSpriteRow W H sprite x y) (s0, false, 0)).1 row col =
        s0 row col) ∧
    ((forLoop 0 k (Display.addSpriteRow W H sprite x y) (s0, false, 0)).2.1 = true ↔
      ∃ r c, r < k ∧ c < sprite.width ∧ s0 ((y + r) % H) ((x + c) % W) = true ∧
        Display.lineBit sprite (Display.lineBytes sprite * r) c = true) ∧
    (forLoop 0 k (Display.addSpriteRow W H sprite x y) (s0, false, 0)).2.2 =
      Display.lineBytes sprite * k := by
  refine forLoop_induct
    (fun k (st : Screen × Bool × Nat) =>
      (∀ r c, r < k → c < sprite.width →
        st.1 ((y + r) % H) ((x + c) % W) =
          xor (s0 ((y + r) % H) ((x + c) % W))
            (Display.lineBit sprite (Display.lineBytes sprite * r) c)) ∧
      (∀ row col, (∀ r c, r < k → c < sprite.width →
          ¬ (row = (y + r) % H ∧ col = (x + c) % W)) → st.1 row col = s0 row col) ∧
      (st.2.1 = true ↔
        ∃ r c, r < k ∧ c < sprite.width ∧ s0 ((y + r) % H) ((x + c) % W) = true ∧
          Display.lineBit sprite (Display.lineBytes sprite * r) c = true) ∧
      st.2.2 = Display.lineBytes sprite * k)
    0 k _ (s0, false, 0) (Nat.zero_le _) ?_ ?_
  · refine ⟨fun r c hr => absurd hr (Nat.not_lt_zero r), fun _ _ _ => rfl, ?_, rfl⟩
    constructor
    · intro h
      exact absurd h Bool.false_ne_true
    · rintro ⟨r, c, hr, _⟩
      exact absurd hr (Nat.not_lt_zero r)
  · intro i st _ hi ⟨hA, hB, hC, hD⟩
    have hiH : i < H := Nat.lt_of_lt_of_le hi hkH
    obtain ⟨ca, cb, cc⟩ := addSprite_columns W H sprite.width (sprite.data st.2.2)
      (if sprite.width = 16 then
        u16 ((sprite.data st.2.2 <<< 8) ||| sprite.data (st.2.2 + 1)) else 0)
      x y i st.1 st.2.1 sprite.width hw
    have hbit : ∀ c, Display.spriteBit sprite.width (sprite.data st.2.2)
        (if sprite.width = 16 then
          u16 ((sprite.data st.2.2 <<< 8) ||| sprite.data (st.2.2 + 1)) else 0) c =
        Display.lineBit sprite (Display.lineBytes sprite * i) c := by
      intro c
      rw [hD]
      rfl
    have hold : ∀ c, c < sprite.width →
        st.1 ((y + i) % H) ((x + c) % W) = s0 ((y + i) % H) ((x + c) % W) := by
      intro c _
      apply hB
      intro r c2 hr _ heq
      have := add_mod_inj y H i r hiH (by omega) heq.1
      omega
    rw [addSpriteRow_eq]
    refine ⟨?_, ?_, ?_, ?_⟩
    · intro r c hr hc
      show (forLoop 0 sprite.width _ (st.1, st.2.1)).1 _ _ = _
      by_cases hri : r = i
      · subst hri
        rw [ca c hc, hold c hc, hbit]
      · rw [cb _ _ (Or.inl (fun h => hri (add_mod_inj y H r i (by omega) hiH h)))]
        exact hA r c (by omega) hc
    · intro row col h
      show (forLoop 0 sprite.width _ (st.1, st.2.1)).1 _ _ = _
      rw [cb, hB]
      · intro r c hr hc
        exact h r c (by omega) hc
      · by_cases hrow : row = (y + i) % H
        · right
          intro c hc heq
          exact h i c (Nat.lt_succ_self i) hc ⟨hrow, heq⟩
        · exact Or.inl hrow
    · show (forLoop 0 sprite.width _ (st.1, st.2.1)).2 = true ↔ _
      rw [cc, hC]
      constructor
      · rintro (⟨r, c, hr, hc, h1, h2⟩ | ⟨c, hc, h1, h2⟩)
        · exact ⟨r, c, by omega, hc, h1, h2⟩
        · exact ⟨i, c, Nat.lt_succ_self i, hc, by rw [← hold c hc]; exact h1,
            by rw [← hbit]; exact h2⟩
      · rintro ⟨r, c, hr, hc, h1, h2⟩
        by_cases hri : r = i
        · subst hri
          exact Or.inr ⟨c, hc, by rw [hold c hc]; exact h1, by rw [hbit]; exact h2⟩
        · exact Or.inl ⟨r, c, by omega, hc, h1, h2⟩
    · show u8 ((if sprite.width = 16 then u8 (st.2.2 + 1) else st.2.2) + 1) = _
      rw [hD]
      exact data_row_next sprite i (by omega)

/-- Every cell of the back screen and the collision flag after `addSprite`,
for a sprite that fits the logical screen and has at most 16 lines. -/
theorem addSprite_cells (d : Display) (sprite : Sprite) (x y : Nat)
    (hw : sprite.width ≤ d.virtual_back_screen_width)
    (hh : sprite.height ≤ d.virtual_back_screen_height) (hh16 : sprite.height ≤ 16) :
    (∀ r c, r < sprite.height → c < sprite.width →
      (d.addSprite sprite x y).1.virtual_back_screen
          ((y + r) % d.virtual_back_screen_height) ((x + c) % d.virtual_back_screen_width) =
        xor (d.virtual_back_screen
          ((y + r) % d.virtual_back_screen_height) ((x + c) % d.virtual_back_screen_width))
          (Display.lineBit sprite (Display.lineBytes sprite * r) c)) ∧
    (∀ row col, (∀ r c, r < sprite.height → c < sprite.width →
        ¬ (row = (y + r) % d.virtual_back_screen_height ∧
          col = (x + c) % d.virtual_back_screen_width)) →
      (d.addSprite sprite x y).1.virtual_back_screen row col = d.virtual_back_screen row col) ∧
    ((d.addSprite sprite x y).2 = true ↔
      ∃ r c, r < sprite.height ∧ c < sprite.width ∧
        d.virtual_back_screen
          ((y + r) % d.virtual_back_screen_height) ((x + c) % d.virtual_back_screen_width)
          = true ∧
        Display.lineBit sprite (Display.lineBytes sprite * r) c = true) := by
  obtain ⟨h1, h2, h3, _⟩ := addSprite_lines d.virtual_back_screen_width
    d.virtual_back_screen_height sprite x y d.virtual_back_screen hw sprite.height hh hh16
  exact ⟨h1, h2, h3⟩

/-- Masking with a single bit is non-zero exactly when that bit is set. -/
theorem and_two_pow_ne_zero (n k : Nat) : decide (n &&& 2 ^ k ≠ 0) = n.testBit k := by
  by_cases h : n.testBit k = true
  · rw [h, decide_eq_true_eq]
    intro h0
    have h1 : (n &&& 2 ^ k).testBit k = true := by
      rw [Nat.testBit_and, h, Nat.testBit_two_pow_self]
      rfl
    rw [h0, Nat.zero_testBit] at h1
    exact Bool.false_ne_true h1
  · have hf : n.testBit k = false := by simpa using h
    rw [hf, decide_eq_false_iff_not, not_not]
    apply Nat.eq_of_testBit_eq
    intro i
    rw [Nat.testBit_and, Nat.testBit_two_pow, Nat.zero_testBit]
    by_cases hki : k = i
    · subst hki
      rw [hf]
      rfl
    · rw [decide_eq_false hki, Bool.and_false]

/-- The masks of `addSprite`: `2 ^ m >> c` is the single bit `m - c`. -/
theorem two_pow_shiftRight (m c : Nat) (hc : c ≤ m) : (2 ^ m) >>> c = 2 ^ (m - c) := by
  rw [Nat.shiftRight_eq_div_pow, Nat.pow_div hc (by decide)]

/-- The bit drawn by the code is the source bit of the specification, for a
sprite 8 or 16 wide whose data are bytes. -/
theorem lineBit_eq_sourceBit (sprite : Sprite) (r c : Nat)
    (hwidth : sprite.width = 8 ∨ sprite.width = 16) (hc : c < sprite.width)
    (hdata : ∀ k, sprite.data k < 256) :
    Display.lineBit sprite (Display.lineBytes sprite * r) c = sprite.sourceBit r c := by
  unfold Display.lineBit Display.lineBytes Sprite.sourceBit Display.spriteBit
  rcases hwidth with h8 | h16
  · have hne : ¬ sprite.width = 16 := by omega
    rw [if_pos h8, if_neg hne, if_pos h8, Nat.one_mul]
    have e : (0x80 : Nat) >>> c = 2 ^ (7 - c) := two_pow_shiftRight 7 c (by omega)
    rw [e, and_two_pow_ne_zero]
  · have hne : ¬ sprite.width = 8 := by omega
    rw [if_neg hne, if_pos h16, if_neg hne, if_pos h16]
    have e : (0x8000 : Nat) >>> c = 2 ^ (15 - c) := two_pow_shiftRight 15 c (by omega)
    have h0 := hdata (2 * r)
    have h1 := hdata (2 * r + 1)
    rw [e, and_two_pow_ne_zero, shiftLeft8_or h1, u16_of_lt (by omega)]

/-- C13: `addSprite(sprite, x, y)` on a back buffer of logical size `W x H`
(64x32 or 128x64), for a sprite of width 8 or 16 and height at most 16 whose
data are bytes: for every line `r` and column `c` of the sprite, the cell at
column `(x + c) mod W`, line `(y + r) mod H` becomes its old value xor the
source bit; every other cell is unchanged; the returned collision flag is true
exactly when some set source bit landed on a cell that was set before the
draw; and nothing but the back screen changes. -/
theorem addSprite_spec (d : Display) (sprite : Sprite) (x y : Nat)
    (hres : (d.virtual_back_screen_width = 64 ∧ d.virtual_back_screen_height = 32) ∨
      (d.virtual_back_screen_width = 128 ∧ d.virtual_back_screen_height = 64))
    (hwidth : sprite.width = 8 ∨ sprite.width = 16) (hheight : sprite.height ≤ 16)
    (hdata : ∀ k, sprite.data k < 256) :
    (∀ r c, r < sprite.height → c < sprite.width →
      (d.addSprite sprite x y).1.virtual_back_screen
          ((y + r) % d.virtual_back_screen_height) ((x + c) % d.virtual_back_screen_width) =
        xor (d.virtual_back_screen
          ((y + r) % d.virtual_back_screen_height) ((x + c) % d.virtual_back_screen_width))
          (sprite.sourceBit r c)) ∧
    (∀ row col, (¬ ∃ r c, r < sprite.height ∧ c < sprite.width ∧
        row = (y + r) % d.virtual_back_screen_height ∧
        col = (x + c) % d.virtual_back_screen_width) →
      (d.addSprite sprite x y).1.virtual_back_screen row col = d.virtual_back_screen row col) ∧
    ((d.addSprite sprite x y).2 = true ↔
      ∃ r c, r < sprite.height ∧ c < sprite.width ∧ sprite.sourceBit r c = true ∧
        d.virtual_back_screen
          ((y + r) % d.virtual_back_screen_height) ((x + c) % d.virtual_back_screen_width)
          = true) ∧
    (d.addSprite sprite x y).1 =
      { d with virtual_back_screen := (d.addSprite sprite x y).1.virtual_back_screen } := by
  obtain ⟨h1, h2, h3⟩ := addSprite_cells d sprite x y (by omega) (by omega) hheight
  refine ⟨?_, ?_, ?_, rfl⟩
  · intro r c hr hc
    rw [h1 r c hr hc, lineBit_eq_sourceBit sprite r c hwidth hc hdata]
  · intro row col h
    apply h2
    intro r c hr hc heq
    exact h ⟨r, c, hr, hc, heq.1, heq.2⟩
  · rw [h3]
    constructor
    · rintro ⟨r, c, hr, hc, ha, hb⟩
      exact ⟨r, c, hr, hc, by rw [← lineBit_eq_sourceBit sprite r c hwidth hc hdata]; exact hb, ha⟩
    · rintro ⟨r, c, hr, hc, ha, hb⟩
      exact ⟨r, c, hr, hc, hb, by rw [lineBit_eq_sourceBit sprite r c hwidth hc hdata]; exact ha⟩

/-- Witness of C13: the 8-wide, one-line sprite `0xFF` drawn at `x = 63`,
`y = 0` on the cleared 64-wide screen sets the columns 63 and 0 to 6 of line 0,
and leaves column 7 clear. -/
theorem addSprite_spec_witness :
    (Display.initial.addSprite (Sprite.mk 1 8 (fun _ => 0xFF)) 63 0).1.virtual_back_screen
      0 63 = true ∧
    (Display.initial.addSprite (Sprite.mk 1 8 (fun _ => 0xFF)) 63 0).1.virtual_back_screen
      0 0 = true ∧
    (Display.initial.addSprite (Sprite.mk 1 8 (fun _ => 0xFF)) 63 0).1.virtual_back_screen
      0 6 = true ∧
    (Display.initial.addSprite (Sprite.mk 1 8 (fun _ => 0xFF)) 63 0).1.virtual_back_screen
      0 7 = false ∧
    (Display.initial.addSprite (Sprite.mk 1 8 (fun _ => 0xFF)) 63 0).2 = false :=
  have h := addSprite_spec Display.initial (Sprite.mk 1 8 (fun _ => 0xFF)) 63 0
    (Or.inl ⟨rfl, rfl⟩) (Or.inl rfl) (by decide) (fun _ => show 0xFF < 256 by decide)
  ⟨h.1 0 0 (by decide) (by decide), h.1 0 1 (by decide) (by decide),
   h.1 0 7 (by decide) (by decide), by decide, by decide⟩

/-- C14: for every back-buffer state, either resolution, every sprite (8xN
with `N ≤ 15`, or 16x16) and every coordinates, calling `addSprite` twice with
the same sprite and coordinates restores the display, back buffer included, to
exactly its original state. -/
theorem addSprite_twice (d : Display) (sprite : Sprite) (x y : Nat)
    (hres : (d.virtual_back_screen_width = 64 ∧ d.virtual_back_screen_height = 32) ∨
      (d.virtual_back_screen_width = 128 ∧ d.virtual_back_screen_height = 64))
    (hsprite : (sprite.width = 8 ∧ sprite.height ≤ 15) ∨
      (sprite.width = 16 ∧ sprite.height = 16)) :
    ((d.addSprite sprite x y).1.addSprite sprite x y).1 = d := by
  have hW : (d.addSprite sprite x y).1.virtual_back_screen_width =
      d.virtual_back_screen_width := rfl
  have hH : (d.addSprite sprite x y).1.virtual_back_screen_height =
      d.virtual_back_screen_height := rfl
  obtain ⟨a1, b1, _⟩ := addSprite_cells d sprite x y (by omega) (by omega) (by omega)
  obtain ⟨a2, b2, _⟩ := addSprite_cells (d.addSprite sprite x y).1 sprite x y
    (by rw [hW]; omega) (by rw [hH]; omega) (by omega)
  rw [hW, hH] at a2 b2
  have hs : ((d.addSprite sprite x y).1.addSprite sprite x y).1.virtual_back_screen =
      d.virtual_back_screen := by
    funext row col
    by_cases ht : ∃ r c, r < sprite.height ∧ c < sprite.width ∧
        row = (y + r) % d.virtual_back_screen_height ∧
        col = (x + c) % d.virtual_back_screen_width
    · obtain ⟨r, c, hr, hc, h1, h2⟩ := ht
      subst h1 h2
      rw [a2 r c hr hc, a1 r c hr hc, Bool.xor_assoc, Bool.xor_self, Bool.xor_false]
    · have hn : ∀ r c, r < sprite.height → c < sprite.width →
          ¬ (row = (y + r) % d.virtual_back_screen_height ∧
            col = (x + c) % d.virtual_back_screen_width) :=
        fun r c hr hc h => ht ⟨r, c, hr, hc, h.1, h.2⟩
      rw [b2 row col hn, b1 row col hn]
  show { (d.addSprite sprite x y).1 with
    virtual_back_screen :=
      ((d.addSprite sprite x y).1.addSprite sprite x y).1.virtual_back_screen } = d
  rw [hs]
  rfl

/-- Witness of C14: a 16x16 sprite drawn twice at `(250, 60)` on the initial
display in high resolution, with one cell set beforehand. -/
theorem addSprite_twice_witness :
    (((Display.withScreen Resolution.HIGH_RES (fun r c => decide (r = 1 ∧ c = 2))).addSprite
        (Sprite.mk 16 16 (fun k => k)) 250 60).1.addSprite
      (Sprite.mk 16 16 (fun k => k)) 250 60).1 =
    Display.withScreen Resolution.HIGH_RES (fun r c => decide (r = 1 ∧ c = 2)) :=
  addSprite_twice _ _ 250 60 (Or.inr ⟨rfl, rfl⟩) (Or.inr ⟨rfl, rfl⟩)

/-- The drawing path of `DXYN`: when `I` and the size tested by the code are
inside the memory, the sprite is drawn and `VF` receives the collision flag. -/
theorem executeCategoryD_draws (vm : VM) (opcode : Opcode)
    (hread : vm.registers.I + (if opcode.N = 0x0 then 16 else opcode.N) *
      (if opcode.N = 0x0 then 16 else 8) < RAM_SIZE) :
    vm.executeCategoryD opcode none =
      (({ vm with display := (vm.display.addSprite
            { height := if opcode.N = 0x0 then 16 else opcode.N
              width := if opcode.N = 0x0 then 16 else 8
              data := fun k => vm.ram.memory (vm.registers.I + k) }
            (vm.registers.V opcode.X) (vm.registers.V opcode.Y)).1 } : VM).setV 0xF
        (if (vm.display.addSprite
            { height := if opcode.N = 0x0 then 16 else opcode.N
              width := if opcode.N = 0x0 then 16 else 8
              data := fun k => vm.ram.memory (vm.registers.I + k) }
            (vm.registers.V opcode.X) (vm.registers.V opcode.Y)).2 then 1 else 0), none) := by
  have h1 : ¬ vm.registers.I ≥ RAM_SIZE := by
    simp only [RAM_SIZE] at hread ⊢
    omega
  have h2 : vm.ram.isSizeReadable vm.registers.I ((if opcode.N = 0x0 then 16 else opcode.N) *
      (if opcode.N = 0x0 then 16 else 8)) = true := by
    unfold RAM.isSizeReadable
    rw [Nat.mod_eq_of_lt (by simp only [RAM_SIZE] at hread; omega)]
    exact decide_eq_true hread
  simp only [VM.executeCategoryD, RAM.getBytePointer, if_neg h1, Option.isSome_none, h2,
    Bool.not_true, Option.getD_some, Nat.zero_add]
  rfl

/-- The fields of the word `DXYN` built from its nibbles. -/
theorem decode_DXYN (X Y N : Nat) (hX : X < 16) (hY : Y < 16) (hN : N < 16) :
    (Opcode.decode (0xD000 + 256 * X + 16 * Y + N)).category = 0xD ∧
    (Opcode.decode (0xD000 + 256 * X + 16 * Y + N)).X = X ∧
    (Opcode.decode (0xD000 + 256 * X + 16 * Y + N)).Y = Y ∧
    (Opcode.decode (0xD000 + 256 * X + 16 * Y + N)).N = N :=
  decode_CXYN 0xD X Y N (by decide) hX hY hN

/-- C26: `RAM::clear` sets all 4096 bytes to zero; `RAM::clearProgram` sets every
byte in `[0x200, 4096)` to zero and leaves every byte in `[0, 0x200)`, the font
data, unchanged. -/
theorem clear_clearProgram_spec (ram : RAM) :
    (∀ a, a < 4096 → ram.clear.memory a = 0) ∧
    (∀ a, 0x200 ≤ a → a < 4096 → ram.clearProgram.memory a = 0) ∧
    (∀ a, a < 0x200 → ram.clearProgram.memory a = ram.memory a) := by
  refine ⟨fun a h => ?_, fun a h1 h2 => ?_, fun a h => ?_⟩
  · show (if a < RAM_SIZE then 0 else ram.memory a) = 0
    rw [if_pos h]
  · show (if ROM_START ≤ a ∧ a < RAM_SIZE then 0 else ram.memory a) = 0
    rw [if_pos ⟨h1, h2⟩]
  · show (if ROM_START ≤ a ∧ a < RAM_SIZE then 0 else ram.memory a) = ram.memory a
    rw [if_neg (fun c => absurd c.1 (Nat.not_le.mpr h))]

/-! ## The front buffer (C21) -/

/-- C21: the buffer swap is the only display operation that changes the state
the renderer reads. `clear`, `setResolution`, `addSprite`, `scrollDown`,
`scrollRight` and `scrollLeft` leave the pixels, the height and the width of the
front buffer and its resolution tags as they were; the swap makes the pixels,
the width and the height of the front buffer and its resolution tag
`_next_front_resolution` equal to those of the back buffer, and leaves the back
buffer unchanged. -/
theorem front_buffer_frame (d : Display) (resolution : Resolution) (sprite : Sprite)
    (x y n : Nat) :
    (∀ e ∈ [d.clear, d.setResolution resolution, (d.addSprite sprite x y).1,
        d.scrollDown n, d.scrollRight n, d.scrollLeft n],
      e.virtual_front_screen = d.virtual_front_screen ∧
      e.virtual_front_screen_height = d.virtual_front_screen_height ∧
      e.virtual_front_screen_width = d.virtual_front_screen_width ∧
      e.current_front_resolution = d.current_front_resolution ∧
      e.next_front_resolution = d.next_front_resolution) ∧
    d.swapBuffers.virtual_front_screen = d.virtual_back_screen ∧
    d.swapBuffers.virtual_front_screen_width = d.virtual_back_screen_width ∧
    d.swapBuffers.virtual_front_screen_height = d.virtual_back_screen_height ∧
    d.swapBuffers.next_front_resolution = d.current_back_resolution ∧
    d.swapBuffers.virtual_back_screen = d.virtual_back_screen ∧
    d.swapBuffers.virtual_back_screen_width = d.virtual_back_screen_width ∧
    d.swapBuffers.virtual_back_screen_height = d.virtual_back_screen_height ∧
    d.swapBuffers.current_back_resolution = d.current_back_resolution := by
  refine ⟨fun e he => ?_, rfl, rfl, rfl, rfl, rfl, rfl, rfl, rfl⟩
  simp only [List.mem_cons, List.mem_singleton, List.not_mem_nil, or_false] at he
  rcases he with h | h | h | h | h | h
  · subst h; exact ⟨rfl, rfl, rfl, rfl, rfl⟩
  · subst h; cases resolution <;> exact ⟨rfl, rfl, rfl, rfl, rfl⟩
  · subst h; exact ⟨rfl, rfl, rfl, rfl, rfl⟩
  · subst h; exact ⟨rfl, rfl, rfl, rfl, rfl⟩
  · subst h; exact ⟨rfl, rfl, rfl, rfl, rfl⟩
  · subst h; exact ⟨rfl, rfl, rfl, rfl, rfl⟩

/-! ## The frame tick (C25) -/

/-- Function `updateTimers` in closed form: both timers go down by one, stopping
at zero, and the audio device is called according to the sound timer. -/
theorem updateTimers_eq (vm : VM) (hd : vm.registers.delay_timer < 256)
    (hs : vm.registers.sound_timer < 256) :
    vm.updateTimers =
      { vm with
        registers := { vm.registers with
          delay_timer := vm.registers.delay_timer - 1
          sound_timer := vm.registers.sound_timer - 1 }
        audioDevice :=
          if vm.registers.sound_timer = 0 then vm.audioDevice
          else if vm.registers.sound_timer = 1 then AudioRequest.stopSound :: vm.audioDevice
          else AudioRequest.playSound :: vm.audioDevice } := by
  obtain ⟨ram, r, d, a, k, run, pl, c, tc⟩ := vm
  obtain ⟨V, RPL, I, dt, st, pc, sp, stack⟩ := r
  simp only at hd hs
  unfold VM.updateTimers
  have e1 : ∀ t, t > 0 → t < 256 → sub8 t 1 = t - 1 := fun t h1 h2 => sub8_of_le h1 h2
  rcases Nat.eq_zero_or_pos dt with h1 | h1
  · subst h1
    rcases Nat.eq_zero_or_pos st with h2 | h2
    · subst h2
      rfl
    · by_cases h3 : st = 1
      · subst h3
        rfl
      · have h4 : st - 1 ≠ 0 := by omega
        simp [e1 st h2 hs, h2, h3, h4, Nat.pos_iff_ne_zero.mp h2]
  · rcases Nat.eq_zero_or_pos st with h2 | h2
    · subst h2
      simp [e1 dt h1 hd, h1]
    · by_cases h3 : st = 1
      · subst h3
        simp [e1 dt h1 hd, e1 1 (by decide) (by decide), h1]
      · have h4 : st - 1 ≠ 0 := by omega
        simp [e1 st h2 hs, e1 dt h1 hd, h1, h2, h3, h4, Nat.pos_iff_ne_zero.mp h2]

/-- Function `processInput` writes the key snapshot only. -/
theorem processInput_eq (vm : VM) (isKeyDown : Nat → Bool) :
    (vm.processInput isKeyDown).registers = vm.registers ∧
    (vm.processInput isKeyDown).ram = vm.ram ∧
    (vm.processInput isKeyDown).audioDevice = vm.audioDevice ∧
    (vm.processInput isKeyDown).cycle = vm.cycle ∧
    (vm.processInput isKeyDown).display = vm.display ∧
    (vm.processInput isKeyDown).running = vm.running ∧
    (vm.processInput isKeyDown).program_loaded = vm.program_loaded ∧
    (vm.processInput isKeyDown).target_cycles = vm.target_cycles :=
  ⟨rfl, rfl, rfl, rfl, rfl, rfl, rfl, rfl⟩

/-- One frame tick on the registers, the memory, the cycle counter and the
audio device. -/
theorem handleVBlankInterrupt_eq (vm : VM) (isKeyDown : Nat → Bool)
    (hd : vm.registers.delay_timer < 256) (hs : vm.registers.sound_timer < 256) :
    (vm.handleVBlankInterrupt isKeyDown).registers =
      { vm.registers with
        delay_timer := vm.registers.delay_timer - 1
        sound_timer := vm.registers.sound_timer - 1 } ∧
    (vm.handleVBlankInterrupt isKeyDown).audioDevice =
      (if vm.registers.sound_timer = 0 then vm.audioDevice
       else if vm.registers.sound_timer = 1 then AudioRequest.stopSound :: vm.audioDevice
       else AudioRequest.playSound :: vm.audioDevice) ∧
    (vm.handleVBlankInterrupt isKeyDown).ram = vm.ram ∧
    (vm.handleVBlankInterrupt isKeyDown).cycle = 0 ∧
    (vm.handleVBlankInterrupt isKeyDown).running = vm.running ∧
    (vm.handleVBlankInterrupt isKeyDown).program_loaded = vm.program_loaded ∧
    (vm.handleVBlankInterrupt isKeyDown).target_cycles = vm.target_cycles ∧
    (vm.handleVBlankInterrupt isKeyDown).display = vm.display := by
  have h := updateTimers_eq { vm with cycle := 0 } hd hs
  unfold VM.handleVBlankInterrupt
  refine ⟨?_, ?_, ?_, ?_, ?_, ?_, ?_, ?_⟩
  · show (VM.updateTimers _).registers = _
    rw [h]
  · show (VM.updateTimers _).audioDevice = _
    rw [h]
  · show (VM.updateTimers _).ram = _
    rw [h]
  · show (VM.updateTimers _).cycle = _
    rw [h]
  · show (VM.updateTimers _).running = _
    rw [h]
  · show (VM.updateTimers _).program_loaded = _
    rw [h]
  · show (VM.updateTimers _).target_cycles = _
    rw [h]
  · show (VM.updateTimers _).display = _
    rw [h]

/-- After `k` frame ticks both timers are `k` lower, stopping at zero, and
everything else in the registers and the memory is as before. -/
theorem ticks_eq (keys : List (Nat → Bool)) :
    ∀ (vm : VM), vm.registers.delay_timer < 256 → vm.registers.sound_timer < 256 →
      (VM.ticks keys vm).registers =
        { vm.registers with
          delay_timer := vm.registers.delay_timer - keys.length
          sound_timer := vm.registers.sound_timer - keys.length } ∧
      (VM.ticks keys vm).ram = vm.ram := by
  induction keys with
  | nil => intro vm _ _; exact ⟨rfl, rfl⟩
  | cons k rest ih =>
    intro vm hd hs
    have h := handleVBlankInterrupt_eq vm k hd hs
    have hd1 : (vm.handleVBlankInterrupt k).registers.delay_timer < 256 := by
      rw [h.1]
      exact Nat.lt_of_le_of_lt (Nat.sub_le _ _) hd
    have hs1 : (vm.handleVBlankInterrupt k).registers.sound_timer < 256 := by
      rw [h.1]
      exact Nat.lt_of_le_of_lt (Nat.sub_le _ _) hs
    have h2 := ih (vm.handleVBlankInterrupt k) hd1 hs1
    have hr := h2.1
    have hm := h2.2
    rw [h.1] at hr
    rw [h.2.2.1] at hm
    show (VM.ticks rest (vm.handleVBlankInterrupt k)).registers = _ ∧
      (VM.ticks rest (vm.handleVBlankInterrupt k)).ram = _
    rw [hr, hm]
    refine ⟨?_, rfl⟩
    simp only [List.length_cons, Registers.mk.injEq, true_and]
    exact ⟨by omega, by omega, trivial⟩

/-- C25: one frame tick (`handleVBlankInterrupt`) resets the cycle counter to 0
and ages both timers with saturation at zero: a timer holding `t > 0` becomes
`t - 1` and a timer holding 0 stays 0, so after `k` ticks a timer that held `t`
holds `t - k` when `k ≤ t` and 0 otherwise. The audio device is asked to stop
exactly on the tick that takes the sound timer from 1 to 0 and to play exactly
when the sound timer was at least 2, and the tick changes no general register,
nor `I`, `pc`, the stack or a memory cell. -/
theorem frame_tick_spec (vm : VM) (isKeyDown : Nat → Bool) (keys : List (Nat → Bool))
    (hd : vm.registers.delay_timer < 256) (hs : vm.registers.sound_timer < 256) :
    (vm.handleVBlankInterrupt isKeyDown).cycle = 0 ∧
    (vm.handleVBlankInterrupt isKeyDown).registers.delay_timer =
      (if vm.registers.delay_timer > 0 then vm.registers.delay_timer - 1 else 0) ∧
    (vm.handleVBlankInterrupt isKeyDown).registers.sound_timer =
      (if vm.registers.sound_timer > 0 then vm.registers.sound_timer - 1 else 0) ∧
    (VM.ticks keys vm).registers.delay_timer =
      (if keys.length ≤ vm.registers.delay_timer then vm.registers.delay_timer - keys.length
       else 0) ∧
    (VM.ticks keys vm).registers.sound_timer =
      (if keys.length ≤ vm.registers.sound_timer then vm.registers.sound_timer - keys.length
       else 0) ∧
    ((vm.handleVBlankInterrupt isKeyDown).audioDevice =
        AudioRequest.stopSound :: vm.audioDevice ↔ vm.registers.sound_timer = 1) ∧
    ((vm.handleVBlankInterrupt isKeyDown).audioDevice =
        AudioRequest.playSound :: vm.audioDevice ↔ 2 ≤ vm.registers.sound_timer) ∧
    (vm.registers.sound_timer = 0 →
      (vm.handleVBlankInterrupt isKeyDown).audioDevice = vm.audioDevice) ∧
    (vm.handleVBlankInterrupt isKeyDown).registers.V = vm.registers.V ∧
    (vm.handleVBlankInterrupt isKeyDown).registers.I = vm.registers.I ∧
    (vm.handleVBlankInterrupt isKeyDown).registers.pc = vm.registers.pc ∧
    (vm.handleVBlankInterrupt isKeyDown).registers.sp = vm.registers.sp ∧
    (vm.handleVBlankInterrupt isKeyDown).registers.stack = vm.registers.stack ∧
    (vm.handleVBlankInterrupt isKeyDown).ram = vm.ram := by
  have h := handleVBlankInterrupt_eq vm isKeyDown hd hs
  have ht := ticks_eq keys vm hd hs
  rw [h.1, h.2.1, h.2.2.1, h.2.2.2.1, ht.1]
  refine ⟨rfl, ?_, ?_, ?_, ?_, ?_, ?_, ?_, rfl, rfl, rfl, rfl, rfl, rfl⟩
  · show vm.registers.delay_timer - 1 = _
    split_ifs <;> omega
  · show vm.registers.sound_timer - 1 = _
    split_ifs <;> omega
  · show vm.registers.delay_timer - keys.length = _
    split_ifs <;> omega
  · show vm.registers.sound_timer - keys.length = _
    split_ifs <;> omega
  · by_cases h0 : vm.registers.sound_timer = 0
    · rw [if_pos h0]
      exact ⟨fun e => absurd e.symm (List.cons_ne_self _ _), fun e => by omega⟩
    · rw [if_neg h0]
      by_cases h1 : vm.registers.sound_timer = 1
      · rw [if_pos h1]
        exact ⟨fun _ => h1, fun _ => rfl⟩
      · rw [if_neg h1]
        refine ⟨fun e => ?_, fun e => absurd e h1⟩
        have e2 := (List.cons.inj e).1
        exact AudioRequest.noConfusion e2
  · by_cases h0 : vm.registers.sound_timer = 0
    · rw [if_pos h0]
      exact ⟨fun e => absurd e.symm (List.cons_ne_self _ _), fun e => by omega⟩
    · rw [if_neg h0]
      by_cases h1 : vm.registers.sound_timer = 1
      · rw [if_pos h1]
        refine ⟨fun e => ?_, fun e => by omega⟩
        have e2 := (List.cons.inj e).1
        exact AudioRequest.noConfusion e2
      · rw [if_neg h1]
        exact ⟨fun _ => by omega, fun _ => rfl⟩
  · intro h0
    rw [if_pos h0]

/-- Witness of C25: a tick on the machine with the delay timer at 3 and the
sound timer at 1 asks the audio device to stop. -/
theorem frame_tick_spec_witness :
    ({ VM.initial 10 with
        registers := { Registers.initial with delay_timer := 3, sound_timer := 1 } }
      : VM).registers.delay_timer < 256 ∧
    ({ VM.initial 10 with
        registers := { Registers.initial with delay_timer := 3, sound_timer := 1 } }
      : VM).registers.sound_timer < 256 ∧
    ((({ VM.initial 10 with
        registers := { Registers.initial with delay_timer := 3, sound_timer := 1 } }
      : VM).handleVBlankInterrupt (fun _ => false)).audioDevice =
        AudioRequest.stopSound :: ({ VM.initial 10 with
          registers := { Registers.initial with delay_timer := 3, sound_timer := 1 } }
        : VM).audioDevice ↔
      ({ VM.initial 10 with
        registers := { Registers.initial with delay_timer := 3, sound_timer := 1 } }
      : VM).registers.sound_timer = 1) :=
  ⟨by decide, by decide,
   (frame_tick_spec
      { VM.initial 10 with
        registers := { Registers.initial with delay_timer := 3, sound_timer := 1 } }
      (fun _ => false) [fun _ => false, fun _ => false] (by decide) (by decide)).2.2.2.2.2.1⟩

/-! ## The size test of `DXYN` (C27, C28) -/

/-- Function `isSizeReadable` in closed form, for a 16-bit address and a size
below `2 ^ 63`: the test is `address + size < 4096`. -/
theorem isSizeReadable_iff (ram : RAM) (address size : Nat) (ha : address < 65536)
    (hs : size < 2 ^ 63) :
    ram.isSizeReadable address size = true ↔ address + size < 4096 := by
  unfold RAM.isSizeReadable
  rw [decide_eq_true_iff, Nat.mod_eq_of_lt (by omega)]

/-- The bytes `address`, ..., `address + size - 1` can all be read exactly when
`address + size ≤ 4096`. -/
theorem readByte_all_iff (ram : RAM) (address size : Nat) (hs : 1 ≤ size) :
    (∀ i, i < size → (ram.readByte (address + i) none).2 = none) ↔ address + size ≤ 4096 := by
  constructor
  · intro h
    have h1 := h (size - 1) (by omega)
    unfold RAM.readByte at h1
    by_cases c : address + (size - 1) ≥ RAM_SIZE
    · rw [if_pos c] at h1
      exact Option.noConfusion h1
    · have c2 : address + (size - 1) < 4096 := Nat.not_le.mp c
      omega
  · intro h i hi
    unfold RAM.readByte
    rw [if_neg (by show ¬ address + i ≥ 4096; omega)]

/-- C28, the divergence: the byte at 4095 is readable, and `isSizeReadable(4095, 1)`
answers `false`; and so for every range that ends with the last byte of the
memory, such as the 96 bytes from 4000. -/
theorem isSizeReadable_last_byte (ram : RAM) :
    ram.readByte 4095 none = (ram.memory 4095, none) ∧
    ram.isSizeReadable 4095 1 = false ∧
    (∀ i, i < 96 → (ram.readByte (4000 + i) none).2 = none) ∧
    ram.isSizeReadable 4000 96 = false := by
  refine ⟨rfl, rfl, ?_, rfl⟩
  exact (readByte_all_iff ram 4000 96 (by decide)).mpr (by decide)

/-- C27, the divergence: with `I = 4000` the 15 bytes of the sprite of `D01F`
and the 32 bytes of the sprite of `D010` are inside the memory, and both
instructions report `OUT_OF_RANGE` and draw nothing. -/
theorem draw_refuses_readable_sprite (env : Env) (vm : VM) :
    (vm.setI 4000).registers.I + 15 ≤ 4096 ∧
    VM.executeOpcode env (vm.setI 4000) (Opcode.decode 0xD01F) none =
      some (vm.setI 4000, some Error.OUT_OF_RANGE) ∧
    (vm.setI 4000).registers.I + 32 ≤ 4096 ∧
    VM.executeOpcode env (vm.setI 4000) (Opcode.decode 0xD010) none =
      some (vm.setI 4000, some Error.OUT_OF_RANGE) := by
  have d1 := decode_DXYN 0 1 15 (by decide) (by decide) (by decide)
  have d2 := decode_DXYN 0 1 0 (by decide) (by decide) (by decide)
  have hI : (vm.setI 4000).registers.I = 4000 := rfl
  refine ⟨by rw [hI]; decide, ?_, by rw [hI]; decide, ?_⟩
  · rw [executeOpcode_categoryD _ _ _ _ d1.1]
    rw [executeCategoryD_size_fails _ _ (by rw [hI]; decide)
      (by rw [hI, d1.2.2.2]; decide) (by rw [d1.2.2.2]; decide)]
  · rw [executeOpcode_categoryD _ _ _ _ d2.1]
    rw [executeCategoryD_size_fails _ _ (by rw [hI]; decide)
      (by rw [hI, d2.2.2.2]; decide) (by rw [d2.2.2.2]; decide)]

/-! ## Unknown instruction words (C24, C29) -/

theorem decode_category_lt (w : Nat) : (Opcode.decode w).category < 16 := by
  rw [decode_category]
  unfold u8
  omega

/-- In category 0 an unhandled selector is reported and nothing is done. -/
theorem executeCategory0_unhandled (vm : VM) (opcode : Opcode) (ec : ErrorCode)
    (hc : opcode.category = 0x0) (h : VM.handled opcode = false) :
    vm.executeCategory0 opcode ec = (vm, some Error.UNKNOWN_OPCODE) := by
  unfold VM.handled at h
  rw [if_pos hc] at h
  simp only [Bool.or_eq_false_iff, Bool.and_eq_false_imp, decide_eq_false_iff_not,
    decide_eq_true_eq] at h
  obtain ⟨⟨h1, h2⟩, h3⟩ := h
  unfold VM.executeCategory0
  rw [if_neg h1]
  by_cases hE : opcode.Y = 0xE
  · have := h2 hE
    rw [if_pos hE, if_neg this.1, if_neg this.2]
  · rw [if_neg hE]
    by_cases hF : opcode.Y = 0xF
    · have := h3 hF
      rw [if_pos hF, if_neg this.1.1.1.1, if_neg this.1.1.1.2, if_neg this.1.1.2,
        if_neg this.1.2, if_neg this.2]
    · rw [if_neg hF]

/-- In category 8 an unhandled selector is reported and nothing is done. -/
theorem executeCategory8_unhandled (vm : VM) (opcode : Opcode) (ec : ErrorCode)
    (hc : opcode.category = 0x8) (h : VM.handled opcode = false) :
    vm.executeCategory8 opcode ec = (vm, some Error.UNKNOWN_OPCODE) := by
  unfold VM.handled at h
  rw [if_neg (by rw [hc]; decide), if_pos hc] at h
  simp only [Bool.or_eq_false_iff, decide_eq_false_iff_not] at h
  obtain ⟨h1, h2⟩ := h
  unfold VM.executeCategory8
  dsimp only
  iterate 8 rw [if_neg (by omega)]
  rw [if_neg h2]

/-- In category E an unhandled selector is reported and nothing is done. -/
theorem executeCategoryE_unhandled (vm : VM) (opcode : Opcode) (ec : ErrorCode)
    (hc : opcode.category = 0xE) (h : VM.handled opcode = false) :
    vm.executeCategoryE opcode ec = (vm, some Error.UNKNOWN_OPCODE) := by
  unfold VM.handled at h
  rw [if_neg (by rw [hc]; decide), if_neg (by rw [hc]; decide), if_pos hc] at h
  simp only [Bool.or_eq_false_iff, decide_eq_false_iff_not] at h
  unfold VM.executeCategoryE
  rw [if_neg h.1, if_neg h.2]

/-- In category F an unhandled selector is reported and nothing is done. -/
theorem executeCategoryF_unhandled (env : Env) (vm : VM) (opcode : Opcode) (ec : ErrorCode)
    (hc : opcode.category = 0xF) (h : VM.handled opcode = false) :
    VM.executeCategoryF env vm opcode ec = some (vm, some Error.UNKNOWN_OPCODE) := by
  unfold VM.handled at h
  rw [if_neg (by rw [hc]; decide), if_neg (by rw [hc]; decide), if_neg (by rw [hc]; decide),
    if_pos hc] at h
  simp only [decide_eq_false_iff_not, List.mem_cons, List.mem_singleton, not_or,
    List.not_mem_nil, or_false] at h
  obtain ⟨h1, h2, h3, h4, h5, h6, h7, h8, h9, h10, h11, h12⟩ := h
  unfold VM.executeCategoryF
  dsimp only
  rw [if_neg h1, if_neg h2, if_neg h3, if_neg h4, if_neg h5, if_neg h6, if_neg h7, if_neg h8,
    if_neg h9, if_neg h10, if_neg h11, if_neg h12]

/-- A word the dispatcher has no case for is reported as `UNKNOWN_OPCODE` and
the machine is left as it was; such a word has category 0, 8, E or F. -/
theorem executeOpcode_unhandled (env : Env) (vm : VM) (opcode : Opcode) (ec : ErrorCode)
    (hlt : opcode.category < 16) (h : VM.handled opcode = false) :
    (opcode.category = 0x0 ∨ opcode.category = 0x8 ∨ opcode.category = 0xE ∨
      opcode.category = 0xF) ∧
    VM.executeOpcode env vm opcode ec = some (vm, some Error.UNKNOWN_OPCODE) := by
  by_cases h0 : opcode.category = 0x0
  · refine ⟨Or.inl h0, ?_⟩
    rw [VM.executeOpcode, if_pos h0, executeCategory0_unhandled vm opcode ec h0 h]
  by_cases h8 : opcode.category = 0x8
  · refine ⟨Or.inr (Or.inl h8), ?_⟩
    rw [executeOpcode_category8 _ _ _ _ h8, executeCategory8_unhandled vm opcode ec h8 h]
  by_cases hE : opcode.category = 0xE
  · refine ⟨Or.inr (Or.inr (Or.inl hE)), ?_⟩
    rw [VM.executeOpcode, hE, executeCategoryE_unhandled vm opcode ec hE h]
    rfl
  by_cases hF : opcode.category = 0xF
  · refine ⟨Or.inr (Or.inr (Or.inr hF)), ?_⟩
    rw [VM.executeOpcode, hF]
    exact executeCategoryF_unhandled env vm opcode ec hF h
  · exfalso
    unfold VM.handled at h
    rw [if_neg h0, if_neg h8, if_neg hE, if_neg hF] at h
    exact absurd h (by rw [decide_eq_true hlt]; decide)

/-! ### No handled word reports `UNKNOWN_OPCODE` -/

theorem writeByte_known (ram : RAM) (a v : Nat) (ec : ErrorCode)
    (h : ec ≠ some Error.UNKNOWN_OPCODE) :
    (ram.writeByte a v ec).2 ≠ some Error.UNKNOWN_OPCODE := by
  unfold RAM.writeByte
  split_ifs
  · exact fun e => Error.noConfusion (Option.some.inj e)
  · exact h

theorem readByte_known (ram : RAM) (a : Nat) (ec : ErrorCode)
    (h : ec ≠ some Error.UNKNOWN_OPCODE) :
    (ram.readByte a ec).2 ≠ some Error.UNKNOWN_OPCODE := by
  unfold RAM.readByte
  split_ifs
  · exact fun e => Error.noConfusion (Option.some.inj e)
  · exact h

theorem executeCategory0_known (vm : VM) (opcode : Opcode) (ec : ErrorCode)
    (hc : opcode.category = 0x0) (h : VM.handled opcode = true)
    (hec : ec ≠ some Error.UNKNOWN_OPCODE) :
    (vm.executeCategory0 opcode ec).2 ≠ some Error.UNKNOWN_OPCODE := by
  unfold VM.handled at h
  rw [if_pos hc] at h
  simp only [Bool.or_eq_true, Bool.and_eq_true, decide_eq_true_eq] at h
  unfold VM.executeCategory0 Registers.popFromStack
  split_ifs <;> first
    | exact hec
    | exact fun e => Error.noConfusion (Option.some.inj e)
    | (exfalso; omega)

theorem executeCategory2_known (vm : VM) (opcode : Opcode) (ec : ErrorCode)
    (hec : ec ≠ some Error.UNKNOWN_OPCODE) :
    (vm.executeCategory2 opcode ec).2 ≠ some Error.UNKNOWN_OPCODE := by
  unfold VM.executeCategory2 Registers.pushToStack
  dsimp only
  split_ifs
  · exact fun e => Error.noConfusion (Option.some.inj e)
  · exact hec

/-- Case analysis on a conditional. -/
theorem ite_ind {α : Type} (Q : α → Prop) (c : Prop) [Decidable c] (a b : α)
    (ha : c → Q a) (hb : ¬ c → Q b) : Q (if c then a else b) := by
  split_ifs with h
  · exact ha h
  · exact hb h

theorem executeCategory8_known (vm : VM) (opcode : Opcode) (ec : ErrorCode)
    (hc : opcode.category = 0x8) (h : VM.handled opcode = true)
    (hec : ec ≠ some Error.UNKNOWN_OPCODE) :
    (vm.executeCategory8 opcode ec).2 ≠ some Error.UNKNOWN_OPCODE := by
  unfold VM.handled at h
  rw [if_neg (by rw [hc]; decide), if_pos hc] at h
  simp only [Bool.or_eq_true, decide_eq_true_eq] at h
  unfold VM.executeCategory8
  dsimp only
  iterate 9 refine ite_ind (fun r : VM × ErrorCode => r.2 ≠ some Error.UNKNOWN_OPCODE) _ _ _ (fun _ => hec) (fun _ => ?_)
  exfalso
  omega

theorem executeCategoryD_known (vm : VM) (opcode : Opcode) (ec : ErrorCode)
    (hec : ec ≠ some Error.UNKNOWN_OPCODE) :
    (vm.executeCategoryD opcode ec).2 ≠ some Error.UNKNOWN_OPCODE := by
  unfold VM.executeCategoryD RAM.getBytePointer
  dsimp only
  split_ifs <;> first
    | exact hec
    | exact fun e => Error.noConfusion (Option.some.inj e)

theorem executeCategoryE_known (vm : VM) (opcode : Opcode) (ec : ErrorCode)
    (hc : opcode.category = 0xE) (h : VM.handled opcode = true)
    (hec : ec ≠ some Error.UNKNOWN_OPCODE) :
    (vm.executeCategoryE opcode ec).2 ≠ some Error.UNKNOWN_OPCODE := by
  unfold VM.handled at h
  rw [if_neg (by rw [hc]; decide), if_neg (by rw [hc]; decide), if_pos hc] at h
  simp only [Bool.or_eq_true, decide_eq_true_eq] at h
  unfold VM.executeCategoryE
  split_ifs <;> first
    | exact hec
    | (exfalso; omega)

theorem storeBCD_known (vm : VM) (opcode : Opcode) (ec : ErrorCode)
    (hec : ec ≠ some Error.UNKNOWN_OPCODE) :
    (vm.storeBCD opcode ec).2 ≠ some Error.UNKNOWN_OPCODE :=
  writeByte_known _ _ _ _ (writeByte_known _ _ _ _ (writeByte_known _ _ _ _ hec))

theorem storeRegisters_known (vm : VM) (opcode : Opcode) (ec : ErrorCode)
    (hec : ec ≠ some Error.UNKNOWN_OPCODE) :
    (vm.storeRegisters opcode ec).2 ≠ some Error.UNKNOWN_OPCODE := by
  unfold VM.storeRegisters
  dsimp only
  exact forLoop_induct (fun _ (st : RAM × ErrorCode) => st.2 ≠ some Error.UNKNOWN_OPCODE)
    0 (opcode.X + 1) _ (vm.ram, ec) (Nat.zero_le _) hec
    (fun i st _ _ hP => writeByte_known _ _ _ _ hP)

theorem loadRegisters_known (vm : VM) (opcode : Opcode) (ec : ErrorCode)
    (hec : ec ≠ some Error.UNKNOWN_OPCODE) :
    (vm.loadRegisters opcode ec).2 ≠ some Error.UNKNOWN_OPCODE := by
  unfold VM.loadRegisters
  dsimp only
  exact forLoop_induct
    (fun _ (st : (Nat → Nat) × ErrorCode) => st.2 ≠ some Error.UNKNOWN_OPCODE)
    0 (opcode.X + 1) _ (vm.registers.V, ec) (Nat.zero_le _) hec
    (fun i st _ _ hP => readByte_known _ _ _ hP)

theorem executeCategoryF_known (env : Env) (vm : VM) (opcode : Opcode) (ec : ErrorCode)
    (hc : opcode.category = 0xF) (h : VM.handled opcode = true)
    (hec : ec ≠ some Error.UNKNOWN_OPCODE) :
    ∀ res, VM.executeCategoryF env vm opcode ec = some res →
      res.2 ≠ some Error.UNKNOWN_OPCODE := by
  unfold VM.handled at h
  rw [if_neg (by rw [hc]; decide), if_neg (by rw [hc]; decide), if_neg (by rw [hc]; decide),
    if_pos hc] at h
  simp only [decide_eq_true_eq, List.mem_cons, List.mem_singleton, List.not_mem_nil,
    or_false] at h
  unfold VM.executeCategoryF
  dsimp only
  refine ite_some_ind _ _ _ _ (fun _ r e => ?_) (fun n1 => ?_)
  · cases e; exact hec
  refine ite_some_ind _ _ _ _ (fun _ r e => ?_) (fun n2 => ?_)
  · rcases hw : VM.waitKey opcode.X env.events vm with _ | w
    · rw [hw] at e; exact Option.noConfusion e
    · rw [hw] at e; cases e; exact hec
  refine ite_some_ind _ _ _ _ (fun _ r e => ?_) (fun n3 => ?_)
  · cases e; exact hec
  refine ite_some_ind _ _ _ _ (fun _ r e => ?_) (fun n4 => ?_)
  · cases e; exact hec
  refine ite_some_ind _ _ _ _ (fun _ r e => ?_) (fun n5 => ?_)
  · cases e; exact hec
  refine ite_some_ind _ _ _ _ (fun _ r e => ?_) (fun n6 => ?_)
  · cases e; exact hec
  refine ite_some_ind _ _ _ _ (fun _ r e => ?_) (fun n7 => ?_)
  · cases e; exact hec
  refine ite_some_ind _ _ _ _ (fun _ r e => ?_) (fun n8 => ?_)
  · cases e; exact storeBCD_known vm opcode ec hec
  refine ite_some_ind _ _ _ _ (fun _ r e => ?_) (fun n9 => ?_)
  · cases e; exact storeRegisters_known vm opcode ec hec
  refine ite_some_ind _ _ _ _ (fun _ r e => ?_) (fun n10 => ?_)
  · cases e; exact loadRegisters_known vm opcode ec hec
  refine ite_some_ind _ _ _ _ (fun _ r e => ?_) (fun n11 => ?_)
  · cases e; exact hec
  refine ite_some_ind _ _ _ _ (fun _ r e => ?_) (fun n12 => ?_)
  · cases e; exact hec
  · exfalso
    omega

/-- A word the dispatcher has a case for never reports `UNKNOWN_OPCODE`. -/
theorem executeOpcode_known (env : Env) (vm : VM) (opcode : Opcode) (ec : ErrorCode)
    (h : VM.handled opcode = true) (hec : ec ≠ some Error.UNKNOWN_OPCODE) :
    ∀ res, VM.executeOpcode env vm opcode ec = some res →
      res.2 ≠ some Error.UNKNOWN_OPCODE := by
  unfold VM.executeOpcode
  refine ite_some_ind _ _ _ _ (fun c r e => ?_) (fun n0 => ?_)
  · cases e; exact executeCategory0_known vm opcode ec c h hec
  refine ite_some_ind _ _ _ _ (fun c r e => ?_) (fun n1 => ?_)
  · cases e; exact hec
  refine ite_some_ind _ _ _ _ (fun c r e => ?_) (fun n2 => ?_)
  · cases e; exact executeCategory2_known vm opcode ec hec
  refine ite_some_ind _ _ _ _ (fun c r e => ?_) (fun n3 => ?_)
  · cases e; unfold VM.executeCategory3; split_ifs <;> exact hec
  refine ite_some_ind _ _ _ _ (fun c r e => ?_) (fun n4 => ?_)
  · cases e; unfold VM.executeCategory4; split_ifs <;> exact hec
  refine ite_some_ind _ _ _ _ (fun c r e => ?_) (fun n5 => ?_)
  · cases e; unfold VM.executeCategory5; split_ifs <;> exact hec
  refine ite_some_ind _ _ _ _ (fun c r e => ?_) (fun n6 => ?_)
  · cases e; exact hec
  refine ite_some_ind _ _ _ _ (fun c r e => ?_) (fun n7 => ?_)
  · cases e; exact hec
  refine ite_some_ind _ _ _ _ (fun c r e => ?_) (fun n8 => ?_)
  · cases e; exact executeCategory8_known vm opcode ec c h hec
  refine ite_some_ind _ _ _ _ (fun c r e => ?_) (fun n9 => ?_)
  · cases e; unfold VM.executeCategory9; split_ifs <;> exact hec
  refine ite_some_ind _ _ _ _ (fun c r e => ?_) (fun nA => ?_)
  · cases e; exact hec
  refine ite_some_ind _ _ _ _ (fun c r e => ?_) (fun nB => ?_)
  · cases e; exact hec
  refine ite_some_ind _ _ _ _ (fun c r e => ?_) (fun nC => ?_)
  · cases e; exact hec
  refine ite_some_ind _ _ _ _ (fun c r e => ?_) (fun nD => ?_)
  · cases e; exact executeCategoryD_known vm opcode ec hec
  refine ite_some_ind _ _ _ _ (fun c r e => ?_) (fun nE => ?_)
  · cases e; exact executeCategoryE_known vm opcode ec c h hec
  refine ite_some_ind _ _ _ _ (fun c r e => ?_) (fun nF => ?_)
  · exact executeCategoryF_known env vm opcode ec c h hec r e
  · exfalso
    unfold VM.handled at h
    rw [if_neg n0, if_neg n8, if_neg nE, if_neg nF, decide_eq_true_eq] at h
    omega

/-- C24: for every instruction word whose secondary selector (`Y`/`N` in
category 0, `N` in category 8, `NN` in categories E and F) is not one the
dispatcher has a case for, `executeOpcode` reports `UNKNOWN_OPCODE` and leaves
the whole machine, registers, memory and display, exactly as it was; such a
word has category 0, 8, E or F; and no word the dispatcher has a case for
reports `UNKNOWN_OPCODE`. -/
theorem unknown_selector_reported (env : Env) (vm : VM) (w : Nat) :
    (VM.handled (Opcode.decode w) = false →
      ((Opcode.decode w).category = 0x0 ∨ (Opcode.decode w).category = 0x8 ∨
        (Opcode.decode w).category = 0xE ∨ (Opcode.decode w).category = 0xF) ∧
      VM.executeOpcode env vm (Opcode.decode w) none =
        some (vm, some Error.UNKNOWN_OPCODE)) ∧
    (VM.handled (Opcode.decode w) = true →
      ∀ res, VM.executeOpcode env vm (Opcode.decode w) none = some res →
        res.2 ≠ some Error.UNKNOWN_OPCODE) :=
  ⟨fun h => executeOpcode_unhandled env vm _ none (decode_category_lt w) h,
   fun h => executeOpcode_known env vm _ none h (fun e => Option.noConfusion e)⟩

/-- Witness of C24: the selectors of `00E1`, `8008`, `E09F` and `F000` have no
case, those of `00E0`, `8004`, `E09E` and `F033` have one, and `8008` is
reported on the machine as constructed. -/
theorem unknown_selector_reported_witness :
    VM.handled (Opcode.decode 0x00E1) = false ∧ VM.handled (Opcode.decode 0x8008) = false ∧
    VM.handled (Opcode.decode 0xE09F) = false ∧ VM.handled (Opcode.decode 0xF000) = false ∧
    VM.handled (Opcode.decode 0x00E0) = true ∧ VM.handled (Opcode.decode 0x8004) = true ∧
    VM.handled (Opcode.decode 0xE09E) = true ∧ VM.handled (Opcode.decode 0xF033) = true ∧
    VM.executeOpcode (Env.mk 0 [] 5 10 80) (VM.initial 10) (Opcode.decode 0x8008) none =
      some (VM.initial 10, some Error.UNKNOWN_OPCODE) :=
  ⟨by decide, by decide, by decide, by decide, by decide, by decide, by decide, by decide,
   ((unknown_selector_reported (Env.mk 0 [] 5 10 80) (VM.initial 10) 0x8008).1
      (by decide)).2⟩

/-! ### The nibbles the dispatcher does not look at (C29) -/

theorem executeOpcode_category0 (env : Env) (vm : VM) (opcode : Opcode) (ec : ErrorCode)
    (h : opcode.category = 0x0) :
    VM.executeOpcode env vm opcode ec = some (vm.executeCategory0 opcode ec) := by
  rw [VM.executeOpcode, h]
  rfl

theorem executeOpcode_category5 (env : Env) (vm : VM) (opcode : Opcode) (ec : ErrorCode)
    (h : opcode.category = 0x5) :
    VM.executeOpcode env vm opcode ec = some (vm.executeCategory5 opcode ec) := by
  rw [VM.executeOpcode, h]
  rfl

theorem executeOpcode_category9 (env : Env) (vm : VM) (opcode : Opcode) (ec : ErrorCode)
    (h : opcode.category = 0x9) :
    VM.executeOpcode env vm opcode ec = some (vm.executeCategory9 opcode ec) := by
  rw [VM.executeOpcode, h]
  rfl

/-- The handler of category 0 looks at `Y` and `N` only. -/
theorem executeCategory0_congr (vm : VM) (a b : Opcode) (ec : ErrorCode)
    (hY : a.Y = b.Y) (hN : a.N = b.N) :
    vm.executeCategory0 a ec = vm.executeCategory0 b ec := by
  unfold VM.executeCategory0
  rw [hY, hN]

/-- The handler of category 5 looks at `X` and `Y` only. -/
theorem executeCategory5_congr (vm : VM) (a b : Opcode) (ec : ErrorCode)
    (hX : a.X = b.X) (hY : a.Y = b.Y) :
    vm.executeCategory5 a ec = vm.executeCategory5 b ec := by
  unfold VM.executeCategory5
  rw [hX, hY]

/-- The handler of category 9 looks at `X` and `Y` only. -/
theorem executeCategory9_congr (vm : VM) (a b : Opcode) (ec : ErrorCode)
    (hX : a.X = b.X) (hY : a.Y = b.Y) :
    vm.executeCategory9 a ec = vm.executeCategory9 b ec := by
  unfold VM.executeCategory9
  rw [hX, hY]

/-- Whether a word is handled depends on its category, `Y`, `N` and `NN`. -/
theorem handled_congr (a b : Opcode) (hc : a.category = b.category) (hY : a.Y = b.Y)
    (hN : a.N = b.N) (hNN : a.NN = b.NN) : VM.handled a = VM.handled b := by
  unfold VM.handled
  rw [hc, hY, hN, hNN]

theorem documented_iff (opcode : Opcode) :
    VM.documented opcode = true ↔
      VM.handled opcode = true ∧ (opcode.category = 0x0 → opcode.X = 0) ∧
      (opcode.category = 0x5 ∨ opcode.category = 0x9 → opcode.N = 0) := by
  unfold VM.documented
  rw [Bool.and_eq_true, Bool.and_eq_true]
  constructor
  · rintro ⟨⟨h1, h2⟩, h3⟩
    refine ⟨h1, fun c => ?_, fun c => ?_⟩
    · rw [if_pos c] at h2
      exact of_decide_eq_true h2
    · rw [if_pos c] at h3
      exact of_decide_eq_true h3
  · rintro ⟨h1, h2, h3⟩
    refine ⟨⟨h1, ?_⟩, ?_⟩
    · split_ifs with c
      · exact decide_eq_true (h2 c)
      · rfl
    · split_ifs with c
      · exact decide_eq_true (h3 c)
      · rfl

/-- C29, counterexample to the claim as stated: `5011`, `9011` and `01FD` are
none of the documented patterns, and each is executed without an error: `5011`
skips as `5010` does (`V0 = V1`), `9011` skips as `9010` does (`V0 ≠ V1`), and
`01FD` stops the machine as `00FD` does. -/
theorem undocumented_words_executed :
    VM.documented (Opcode.decode 0x5011) = false ∧
    (VM.executeOpcode (Env.mk 0 [] 5 10 80) (VM.withV0V1 7 7) (Opcode.decode 0x5011) none).map
      (fun res => (res.1.registers.pc, res.2)) =
        some ((VM.withV0V1 7 7).registers.pc + 2, none) ∧
    VM.documented (Opcode.decode 0x9011) = false ∧
    (VM.executeOpcode (Env.mk 0 [] 5 10 80) (VM.withV0V1 7 8) (Opcode.decode 0x9011) none).map
      (fun res => (res.1.registers.pc, res.2)) =
        some ((VM.withV0V1 7 8).registers.pc + 2, none) ∧
    VM.documented (Opcode.decode 0x01FD) = false ∧
    (VM.withProgram []).running = true ∧
    (VM.executeOpcode (Env.mk 0 [] 5 10 80) (VM.withProgram []) (Opcode.decode 0x01FD) none).map
      (fun res => (res.1.running, res.2)) = some (false, none) := by
  decide

/-- C29 as amended: every 16-bit word whose selector the dispatcher has no
case for is reported as `UNKNOWN_OPCODE` and not executed; a word that has a
case and is none of the documented patterns is a category-0 word with `X ≠ 0`,
which executes exactly as the documented word with `X = 0`, or a `5XYN` or
`9XYN` with `N ≠ 0`, which executes exactly as the documented `5XY0` or
`9XY0`. -/
theorem undocumented_words (env : Env) (vm : VM) (w : Nat) (hw : w < 65536) :
    (VM.handled (Opcode.decode w) = false →
      VM.executeOpcode env vm (Opcode.decode w) none =
        some (vm, some Error.UNKNOWN_OPCODE)) ∧
    (VM.handled (Opcode.decode w) = true → VM.documented (Opcode.decode w) = false →
      ((Opcode.decode w).category = 0x0 ∧ (Opcode.decode w).X ≠ 0 ∧
        VM.documented (Opcode.decode (w % 256)) = true ∧
        VM.executeOpcode env vm (Opcode.decode w) none =
          VM.executeOpcode env vm (Opcode.decode (w % 256)) none) ∨
      (((Opcode.decode w).category = 0x5 ∨ (Opcode.decode w).category = 0x9) ∧
        (Opcode.decode w).N ≠ 0 ∧
        VM.documented (Opcode.decode (w - w % 16)) = true ∧
        VM.executeOpcode env vm (Opcode.decode w) none =
          VM.executeOpcode env vm (Opcode.decode (w - w % 16)) none)) := by
  refine ⟨fun h => (executeOpcode_unhandled env vm _ none (decode_category_lt w) h).2,
    fun h hd => ?_⟩
  have hcw : (Opcode.decode w).category = w / 4096 := by
    rw [decode_category, Nat.mod_eq_of_lt (by omega), u8_of_lt (by omega)]
  by_cases c0 : (Opcode.decode w).category = 0x0
  · by_cases cX : (Opcode.decode w).X = 0
    · exfalso
      have hdoc := (documented_iff (Opcode.decode w)).mpr
        ⟨h, fun _ => cX, fun c => by rcases c with c | c <;> rw [c0] at c <;> exact absurd c (by decide)⟩
      rw [hd] at hdoc
      exact Bool.false_ne_true hdoc
    · left
      have w0 : w / 4096 = 0 := by rw [← hcw]; exact c0
      have k0 : (Opcode.decode (w % 256)).category = 0x0 := by
        rw [decode_category, u8_of_lt (by omega)]
        omega
      have kX : (Opcode.decode (w % 256)).X = 0 := by
        rw [decode_X]
        omega
      have kY : (Opcode.decode w).Y = (Opcode.decode (w % 256)).Y := by
        rw [decode_Y, decode_Y]
        omega
      have kN : (Opcode.decode w).N = (Opcode.decode (w % 256)).N := by
        rw [decode_N, decode_N]
        omega
      have kNN : (Opcode.decode w).NN = (Opcode.decode (w % 256)).NN := by
        rw [decode_NN, decode_NN]
        omega
      refine ⟨c0, cX, ?_, ?_⟩
      · rw [documented_iff]
        refine ⟨?_, fun _ => kX, fun c => ?_⟩
        · rw [← handled_congr _ _ (c0.trans k0.symm) kY kN kNN]
          exact h
        · rcases c with c | c <;> rw [k0] at c <;> exact absurd c (by decide)
      · rw [executeOpcode_category0 _ _ _ _ c0, executeOpcode_category0 _ _ _ _ k0,
          executeCategory0_congr vm _ _ none kY kN]
  · right
    have c59 : (Opcode.decode w).category = 0x5 ∨ (Opcode.decode w).category = 0x9 := by
      by_contra c
      have hdoc := (documented_iff (Opcode.decode w)).mpr
        ⟨h, fun c1 => absurd c1 c0, fun c2 => absurd c2 c⟩
      rw [hd] at hdoc
      exact Bool.false_ne_true hdoc
    have cN : (Opcode.decode w).N ≠ 0 := by
      intro cN
      have hdoc := (documented_iff (Opcode.decode w)).mpr
        ⟨h, fun c1 => absurd c1 c0, fun _ => cN⟩
      rw [hd] at hdoc
      exact Bool.false_ne_true hdoc
    have kc : (Opcode.decode (w - w % 16)).category = (Opcode.decode w).category := by
      rw [decode_category, decode_category]
      congr 1
      omega
    have kX : (Opcode.decode w).X = (Opcode.decode (w - w % 16)).X := by
      rw [decode_X, decode_X]
      omega
    have kY : (Opcode.decode w).Y = (Opcode.decode (w - w % 16)).Y := by
      rw [decode_Y, decode_Y]
      omega
    have kN : (Opcode.decode (w - w % 16)).N = 0 := by
      rw [decode_N]
      omega
    refine ⟨c59, cN, ?_, ?_⟩
    · rw [documented_iff]
      refine ⟨?_, fun c => ?_, fun _ => kN⟩
      · unfold VM.handled
        rcases c59 with c | c
        · rw [kc, c]
          rfl
        · rw [kc, c]
          rfl
      · rw [kc] at c
        exact absurd c c0
    · rcases c59 with c | c
      · rw [executeOpcode_category5 _ _ _ _ c, executeOpcode_category5 _ _ _ _ (kc.trans c),
          executeCategory5_congr vm _ _ none kX kY]
      · rw [executeOpcode_category9 _ _ _ _ c, executeOpcode_category9 _ _ _ _ (kc.trans c),
          executeCategory9_congr vm _ _ none kX kY]

/-- Witness of C29 as amended, at the word `5011`, executed as `5010`. -/
theorem undocumented_words_witness :
    0x5011 < 65536 ∧
    VM.handled (Opcode.decode 0x5011) = true ∧ VM.documented (Opcode.decode 0x5011) = false ∧
    (((Opcode.decode 0x5011).category = 0x0 ∧ (Opcode.decode 0x5011).X ≠ 0 ∧
        VM.documented (Opcode.decode (0x5011 % 256)) = true ∧
        VM.executeOpcode (Env.mk 0 [] 5 10 80) (VM.withV0V1 7 7) (Opcode.decode 0x5011) none =
          VM.executeOpcode (Env.mk 0 [] 5 10 80) (VM.withV0V1 7 7)
            (Opcode.decode (0x5011 % 256)) none) ∨
      (((Opcode.decode 0x5011).category = 0x5 ∨ (Opcode.decode 0x5011).category = 0x9) ∧
        (Opcode.decode 0x5011).N ≠ 0 ∧
        VM.documented (Opcode.decode (0x5011 - 0x5011 % 16)) = true ∧
        VM.executeOpcode (Env.mk 0 [] 5 10 80) (VM.withV0V1 7 7) (Opcode.decode 0x5011) none =
          VM.executeOpcode (Env.mk 0 [] 5 10 80) (VM.withV0V1 7 7)
            (Opcode.decode (0x5011 - 0x5011 % 16)) none)) :=
  ⟨by decide, by decide, by decide,
   (undocumented_words (Env.mk 0 [] 5 10 80) (VM.withV0V1 7 7) 0x5011 (by decide)).2
     (by decide) (by decide)⟩

/-! ## The worker loop (C22, C23, C30) -/

theorem executeOpcode_category2 (env : Env) (vm : VM) (opcode : Opcode) (ec : ErrorCode)
    (h : opcode.category = 0x2) :
    VM.executeOpcode env vm opcode ec = some (vm.executeCategory2 opcode ec) := by
  rw [VM.executeOpcode, h]
  rfl

theorem executeOpcode_category6 (env : Env) (vm : VM) (opcode : Opcode) (ec : ErrorCode)
    (h : opcode.category = 0x6) :
    VM.executeOpcode env vm opcode ec = some (vm.executeCategory6 opcode ec) := by
  rw [VM.executeOpcode, h]
  rfl

theorem executeOpcode_category7 (env : Env) (vm : VM) (opcode : Opcode) (ec : ErrorCode)
    (h : opcode.category = 0x7) :
    VM.executeOpcode env vm opcode ec = some (vm.executeCategory7 opcode ec) := by
  rw [VM.executeOpcode, h]
  rfl

/-- The fetch of a word stored inside the memory: big-endian, no error. -/
theorem readWord_bytes (ram : RAM) (a hi lo : Nat) (ha : a + 1 < 4096) (hhi : hi < 256)
    (hlo : lo < 256) (h1 : ram.memory a = hi) (h2 : ram.memory (a + 1) = lo) :
    ram.readWord a none = (256 * hi + lo, none) := by
  unfold RAM.readWord
  rw [if_neg (by show ¬ a + 1 ≥ 4096; omega), h1, h2, shiftLeft8_or hlo,
    u16_of_lt (by omega)]

/-- An iteration whose fetch fails: `pc` has been advanced, the machine stops
and `run` returns the error of the fetch. -/
theorem fetchExecute_fetch_fails (env : Env) (vm : VM) (e : Error)
    (h : (vm.ram.readWord vm.registers.pc none).2 = some e) :
    VM.fetchExecute env vm =
      some ({ vm.setPC (u16 (vm.registers.pc + 2)) with running := false }, some e, true) := by
  unfold VM.fetchExecute
  dsimp only
  rw [h]
  rfl

/-- An iteration whose fetch succeeds and whose instruction returns. -/
theorem fetchExecute_fetched (env : Env) (vm : VM) (w : Nat) (res : VM × ErrorCode)
    (hf : vm.ram.readWord vm.registers.pc none = (w, none))
    (he : VM.executeOpcode env (vm.setPC (u16 (vm.registers.pc + 2))) (Opcode.decode w) none =
      some res) :
    VM.fetchExecute env vm =
      if res.2.isSome then some ({ res.1 with running := false }, res.2, true)
      else some ({ res.1 with cycle := u16 (res.1.cycle + 1) }, res.2, false) := by
  unfold VM.fetchExecute
  dsimp only
  rw [hf]
  dsimp only
  rw [he]
  rfl

/-- Once `_running` is false the loop executes nothing more. -/
theorem runCycles_not_running (inputs : List CycleInput) (vm : VM) (ec : ErrorCode)
    (h : vm.running = false) : VM.runCycles inputs vm ec = some (vm, ec) := by
  cases inputs with
  | nil => rfl
  | cons inp rest =>
    unfold VM.runCycles
    rw [h]
    rfl

/-- An iteration after which `run` has returned ends the loop. -/
theorem runCycles_returned (inp : CycleInput) (rest : List CycleInput) (vm : VM)
    (ec : ErrorCode) (vm1 : VM) (ec1 : ErrorCode)
    (hrun : vm.running = true) (hload : vm.program_loaded = true)
    (h : VM.fetchExecute inp.env vm = some (vm1, ec1, true)) :
    VM.runCycles (inp :: rest) vm ec = some (vm1, ec1) := by
  unfold VM.runCycles VM.loopBody
  rw [hrun, hload, h]
  rfl

/-- An iteration that neither returns nor waits hands the machine to the next
one. -/
theorem runCycles_continue (inp : CycleInput) (rest : List CycleInput) (vm : VM)
    (ec : ErrorCode) (vm1 : VM) (ec1 : ErrorCode)
    (hrun : vm.running = true) (hload : vm.program_loaded = true)
    (h : VM.fetchExecute inp.env vm = some (vm1, ec1, false))
    (hc : vm1.cycle < vm1.target_cycles ∨ vm1.running = false) :
    VM.runCycles (inp :: rest) vm ec = VM.runCycles rest vm1 ec1 := by
  have hb : VM.loopBody inp vm = some (vm1, ec1, false) := by
    unfold VM.loopBody
    rw [h]
    dsimp only
    rw [if_neg Bool.false_ne_true]
    rcases hc with hc | hc
    · rw [decide_eq_false (Nat.not_le.mpr hc)]
      rfl
    · rw [hc, Bool.and_false]
      rfl
  conv_lhs => unfold VM.runCycles
  rw [hrun, hload, hb]
  rfl

theorem drawFrame_running (vm : VM) (k : Nat → Bool) : (vm.drawFrame k).running = vm.running := by
  show (VM.updateTimers _).running = _
  rw [updateTimers_running]

/-- No host event sets `_running` again. -/
theorem applyEvent_running_false (vm : VM) (e : HostEvent) (h : vm.running = false) :
    (vm.applyEvent e).running = false := by
  cases e with
  | frame k =>
    show (vm.drawFrame k).running = false
    rw [drawFrame_running, h]
  | stop => rfl

/-- C23: the main loop halts at the first instruction whose fetch or execution
reports an error, or that is `00FD`. In each case `_running` becomes false and
the result does not depend on the inputs `rest` of later iterations: no later
instruction is executed. The error handed to the caller is the one of that
fetch or of that instruction, and `00FD` hands over none. A machine that is not
running executes nothing, and no host event makes it run again. -/
theorem run_halts (inp : CycleInput) (rest : List CycleInput) (vm : VM) (ec : ErrorCode)
    (hrun : vm.running = true) (hload : vm.program_loaded = true) :
    (∀ e, (vm.ram.readWord vm.registers.pc none).2 = some e →
      VM.runCycles (inp :: rest) vm ec =
        some ({ vm.setPC (u16 (vm.registers.pc + 2)) with running := false }, some e)) ∧
    (∀ w vm2 e, vm.ram.readWord vm.registers.pc none = (w, none) →
      VM.executeOpcode inp.env (vm.setPC (u16 (vm.registers.pc + 2))) (Opcode.decode w) none =
        some (vm2, some e) →
      VM.runCycles (inp :: rest) vm ec = some ({ vm2 with running := false }, some e)) ∧
    (vm.ram.readWord vm.registers.pc none = (0x00FD, none) →
      VM.runCycles (inp :: rest) vm ec =
        some ({ vm.setPC (u16 (vm.registers.pc + 2)) with
                running := false, cycle := u16 (vm.cycle + 1) }, none)) ∧
    (∀ (inputs : List CycleInput) (v : VM) (ec1 : ErrorCode), v.running = false →
      VM.runCycles inputs v ec1 = some (v, ec1)) ∧
    (∀ (v : VM) (e : HostEvent), v.running = false → (v.applyEvent e).running = false) := by
  refine ⟨fun e h => ?_, fun w vm2 e hf he => ?_, fun hf => ?_,
    fun inputs v ec1 h => runCycles_not_running inputs v ec1 h,
    fun v e h => applyEvent_running_false v e h⟩
  · exact runCycles_returned inp rest vm ec _ _ hrun hload
      (fetchExecute_fetch_fails inp.env vm e h)
  · exact runCycles_returned inp rest vm ec _ _ hrun hload
      (fetchExecute_fetched inp.env vm w (vm2, some e) hf he)
  · have he : VM.executeOpcode inp.env (vm.setPC (u16 (vm.registers.pc + 2)))
        (Opcode.decode 0x00FD) none =
        some ({ vm.setPC (u16 (vm.registers.pc + 2)) with running := false }, none) := rfl
    have hfe := fetchExecute_fetched inp.env vm 0x00FD _ hf he
    rw [runCycles_continue inp rest vm ec _ _ hrun hload hfe (Or.inr rfl)]
    exact runCycles_not_running rest _ _ rfl

/-- Witness of C23: the program `00FD`, then `6005`; the loop stops at the
first word with no error, whatever comes after. -/
theorem run_halts_witness :
    (VM.withProgram [0x00, 0xFD, 0x60, 0x05]).running = true ∧
    (VM.withProgram [0x00, 0xFD, 0x60, 0x05]).program_loaded = true ∧
    (VM.withProgram [0x00, 0xFD, 0x60, 0x05]).ram.readWord
      (VM.withProgram [0x00, 0xFD, 0x60, 0x05]).registers.pc none = (0x00FD, none) ∧
    VM.runCycles [CycleInput.mk (Env.mk 0 [] 5 10 80) [], CycleInput.mk (Env.mk 0 [] 5 10 80) []]
        (VM.withProgram [0x00, 0xFD, 0x60, 0x05]) none =
      some ({ (VM.withProgram [0x00, 0xFD, 0x60, 0x05]).setPC
                (u16 ((VM.withProgram [0x00, 0xFD, 0x60, 0x05]).registers.pc + 2)) with
              running := false
              cycle := u16 ((VM.withProgram [0x00, 0xFD, 0x60, 0x05]).cycle + 1) }, none) :=
  ⟨rfl, rfl, by decide,
   (run_halts (CycleInput.mk (Env.mk 0 [] 5 10 80) [])
      [CycleInput.mk (Env.mk 0 [] 5 10 80) []]
      (VM.withProgram [0x00, 0xFD, 0x60, 0x05]) none rfl rfl).2.2.1 (by decide)⟩

/-- One iteration on the word `6XNN`: `VX = NN`, `pc` advanced by 2, the cycle
counted, no error. -/
theorem fetchExecute_6XNN (env : Env) (vm : VM) (X NN : Nat) (hX : X < 16) (hNN : NN < 256)
    (hpc : vm.registers.pc + 1 < 4096)
    (h1 : vm.ram.memory vm.registers.pc = 0x60 + X)
    (h2 : vm.ram.memory (vm.registers.pc + 1) = NN) :
    VM.fetchExecute env vm =
      some ({ (vm.setPC (vm.registers.pc + 2)).setV X NN with cycle := u16 (vm.cycle + 1) },
        none, false) := by
  have hf := readWord_bytes vm.ram vm.registers.pc (0x60 + X) NN hpc (by omega) hNN h1 h2
  have hc : (Opcode.decode (256 * (0x60 + X) + NN)).category = 0x6 := by
    rw [decode_category, u8_of_lt (by omega)]
    omega
  have hx : (Opcode.decode (256 * (0x60 + X) + NN)).X = X := by
    rw [decode_X]
    omega
  have hn : (Opcode.decode (256 * (0x60 + X) + NN)).NN = NN := by
    rw [decode_NN]
    omega
  have he : VM.executeOpcode env (vm.setPC (u16 (vm.registers.pc + 2)))
      (Opcode.decode (256 * (0x60 + X) + NN)) none =
      some ((vm.setPC (vm.registers.pc + 2)).setV X NN, none) := by
    rw [executeOpcode_category6 _ _ _ _ hc, VM.executeCategory6, hx, hn, u16_of_lt (by omega)]
  rw [fetchExecute_fetched env vm _ _ hf he]
  rfl

/-- One iteration on the word `7XNN`: `VX = (VX + NN) mod 256`, `pc` advanced
by 2, the cycle counted, no error. -/
theorem fetchExecute_7XNN (env : Env) (vm : VM) (X NN : Nat) (hX : X < 16) (hNN : NN < 256)
    (hpc : vm.registers.pc + 1 < 4096)
    (h1 : vm.ram.memory vm.registers.pc = 0x70 + X)
    (h2 : vm.ram.memory (vm.registers.pc + 1) = NN) :
    VM.fetchExecute env vm =
      some ({ (vm.setPC (vm.registers.pc + 2)).setV X ((vm.registers.V X + NN) % 256) with
              cycle := u16 (vm.cycle + 1) }, none, false) := by
  have hf := readWord_bytes vm.ram vm.registers.pc (0x70 + X) NN hpc (by omega) hNN h1 h2
  have hc : (Opcode.decode (256 * (0x70 + X) + NN)).category = 0x7 := by
    rw [decode_category, u8_of_lt (by omega)]
    omega
  have hx : (Opcode.decode (256 * (0x70 + X) + NN)).X = X := by
    rw [decode_X]
    omega
  have hn : (Opcode.decode (256 * (0x70 + X) + NN)).NN = NN := by
    rw [decode_NN]
    omega
  have he : VM.executeOpcode env (vm.setPC (u16 (vm.registers.pc + 2)))
      (Opcode.decode (256 * (0x70 + X) + NN)) none =
      some ((vm.setPC (vm.registers.pc + 2)).setV X ((vm.registers.V X + NN) % 256),
        none) := by
    rw [executeOpcode_category7 _ _ _ _ hc, VM.executeCategory7, hx, hn, u16_of_lt (by omega)]
    rfl
  rw [fetchExecute_fetched env vm _ _ hf he]
  rfl

/-- C30: `CALL` and `RET` are inverse on the return address. For every state
with `sp < 16`, fetching and executing `2NNN` at the address `a` pushes `a + 2`,
the address of the following instruction, and sets `pc = NNN`; and a `00EE`
executed afterwards, on any machine `v` whose stack pointer and whose stack
cell are as the call left them, sets `pc = a + 2` and restores `sp` to its
value before the call. The general registers and the memory are unchanged by
both. -/
theorem call_ret_inverse (env env2 : Env) (vm : VM) (a NNN : Nat)
    (hsp : vm.registers.sp < 16) (hpc : vm.registers.pc = a) (ha : a + 1 < 4096)
    (hNNN : NNN < 4096)
    (h1 : vm.ram.memory a = 0x20 + NNN / 256) (h2 : vm.ram.memory (a + 1) = NNN % 256) :
    ∃ vm1, VM.fetchExecute env vm = some (vm1, none, false) ∧
      vm1.registers.pc = NNN ∧
      vm1.registers.stack vm.registers.sp = a + 2 ∧
      vm1.registers.sp = vm.registers.sp + 1 ∧
      vm1.registers.V = vm.registers.V ∧
      vm1.ram = vm.ram ∧
      ∀ v : VM, v.registers.sp = vm1.registers.sp →
        v.registers.stack vm.registers.sp = vm1.registers.stack vm.registers.sp →
        ∃ vm2, VM.executeOpcode env2 v (Opcode.decode 0x00EE) none = some (vm2, none) ∧
          vm2.registers.pc = a + 2 ∧
          vm2.registers.sp = vm.registers.sp ∧
          vm2.registers.V = v.registers.V ∧
          vm2.ram = v.ram := by
  have hf := readWord_bytes vm.ram vm.registers.pc (0x20 + NNN / 256) (NNN % 256)
    (by rw [hpc]; exact ha) (by omega) (by omega) (by rw [hpc]; exact h1)
    (by rw [hpc]; exact h2)
  have hc : (Opcode.decode (256 * (0x20 + NNN / 256) + NNN % 256)).category = 0x2 := by
    rw [decode_category, u8_of_lt (by omega)]
    omega
  have hn : (Opcode.decode (256 * (0x20 + NNN / 256) + NNN % 256)).NNN = NNN := by
    rw [decode_NNN]
    omega
  have he : VM.executeOpcode env (vm.setPC (u16 (vm.registers.pc + 2)))
      (Opcode.decode (256 * (0x20 + NNN / 256) + NNN % 256)) none =
      some ({ vm with registers :=
                { vm.registers with
                  stack := setAt vm.registers.stack vm.registers.sp (a + 2)
                  sp := vm.registers.sp + 1
                  pc := NNN } }, none) := by
    rw [executeOpcode_category2 _ _ _ _ hc, VM.executeCategory2, hn]
    show some (({ vm with registers :=
      { ((vm.setPC (u16 (vm.registers.pc + 2))).registers.pushToStack
          (u16 (vm.registers.pc + 2)) none).1 with pc := NNN } } : VM),
      ((vm.setPC (u16 (vm.registers.pc + 2))).registers.pushToStack
          (u16 (vm.registers.pc + 2)) none).2) = _
    unfold Registers.pushToStack
    rw [if_neg (by show ¬ vm.registers.sp ≥ 16; omega), hpc, u16_of_lt (by omega)]
    show some (({ vm with registers :=
      { vm.registers with
        stack := setAt vm.registers.stack vm.registers.sp (a + 2)
        sp := u8 (vm.registers.sp + 1)
        pc := NNN } } : VM), none) = _
    rw [u8_of_lt (by omega)]
  refine ⟨_, (fetchExecute_fetched env vm _ _ hf he).trans rfl, rfl, setAt_same _ _ _, rfl,
    rfl, rfl, fun v hvsp hvst => ?_⟩
  have hvsp1 : v.registers.sp = vm.registers.sp + 1 := hvsp
  have hvst1 : v.registers.stack vm.registers.sp = a + 2 := by
    rw [hvst]
    exact setAt_same _ _ _
  have hE : VM.executeOpcode env2 v (Opcode.decode 0x00EE) none =
      some ({ v with registers :=
        { v.registers with
          sp := sub8 v.registers.sp 1
          pc := v.registers.stack (sub8 v.registers.sp 1) } }, none) := by
    show some (v.executeCategory0 (Opcode.decode 0x00EE) none) = _
    show some (({ v with registers :=
        { (v.registers.popFromStack none).2.1 with pc := (v.registers.popFromStack none).1 } }
        : VM), (v.registers.popFromStack none).2.2) = _
    unfold Registers.popFromStack
    rw [if_neg (by omega)]
  have hs : sub8 v.registers.sp 1 = vm.registers.sp := by
    rw [hvsp1, sub8_of_le (by omega) (by omega)]
    omega
  refine ⟨_, hE, ?_, hs, rfl, rfl⟩
  show v.registers.stack (sub8 v.registers.sp 1) = a + 2
  rw [hs, hvst1]

/-- Witness of C30: the call `2300` fetched at `0x200` on the machine started
on that program. -/
theorem call_ret_inverse_witness :
    ∃ vm1, VM.fetchExecute (Env.mk 0 [] 5 10 80) (VM.withProgram [0x23, 0x00]) =
        some (vm1, none, false) ∧
      vm1.registers.pc = 0x300 ∧
      vm1.registers.stack (VM.withProgram [0x23, 0x00]).registers.sp = 0x200 + 2 ∧
      vm1.registers.sp = (VM.withProgram [0x23, 0x00]).registers.sp + 1 ∧
      vm1.registers.V = (VM.withProgram [0x23, 0x00]).registers.V ∧
      vm1.ram = (VM.withProgram [0x23, 0x00]).ram ∧
      ∀ v : VM, v.registers.sp = vm1.registers.sp →
        v.registers.stack (VM.withProgram [0x23, 0x00]).registers.sp =
          vm1.registers.stack (VM.withProgram [0x23, 0x00]).registers.sp →
        ∃ vm2, VM.executeOpcode (Env.mk 0 [] 5 10 80) v (Opcode.decode 0x00EE) none =
            some (vm2, none) ∧
          vm2.registers.pc = 0x200 + 2 ∧
          vm2.registers.sp = (VM.withProgram [0x23, 0x00]).registers.sp ∧
          vm2.registers.V = v.registers.V ∧
          vm2.ram = v.ram :=
  call_ret_inverse (Env.mk 0 [] 5 10 80) (Env.mk 0 [] 5 10 80) (VM.withProgram [0x23, 0x00])
    0x200 0x300 (by decide) rfl (by decide) (by decide) (by decide) (by decide)

/-! ### Two cycles of the loop, the throttle included (C22) -/

theorem updateTimers_cycle (vm : VM) : vm.updateTimers.cycle = vm.cycle := by
  unfold VM.updateTimers
  dsimp only
  split_ifs <;> rfl

/-- After a host event the predicate of the throttle holds: a frame has reset
the cycle counter, the end of the draw loop has stopped the machine. -/
theorem applyEvent_wakes (vm : VM) (e : HostEvent) :
    (!(vm.applyEvent e).running || decide ((vm.applyEvent e).cycle = 0)) = true := by
  cases e with
  | frame k =>
    have h : ((vm.applyEvent (HostEvent.frame k)).cycle = 0) := by
      show (VM.updateTimers _).cycle = 0
      rw [updateTimers_cycle]
    rw [decide_eq_true h, Bool.or_true]
  | stop => rfl

/-- With both timers at zero a host event leaves the registers and the memory
as they were. -/
theorem applyEvent_idle (vm : VM) (e : HostEvent) (hd : vm.registers.delay_timer = 0)
    (hs : vm.registers.sound_timer = 0) :
    (vm.applyEvent e).registers = vm.registers ∧ (vm.applyEvent e).ram = vm.ram ∧
    (vm.applyEvent e).program_loaded = vm.program_loaded ∧
    (vm.applyEvent e).cycle ≤ vm.cycle ∧
    (vm.applyEvent e).target_cycles = vm.target_cycles := by
  cases e with
  | frame k =>
    have h := handleVBlankInterrupt_eq
      { vm with display :=
          { vm.display with current_front_resolution := vm.display.next_front_resolution } } k
      (by show vm.registers.delay_timer < 256; omega)
      (by show vm.registers.sound_timer < 256; omega)
    refine ⟨?_, h.2.2.1, h.2.2.2.2.2.1, ?_, h.2.2.2.2.2.2.1⟩
    swap
    · show (VM.handleVBlankInterrupt _ k).cycle ≤ _
      rw [h.2.2.2.1]
      exact Nat.zero_le _
    show (VM.handleVBlankInterrupt _ k).registers = _
    rw [h.1]
    show ({ vm.registers with
      delay_timer := vm.registers.delay_timer - 1
      sound_timer := vm.registers.sound_timer - 1 } : Registers) = vm.registers
    rw [hd, hs]
    obtain ⟨ram, r, d, a, kp, run, pl, c, tc⟩ := vm
    obtain ⟨V, RPL, I, dt, st, pc, sp, stack⟩ := r
    simp only at hd hs
    subst hd hs
    rfl
  | stop => exact ⟨rfl, rfl, rfl, Nat.le_refl _, rfl⟩

/-- The throttle, entered with both timers at zero, gives back a machine with
the same registers and memory, and still running unless it was stopped. -/
theorem throttleWait_idle (events : List HostEvent) :
    ∀ (vm : VM) (res : VM × List HostEvent), VM.throttleWait events vm = some res →
      vm.registers.delay_timer = 0 → vm.registers.sound_timer = 0 →
      res.1.registers = vm.registers ∧ res.1.ram = vm.ram ∧
      res.1.program_loaded = vm.program_loaded ∧
      (HostEvent.stop ∉ events → res.1.running = vm.running) ∧
      res.1.cycle ≤ vm.cycle ∧ res.1.target_cycles = vm.target_cycles := by
  induction events with
  | nil =>
    intro vm res h _ _
    unfold VM.throttleWait at h
    split_ifs at h
    cases h
    exact ⟨rfl, rfl, rfl, fun _ => rfl, Nat.le_refl _, rfl⟩
  | cons e rest ih =>
    intro vm res h hd hs
    unfold VM.throttleWait at h
    split_ifs at h
    · cases h
      exact ⟨rfl, rfl, rfl, fun _ => rfl, Nat.le_refl _, rfl⟩
    · have ha := applyEvent_idle vm e hd hs
      have h2 := ih (vm.applyEvent e) res h (by rw [ha.1]; exact hd) (by rw [ha.1]; exact hs)
      refine ⟨h2.1.trans ha.1, h2.2.1.trans ha.2.1, h2.2.2.1.trans ha.2.2.1, fun hn => ?_,
        h2.2.2.2.2.1.trans ha.2.2.2.1, h2.2.2.2.2.2.trans ha.2.2.2.2⟩
      have hne : HostEvent.stop ∉ rest := fun c => hn (List.mem_cons_of_mem _ c)
      rw [h2.2.2.2.1 hne]
      cases e with
      | frame k => exact drawFrame_running vm k
      | stop => exact absurd (List.mem_cons_self _ _) hn

/-- The throttle returns as soon as one host event has occurred. -/
theorem throttleWait_isSome (events : List HostEvent) (vm : VM) (h : events ≠ []) :
    (VM.throttleWait events vm).isSome = true := by
  cases events with
  | nil => exact absurd rfl h
  | cons e rest =>
    unfold VM.throttleWait
    split_ifs
    · rfl
    · have hw := applyEvent_wakes vm e
      cases rest with
      | nil =>
        unfold VM.throttleWait
        rw [if_pos hw]
        rfl
      | cons e2 rest2 =>
        unfold VM.throttleWait
        rw [if_pos hw]
        rfl

/-- An iteration whose instruction neither fails nor stops the loop: the
machine goes through the throttle, if the target is reached, and on to the next
iteration. -/
theorem runCycles_cons_of_fetch (inp : CycleInput) (rest : List CycleInput) (vm : VM)
    (ec : ErrorCode) (v : VM) (ec1 : ErrorCode)
    (hrun : vm.running = true) (hload : vm.program_loaded = true)
    (h : VM.fetchExecute inp.env vm = some (v, ec1, false)) :
    VM.runCycles (inp :: rest) vm ec =
      if (decide (v.cycle ≥ v.target_cycles) && v.running) = true then
        match VM.throttleWait inp.hostEvents v with
        | none => none
        | some w => VM.runCycles rest w.1 ec1
      else VM.runCycles rest v ec1 := by
  conv_lhs => unfold VM.runCycles VM.loopBody
  rw [hrun, hload, h]
  dsimp only
  rw [if_neg Bool.false_ne_true]
  by_cases c : (decide (v.cycle ≥ v.target_cycles) && v.running) = true
  · rw [if_pos c, if_pos c]
    rcases VM.throttleWait inp.hostEvents v with _ | w
    · rfl
    · rfl
  · rw [if_neg c, if_neg c]
    rfl

/-- The same iteration when both timers are at zero afterwards: whatever the
throttle does, the next iteration starts with the same registers and memory. -/
theorem runCycles_step_idle (inp : CycleInput) (rest : List CycleInput) (vm : VM)
    (ec : ErrorCode) (v : VM) (ec1 : ErrorCode)
    (hrun : vm.running = true) (hload : vm.program_loaded = true)
    (h : VM.fetchExecute inp.env vm = some (v, ec1, false))
    (hd : v.registers.delay_timer = 0) (hs : v.registers.sound_timer = 0)
    (res : VM × ErrorCode) (hres : VM.runCycles (inp :: rest) vm ec = some res) :
    ∃ v1 : VM, v1.registers = v.registers ∧ v1.ram = v.ram ∧
      v1.program_loaded = v.program_loaded ∧
      (HostEvent.stop ∉ inp.hostEvents → v1.running = v.running) ∧
      VM.runCycles rest v1 ec1 = some res := by
  rw [runCycles_cons_of_fetch inp rest vm ec v ec1 hrun hload h] at hres
  by_cases c : (decide (v.cycle ≥ v.target_cycles) && v.running) = true
  · rw [if_pos c] at hres
    rcases hw : VM.throttleWait inp.hostEvents v with _ | w
    · rw [hw] at hres
      exact Option.noConfusion hres
    · rw [hw] at hres
      have hi := throttleWait_idle inp.hostEvents v w hw hd hs
      exact ⟨w.1, hi.1, hi.2.1, hi.2.2.1, hi.2.2.2.1, hres⟩
  · rw [if_neg c] at hres
    exact ⟨v, rfl, rfl, rfl, fun _ => rfl, hres⟩

/-- The same iteration returns a machine as soon as its input holds one host
event and the rest of the loop returns one from every machine. -/
theorem runCycles_step_isSome (inp : CycleInput) (rest : List CycleInput) (vm : VM)
    (ec : ErrorCode) (v : VM) (ec1 : ErrorCode)
    (hrun : vm.running = true) (hload : vm.program_loaded = true)
    (h : VM.fetchExecute inp.env vm = some (v, ec1, false))
    (hev : inp.hostEvents ≠ [] ∨ v.cycle < v.target_cycles)
    (hrest : ∀ v1 : VM, v1.registers = v.registers → v1.ram = v.ram →
      v1.program_loaded = v.program_loaded → v1.cycle ≤ v.cycle →
      v1.target_cycles = v.target_cycles → (VM.runCycles rest v1 ec1).isSome = true)
    (hd : v.registers.delay_timer = 0) (hs : v.registers.sound_timer = 0) :
    (VM.runCycles (inp :: rest) vm ec).isSome = true := by
  rw [runCycles_cons_of_fetch inp rest vm ec v ec1 hrun hload h]
  by_cases c : (decide (v.cycle ≥ v.target_cycles) && v.running) = true
  · rw [if_pos c]
    have hne : inp.hostEvents ≠ [] := by
      rcases hev with hev | hev
      · exact hev
      · exfalso
        rw [Bool.and_eq_true, decide_eq_true_eq] at c
        omega
    have hsome := throttleWait_isSome inp.hostEvents v hne
    rcases hw : VM.throttleWait inp.hostEvents v with _ | w
    · rw [hw] at hsome
      exact absurd hsome Bool.false_ne_true
    · have hi := throttleWait_idle inp.hostEvents v w hw hd hs
      exact hrest w.1 hi.1 hi.2.1 hi.2.2.1 hi.2.2.2.2.1 hi.2.2.2.2.2
  · rw [if_neg c]
    exact hrest v rfl rfl rfl (Nat.le_refl _) rfl

/-- C22: for every `X`, `NN` and `MM`, with the program `6XNN`, `7XMM` at
`0x200` and the registers cleared, two cycles of the main loop leave
`VX = (NN + MM) mod 256`, `pc = 0x204`, no error, and every other register,
`VF` included, and the memory unchanged, provided the host does not stop the
machine between the two cycles. The two cycles do return a machine when the
worker has no frame to wait for (the cycle counter is at least three below the
target) or when each of its waits is given a host event. -/
theorem set_add_program (vm : VM) (r : Registers) (X NN MM : Nat) (i1 i2 : CycleInput)
    (ec : ErrorCode) (hX : X < 16) (hNN : NN < 256) (hMM : MM < 256)
    (hreg : vm.registers = r.clear)
    (h0 : vm.ram.memory 0x200 = 0x60 + X) (h1 : vm.ram.memory 0x201 = NN)
    (h2 : vm.ram.memory 0x202 = 0x70 + X) (h3 : vm.ram.memory 0x203 = MM)
    (hrun : vm.running = true) (hload : vm.program_loaded = true) :
    (∀ res, VM.runCycles [i1, i2] vm ec = some res → HostEvent.stop ∉ i1.hostEvents →
      res.2 = none ∧
      res.1.registers.V X = (NN + MM) % 256 ∧
      res.1.registers.pc = 0x204 ∧
      res.1.registers =
        { vm.registers with V := setAt vm.registers.V X ((NN + MM) % 256), pc := 0x204 } ∧
      res.1.ram = vm.ram) ∧
    ((i1.hostEvents ≠ [] ∧ i2.hostEvents ≠ []) ∨ vm.cycle + 2 < vm.target_cycles →
      (VM.runCycles [i1, i2] vm ec).isSome = true) := by
  have hpc : vm.registers.pc = 0x200 := by rw [hreg]; rfl
  have hdt : vm.registers.delay_timer = 0 := by rw [hreg]; rfl
  have hst : vm.registers.sound_timer = 0 := by rw [hreg]; rfl
  have s1 := fetchExecute_6XNN i1.env vm X NN hX hNN (by rw [hpc]; decide)
    (by rw [hpc]; exact h0) (by rw [hpc]; exact h1)
  have hf : setAt (setAt vm.registers.V X NN) X ((NN + MM) % 256) =
      setAt vm.registers.V X ((NN + MM) % 256) := by
    funext j
    rw [setAt_apply, setAt_apply, setAt_apply]
    split_ifs <;> rfl
  have step2 : ∀ v1 : VM,
      v1.registers = { vm.registers with V := setAt vm.registers.V X NN, pc := 0x202 } →
      v1.ram = vm.ram →
      VM.fetchExecute i2.env v1 =
        some ({ (v1.setPC (v1.registers.pc + 2)).setV X ((v1.registers.V X + MM) % 256) with
                cycle := u16 (v1.cycle + 1) }, none, false) := by
    intro v1 hr hm
    have p : v1.registers.pc = 0x202 := by rw [hr]
    exact fetchExecute_7XNN i2.env v1 X MM hX hMM (by rw [p]; decide)
      (by rw [p, hm]; exact h2) (by rw [p, hm]; exact h3)
  have hv : ({ (vm.setPC (vm.registers.pc + 2)).setV X NN with
      cycle := u16 (vm.cycle + 1) } : VM).registers =
      { vm.registers with V := setAt vm.registers.V X NN, pc := 0x202 } := by
    show ({ vm.registers with V := setAt vm.registers.V X NN, pc := vm.registers.pc + 2 }
      : Registers) = _
    rw [hpc]
  constructor
  · intro res hres hns
    obtain ⟨v1, hr1, hm1, hl1, hrn1, hres1⟩ :=
      runCycles_step_idle i1 [i2] vm ec _ none hrun hload s1 hdt hst res hres
    rw [hv] at hr1
    have hm1b : v1.ram = vm.ram := hm1
    have s2 := step2 v1 hr1 hm1b
    obtain ⟨v2, hr2, hm2, _, _, hres2⟩ :=
      runCycles_step_idle i2 [] v1 none _ none ((hrn1 hns).trans hrun) (hl1.trans hload) s2
        (by show v1.registers.delay_timer = 0; rw [hr1]; exact hdt)
        (by show v1.registers.sound_timer = 0; rw [hr1]; exact hst) res hres1
    have hres3 : some (v2, (none : ErrorCode)) = some res := hres2
    cases hres3
    have e2 : v2.registers =
        { v1.registers with
          V := setAt v1.registers.V X ((v1.registers.V X + MM) % 256)
          pc := v1.registers.pc + 2 } := hr2
    rw [hr1] at e2
    have e3 : v2.registers =
        { vm.registers with V := setAt vm.registers.V X ((NN + MM) % 256), pc := 0x204 } := by
      rw [e2]
      show ({ vm.registers with
        V := setAt (setAt vm.registers.V X NN) X ((setAt vm.registers.V X NN X + MM) % 256)
        pc := 0x202 + 2 } : Registers) = _
      rw [setAt_same, hf]
    refine ⟨rfl, ?_, ?_, e3, hm2.trans hm1b⟩
    · show v2.registers.V X = _
      rw [e3]
      exact setAt_same _ _ _
    · show v2.registers.pc = _
      rw [e3]
  · intro hev
    have hu : u16 (vm.cycle + 1) ≤ vm.cycle + 1 := Nat.mod_le _ _
    refine runCycles_step_isSome i1 [i2] vm ec _ none hrun hload s1 ?_ ?_ hdt hst
    · rcases hev with hev | hev
      · exact Or.inl hev.1
      · exact Or.inr (by show u16 (vm.cycle + 1) < vm.target_cycles; omega)
    · intro v1 hr1 hm1 hl1 hc1 ht1
      rw [hv] at hr1
      have hc1b : v1.cycle ≤ u16 (vm.cycle + 1) := hc1
      have ht1b : v1.target_cycles = vm.target_cycles := ht1
      have hm1b : v1.ram = vm.ram := hm1
      by_cases hr : v1.running = true
      · have s2 := step2 v1 hr1 hm1b
        refine runCycles_step_isSome i2 [] v1 none _ none hr (hl1.trans hload) s2 ?_
          (fun _ _ _ _ _ _ => rfl)
          (by show v1.registers.delay_timer = 0; rw [hr1]; exact hdt)
          (by show v1.registers.sound_timer = 0; rw [hr1]; exact hst)
        rcases hev with hev | hev
        · exact Or.inl hev.2
        · have hu2 : u16 (v1.cycle + 1) ≤ v1.cycle + 1 := Nat.mod_le _ _
          exact Or.inr (by show u16 (v1.cycle + 1) < v1.target_cycles; omega)
      · rw [runCycles_not_running [i2] v1 none (by simpa using hr)]
        rfl

/-- Witness of C22: `6005` then `7003` leaves `V0 = 8`. -/
theorem set_add_program_witness :
    (VM.runCycles [CycleInput.mk (Env.mk 0 [] 5 10 80) [],
          CycleInput.mk (Env.mk 0 [] 5 10 80) []]
        (VM.withProgram [0x60, 0x05, 0x70, 0x03]) none).map
      (fun res => (res.1.registers.V 0, res.1.registers.pc, res.2)) = some (8, 0x204, none) ∧
    (VM.runCycles [CycleInput.mk (Env.mk 0 [] 5 10 80) [],
          CycleInput.mk (Env.mk 0 [] 5 10 80) []]
        (VM.withProgram [0x60, 0x05, 0x70, 0x03]) none).isSome = true ∧
    ∀ res, VM.runCycles [CycleInput.mk (Env.mk 0 [] 5 10 80) [],
          CycleInput.mk (Env.mk 0 [] 5 10 80) []]
        (VM.withProgram [0x60, 0x05, 0x70, 0x03]) none = some res →
      HostEvent.stop ∉ (CycleInput.mk (Env.mk 0 [] 5 10 80) []).hostEvents →
      res.2 = none ∧
      res.1.registers.V 0 = (5 + 3) % 256 ∧
      res.1.registers.pc = 0x204 ∧
      res.1.registers =
        { (VM.withProgram [0x60, 0x05, 0x70, 0x03]).registers with
          V := setAt (VM.withProgram [0x60, 0x05, 0x70, 0x03]).registers.V 0 ((5 + 3) % 256)
          pc := 0x204 } ∧
      res.1.ram = (VM.withProgram [0x60, 0x05, 0x70, 0x03]).ram :=
  ⟨by decide,
   (set_add_program (VM.withProgram [0x60, 0x05, 0x70, 0x03]) Registers.initial 0 5 3
      (CycleInput.mk (Env.mk 0 [] 5 10 80) []) (CycleInput.mk (Env.mk 0 [] 5 10 80) []) none
      (by decide) (by decide) (by decide) rfl (by decide) (by decide) (by decide) (by decide)
      rfl rfl).2 (Or.inr (by decide)),
   (set_add_program (VM.withProgram [0x60, 0x05, 0x70, 0x03]) Registers.initial 0 5 3
      (CycleInput.mk (Env.mk 0 [] 5 10 80) []) (CycleInput.mk (Env.mk 0 [] 5 10 80) []) none
      (by decide) (by decide) (by decide) rfl (by decide) (by decide) (by decide) (by decide)
      rfl rfl).1⟩

/-! ## Memory stores: `FX33` and `FX55` (C35, C36) -/

theorem executeOpcode_categoryE (env : Env) (vm : VM) (opcode : Opcode) (ec : ErrorCode)
    (h : opcode.category = 0xE) :
    VM.executeOpcode env vm opcode ec = some (vm.executeCategoryE opcode ec) := by
  rw [VM.executeOpcode, h]
  rfl

theorem executeOpcode_categoryF (env : Env) (vm : VM) (opcode : Opcode) (ec : ErrorCode)
    (h : opcode.category = 0xF) :
    VM.executeOpcode env vm opcode ec = VM.executeCategoryF env vm opcode ec := by
  rw [VM.executeOpcode, h]
  rfl

/-- The fields of the word `FXNN`. -/
theorem decode_FXNN (X NN : Nat) (hX : X < 16) (hNN : NN < 256) :
    (Opcode.decode (0xF000 + 256 * X + NN)).category = 0xF ∧
    (Opcode.decode (0xF000 + 256 * X + NN)).X = X ∧
    (Opcode.decode (0xF000 + 256 * X + NN)).NN = NN := by
  rw [decode_category, decode_X, decode_NN, u8_of_lt (by omega)]
  refine ⟨?_, ?_, ?_⟩ <;> omega

/-- The instruction `FX33` is the three stores of `storeBCD`. -/
theorem execute_FX33 (env : Env) (vm : VM) (X : Nat) (hX : X < 16) (ec : ErrorCode) :
    VM.executeOpcode env vm (Opcode.decode (0xF000 + 256 * X + 0x33)) ec =
      some (vm.storeBCD (Opcode.decode (0xF000 + 256 * X + 0x33)) ec) := by
  have d := decode_FXNN X 0x33 hX (by decide)
  rw [executeOpcode_categoryF _ _ _ _ d.1, VM.executeCategoryF, d.2.2]
  rfl

/-- The instruction `FX55` is the loop of `storeRegisters`. -/
theorem execute_FX55 (env : Env) (vm : VM) (X : Nat) (hX : X < 16) (ec : ErrorCode) :
    VM.executeOpcode env vm (Opcode.decode (0xF000 + 256 * X + 0x55)) ec =
      some (vm.storeRegisters (Opcode.decode (0xF000 + 256 * X + 0x55)) ec) := by
  have d := decode_FXNN X 0x55 hX (by decide)
  rw [executeOpcode_categoryF _ _ _ _ d.1, VM.executeCategoryF, d.2.2]
  rfl

/-- The three stores of `FX33` when `I + 2` is inside the memory. -/
theorem storeBCD_inside (vm : VM) (opcode : Opcode) (hI : vm.registers.I + 2 < 4096) :
    vm.storeBCD opcode none =
      ({ vm with ram :=
          { memory := setAt (setAt (setAt vm.ram.memory vm.registers.I
              (u8 (vm.registers.V opcode.X / 100)))
              (vm.registers.I + 1) (u8 ((vm.registers.V opcode.X / 10) % 10)))
              (vm.registers.I + 2) (u8 (vm.registers.V opcode.X % 10)) } }, none) := by
  have e1 : u16 (vm.registers.I + 1) = vm.registers.I + 1 := u16_of_lt (by omega)
  have e2 : u16 (vm.registers.I + 2) = vm.registers.I + 2 := u16_of_lt (by omega)
  have a0 : ¬ vm.registers.I ≥ RAM_SIZE := by show ¬ vm.registers.I ≥ 4096; omega
  have a1 : ¬ vm.registers.I + 1 ≥ RAM_SIZE := by show ¬ vm.registers.I + 1 ≥ 4096; omega
  have a2 : ¬ vm.registers.I + 2 ≥ RAM_SIZE := by show ¬ vm.registers.I + 2 ≥ 4096; omega
  unfold VM.storeBCD RAM.writeByte
  simp only [e1, e2, if_neg a0, if_neg a1, if_neg a2]

/-- C36: for every byte `VX` and every `I` with `I + 2 < 4096`, `FX33` reports
no error and stores at `I`, `I + 1`, `I + 2` the three decimal digits
`h = VX div 100`, `t = (VX div 10) mod 10`, `o = VX mod 10`, each in `0..9`
with `h ≤ 2` and `100 h + 10 t + o = VX`; it changes no register and no other
memory cell. -/
theorem store_bcd_digits (env : Env) (vm : VM) (X : Nat) (hX : X < 16)
    (hV : vm.registers.V X < 256) (hI : vm.registers.I + 2 < 4096) :
    ∃ vm1, VM.executeOpcode env vm (Opcode.decode (0xF000 + 256 * X + 0x33)) none =
        some (vm1, none) ∧
      vm1.ram.memory vm.registers.I = vm.registers.V X / 100 ∧
      vm1.ram.memory (vm.registers.I + 1) = (vm.registers.V X / 10) % 10 ∧
      vm1.ram.memory (vm.registers.I + 2) = vm.registers.V X % 10 ∧
      vm1.ram.memory vm.registers.I ≤ 2 ∧
      vm1.ram.memory (vm.registers.I + 1) ≤ 9 ∧
      vm1.ram.memory (vm.registers.I + 2) ≤ 9 ∧
      100 * vm1.ram.memory vm.registers.I + 10 * vm1.ram.memory (vm.registers.I + 1) +
        vm1.ram.memory (vm.registers.I + 2) = vm.registers.V X ∧
      vm1.registers = vm.registers ∧
      (∀ a, a ≠ vm.registers.I → a ≠ vm.registers.I + 1 → a ≠ vm.registers.I + 2 →
        vm1.ram.memory a = vm.ram.memory a) := by
  have dX := (decode_FXNN X 0x33 hX (by decide)).2.1
  have e := execute_FX33 env vm X hX none
  rw [storeBCD_inside vm _ hI, dX] at e
  have m0 : setAt (setAt (setAt vm.ram.memory vm.registers.I
      (u8 (vm.registers.V X / 100)))
      (vm.registers.I + 1) (u8 ((vm.registers.V X / 10) % 10)))
      (vm.registers.I + 2) (u8 (vm.registers.V X % 10)) vm.registers.I =
      vm.registers.V X / 100 := by
    rw [setAt_other _ _ _ _ (by omega), setAt_other _ _ _ _ (by omega), setAt_same,
      u8_of_lt (by omega)]
  have m1 : setAt (setAt (setAt vm.ram.memory vm.registers.I
      (u8 (vm.registers.V X / 100)))
      (vm.registers.I + 1) (u8 ((vm.registers.V X / 10) % 10)))
      (vm.registers.I + 2) (u8 (vm.registers.V X % 10)) (vm.registers.I + 1) =
      (vm.registers.V X / 10) % 10 := by
    rw [setAt_other _ _ _ _ (by omega), setAt_same, u8_of_lt (by omega)]
  have m2 : setAt (setAt (setAt vm.ram.memory vm.registers.I
      (u8 (vm.registers.V X / 100)))
      (vm.registers.I + 1) (u8 ((vm.registers.V X / 10) % 10)))
      (vm.registers.I + 2) (u8 (vm.registers.V X % 10)) (vm.registers.I + 2) =
      vm.registers.V X % 10 := by
    rw [setAt_same, u8_of_lt (by omega)]
  refine ⟨_, e, m0, m1, m2, ?_, ?_, ?_, ?_, rfl, fun a h0 h1 h2 => ?_⟩
  · show setAt _ _ _ _ ≤ 2
    rw [m0]
    omega
  · show setAt _ _ _ _ ≤ 9
    rw [m1]
    omega
  · show setAt _ _ _ _ ≤ 9
    rw [m2]
    omega
  · show 100 * setAt _ _ _ _ + 10 * setAt _ _ _ _ + setAt _ _ _ _ = _
    rw [m0, m1, m2]
    omega
  · show setAt _ _ _ a = _
    rw [setAt_other _ _ _ _ h2, setAt_other _ _ _ _ h1, setAt_other _ _ _ _ h0]

/-- Witness of C36: `F033` with `V0 = 234` and `I = 0x300`. -/
theorem store_bcd_digits_witness :
    ((VM.withV0V1 234 0).setI 0x300).registers.V 0 < 256 ∧
    ((VM.withV0V1 234 0).setI 0x300).registers.I + 2 < 4096 ∧
    (VM.executeOpcode (Env.mk 0 [] 5 10 80) ((VM.withV0V1 234 0).setI 0x300)
        (Opcode.decode 0xF033) none).map
      (fun res => (res.1.ram.memory 0x300, res.1.ram.memory 0x301, res.1.ram.memory 0x302,
        res.2)) = some (2, 3, 4, none) ∧
    ∃ vm1, VM.executeOpcode (Env.mk 0 [] 5 10 80) ((VM.withV0V1 234 0).setI 0x300)
        (Opcode.decode (0xF000 + 256 * 0 + 0x33)) none = some (vm1, none) ∧
      100 * vm1.ram.memory ((VM.withV0V1 234 0).setI 0x300).registers.I +
        10 * vm1.ram.memory (((VM.withV0V1 234 0).setI 0x300).registers.I + 1) +
        vm1.ram.memory (((VM.withV0V1 234 0).setI 0x300).registers.I + 2) =
          ((VM.withV0V1 234 0).setI 0x300).registers.V 0 ∧
      vm1.registers = ((VM.withV0V1 234 0).setI 0x300).registers := by
  refine ⟨by decide, by decide, by decide, ?_⟩
  obtain ⟨vm1, h, _, _, _, _, _, _, hs, hr, _⟩ :=
    store_bcd_digits (Env.mk 0 [] 5 10 80) ((VM.withV0V1 234 0).setI 0x300) 0
      (by decide) (by decide) (by decide)
  exact ⟨vm1, h, hs, hr⟩

/-- The loop of `FX55` when `I + X` does not pass `0xFFFF`: the cells `I + i`
inside the memory receive `Vi`, every other cell is kept, and `OUT_OF_RANGE`
is reported exactly when `I + X` is outside the memory. -/
theorem storeRegisters_spec (vm : VM) (opcode : Opcode)
    (hI : vm.registers.I + opcode.X < 65536) :
    (∀ a, (vm.storeRegisters opcode none).1.ram.memory a =
      if vm.registers.I ≤ a ∧ a ≤ vm.registers.I + opcode.X ∧ a < 4096 then
        vm.registers.V (a - vm.registers.I) else vm.ram.memory a) ∧
    ((vm.storeRegisters opcode none).2 = some Error.OUT_OF_RANGE ↔
      vm.registers.I + opcode.X ≥ 4096) ∧
    ((vm.storeRegisters opcode none).2 = none ↔ vm.registers.I + opcode.X < 4096) ∧
    (vm.storeRegisters opcode none).1.registers = vm.registers := by
  have inv := forLoop_induct
    (fun k (st : RAM × ErrorCode) =>
      (∀ a, st.1.memory a =
        if vm.registers.I ≤ a ∧ a < vm.registers.I + k ∧ a < 4096 then
          vm.registers.V (a - vm.registers.I) else vm.ram.memory a) ∧
      (st.2 = if 0 < k ∧ vm.registers.I + k > 4096 then some Error.OUT_OF_RANGE else none))
    0 (opcode.X + 1)
    (fun i (st : RAM × ErrorCode) =>
      st.1.writeByte (u16 (vm.registers.I + i)) (vm.registers.V i) st.2)
    (vm.ram, none) (Nat.zero_le _)
    ⟨fun a => by rw [if_neg (by omega)], by rw [if_neg (by omega)]⟩
    (by
      intro i st _ hi hP
      have eu : u16 (vm.registers.I + i) = vm.registers.I + i := u16_of_lt (by omega)
      show (∀ a, (st.1.writeByte (u16 (vm.registers.I + i)) (vm.registers.V i) st.2).1.memory a
          = _) ∧ (st.1.writeByte (u16 (vm.registers.I + i)) (vm.registers.V i) st.2).2 = _
      rw [eu]
      unfold RAM.writeByte
      by_cases c : vm.registers.I + i ≥ RAM_SIZE
      · have c2 : vm.registers.I + i ≥ 4096 := c
        rw [if_pos c]
        refine ⟨fun a => ?_, ?_⟩
        · show st.1.memory a = _
          rw [hP.1 a]
          by_cases ca : vm.registers.I ≤ a ∧ a < vm.registers.I + i ∧ a < 4096
          · rw [if_pos ca, if_pos ⟨ca.1, by omega, ca.2.2⟩]
          · rw [if_neg ca, if_neg (by omega)]
        · show some Error.OUT_OF_RANGE = _
          rw [if_pos ⟨Nat.succ_pos _, by omega⟩]
      · have c2 : vm.registers.I + i < 4096 := Nat.not_le.mp c
        rw [if_neg c]
        refine ⟨fun a => ?_, ?_⟩
        · show setAt st.1.memory (vm.registers.I + i) (vm.registers.V i) a = _
          rw [setAt_apply]
          by_cases ca : a = vm.registers.I + i
          · rw [if_pos ca, if_pos (by omega), ca, Nat.add_sub_cancel_left]
          · rw [if_neg ca, hP.1 a]
            by_cases cb : vm.registers.I ≤ a ∧ a < vm.registers.I + i ∧ a < 4096
            · rw [if_pos cb, if_pos ⟨cb.1, by omega, cb.2.2⟩]
            · rw [if_neg cb, if_neg (by omega)]
        · show st.2 = _
          rw [hP.2, if_neg (by omega), if_neg (by omega)])
  have key1 := inv.1
  have key2 : (forLoop 0 (opcode.X + 1)
      (fun i (st : RAM × ErrorCode) =>
        st.1.writeByte (u16 (vm.registers.I + i)) (vm.registers.V i) st.2)
      (vm.ram, none)).2 =
      if vm.registers.I + (opcode.X + 1) > 4096 then some Error.OUT_OF_RANGE else none := by
    rw [inv.2]
    by_cases c : vm.registers.I + (opcode.X + 1) > 4096
    · rw [if_pos ⟨Nat.succ_pos _, c⟩, if_pos c]
    · rw [if_neg (fun x => c x.2), if_neg c]
  unfold VM.storeRegisters
  dsimp only
  refine ⟨fun a => ?_, ?_, ?_, rfl⟩
  · rw [key1 a]
    by_cases ca : vm.registers.I ≤ a ∧ a ≤ vm.registers.I + opcode.X ∧ a < 4096
    · rw [if_pos ca, if_pos ⟨ca.1, by omega, ca.2.2⟩]
    · rw [if_neg ca, if_neg (by omega)]
  · rw [key2]
    by_cases c : vm.registers.I + (opcode.X + 1) > 4096
    · rw [if_pos c]
      exact ⟨fun _ => by omega, fun _ => rfl⟩
    · rw [if_neg c]
      exact ⟨fun e => Option.noConfusion e, fun e => by omega⟩
  · rw [key2]
    by_cases c : vm.registers.I + (opcode.X + 1) > 4096
    · rw [if_pos c]
      exact ⟨fun e => Option.noConfusion e, fun e => by omega⟩
    · rw [if_neg c]
      exact ⟨fun _ => by omega, fun _ => rfl⟩

/-- C35, the divergence: with `I = 0xFFFF`, `F155` reports `OUT_OF_RANGE` for
the address `0xFFFF` and then stores `V1` at the address 0, the 16-bit wrap of
`I + 1`, a cell outside `I..I+X`; and `F033` stores its tens and units digits
at the addresses 0 and 1. -/
theorem store_wraps_to_address_zero :
    ((VM.withV0V1 123 7).setI 0xFFFF).ram.memory 0 = 0 ∧
    ((VM.withV0V1 123 7).setI 0xFFFF).ram.memory 1 = 0 ∧
    (VM.executeOpcode (Env.mk 0 [] 5 10 80) ((VM.withV0V1 123 7).setI 0xFFFF)
        (Opcode.decode 0xF155) none).map
      (fun res => (res.1.ram.memory 0, res.2)) = some (7, some Error.OUT_OF_RANGE) ∧
    (VM.executeOpcode (Env.mk 0 [] 5 10 80) ((VM.withV0V1 123 7).setI 0xFFFF)
        (Opcode.decode 0xF033) none).map
      (fun res => (res.1.ram.memory 0, res.1.ram.memory 1, res.2)) =
        some (2, 3, some Error.OUT_OF_RANGE) := by
  decide

/-! ## Key tests: `EX9E` and `EXA1` (C34) -/

/-- C34, the divergence: with `V0 = 16` the instructions `E09E` and `E0A1` test
the cell 16 of the key snapshot, one past its 16 entries: two machines whose
snapshots agree on the entries 0..15 and differ in the cell 16 are taken to
different values of `pc`. Exactly one of the two instructions skips, whatever
the cell holds. -/
theorem key_test_reads_past_snapshot :
    (VM.withV0V1 16 0).registers.V 0 = 16 ∧
    (∀ i, i < 16 → ({ VM.withV0V1 16 0 with keyPressed := fun i => decide (i = 16) } : VM).keyPressed i
      = (VM.withV0V1 16 0).keyPressed i) ∧
    (VM.executeOpcode (Env.mk 0 [] 5 10 80) (VM.withV0V1 16 0)
        (Opcode.decode 0xE09E) none).map (fun res => (res.1.registers.pc, res.2)) =
      some ((VM.withV0V1 16 0).registers.pc, none) ∧
    (VM.executeOpcode (Env.mk 0 [] 5 10 80)
        { VM.withV0V1 16 0 with keyPressed := fun i => decide (i = 16) }
        (Opcode.decode 0xE09E) none).map (fun res => (res.1.registers.pc, res.2)) =
      some ((VM.withV0V1 16 0).registers.pc + 2, none) ∧
    (VM.executeOpcode (Env.mk 0 [] 5 10 80) (VM.withV0V1 16 0)
        (Opcode.decode 0xE0A1) none).map (fun res => (res.1.registers.pc, res.2)) =
      some ((VM.withV0V1 16 0).registers.pc + 2, none) ∧
    (VM.executeOpcode (Env.mk 0 [] 5 10 80)
        { VM.withV0V1 16 0 with keyPressed := fun i => decide (i = 16) }
        (Opcode.decode 0xE0A1) none).map (fun res => (res.1.registers.pc, res.2)) =
      some ((VM.withV0V1 16 0).registers.pc, none) := by
  refine ⟨by decide, fun i hi => ?_, by decide, by decide, by decide, by decide⟩
  show decide (i = 16) = false
  exact decide_eq_false (by omega)

/-! ## The key wait `FX0A` (C32) -/

/-- The timers only go down in `updateTimers`, and nothing else in the
registers changes. -/
theorem updateTimers_frame (vm : VM) :
    vm.updateTimers.registers.V = vm.registers.V ∧
    vm.updateTimers.registers.RPL = vm.registers.RPL ∧
    vm.updateTimers.registers.I = vm.registers.I ∧
    vm.updateTimers.registers.pc = vm.registers.pc ∧
    vm.updateTimers.registers.sp = vm.registers.sp ∧
    vm.updateTimers.registers.stack = vm.registers.stack ∧
    vm.updateTimers.registers.delay_timer ≤ vm.registers.delay_timer ∧
    vm.updateTimers.registers.sound_timer ≤ vm.registers.sound_timer ∧
    vm.updateTimers.ram = vm.ram := by
  have hs : ∀ t : Nat, t > 0 → sub8 t 1 ≤ t := by
    intro t ht
    unfold sub8
    omega
  unfold VM.updateTimers
  dsimp only
  split_ifs
  all_goals refine ⟨rfl, rfl, rfl, rfl, rfl, rfl, ?_, ?_, rfl⟩
  all_goals first
    | exact Nat.le_refl _
    | exact hs _ (by assumption)

/-- A host event leaves the registers other than the timers and the memory as
they were, and the timers do not go up. -/
theorem applyEvent_frame (vm : VM) (e : HostEvent) :
    (vm.applyEvent e).registers.V = vm.registers.V ∧
    (vm.applyEvent e).registers.RPL = vm.registers.RPL ∧
    (vm.applyEvent e).registers.I = vm.registers.I ∧
    (vm.applyEvent e).registers.pc = vm.registers.pc ∧
    (vm.applyEvent e).registers.sp = vm.registers.sp ∧
    (vm.applyEvent e).registers.stack = vm.registers.stack ∧
    (vm.applyEvent e).registers.delay_timer ≤ vm.registers.delay_timer ∧
    (vm.applyEvent e).registers.sound_timer ≤ vm.registers.sound_timer ∧
    (vm.applyEvent e).ram = vm.ram := by
  cases e with
  | frame k =>
    exact updateTimers_frame
      { vm with
        display := { vm.display with
          current_front_resolution := vm.display.next_front_resolution }
        cycle := 0 }
  | stop => exact ⟨rfl, rfl, rfl, rfl, rfl, rfl, Nat.le_refl _, Nat.le_refl _, rfl⟩

/-- The same for a list of host events. -/
theorem afterEvents_frame (events : List HostEvent) : ∀ vm : VM,
    (VM.afterEvents events vm).registers.V = vm.registers.V ∧
    (VM.afterEvents events vm).registers.RPL = vm.registers.RPL ∧
    (VM.afterEvents events vm).registers.I = vm.registers.I ∧
    (VM.afterEvents events vm).registers.pc = vm.registers.pc ∧
    (VM.afterEvents events vm).registers.sp = vm.registers.sp ∧
    (VM.afterEvents events vm).registers.stack = vm.registers.stack ∧
    (VM.afterEvents events vm).registers.delay_timer ≤ vm.registers.delay_timer ∧
    (VM.afterEvents events vm).registers.sound_timer ≤ vm.registers.sound_timer ∧
    (VM.afterEvents events vm).ram = vm.ram := by
  induction events with
  | nil => intro vm; exact ⟨rfl, rfl, rfl, rfl, rfl, rfl, Nat.le_refl _, Nat.le_refl _, rfl⟩
  | cons e rest ih =>
    intro vm
    have h1 := applyEvent_frame vm e
    have h2 := ih (vm.applyEvent e)
    exact ⟨h2.1.trans h1.1, h2.2.1.trans h1.2.1, h2.2.2.1.trans h1.2.2.1,
      h2.2.2.2.1.trans h1.2.2.2.1, h2.2.2.2.2.1.trans h1.2.2.2.2.1,
      h2.2.2.2.2.2.1.trans h1.2.2.2.2.2.1, h2.2.2.2.2.2.2.1.trans h1.2.2.2.2.2.2.1,
      h2.2.2.2.2.2.2.2.1.trans h1.2.2.2.2.2.2.2.1, h2.2.2.2.2.2.2.2.2.trans h1.2.2.2.2.2.2.2.2⟩

theorem afterEvents_cons (e : HostEvent) (rest : List HostEvent) (vm : VM) :
    VM.afterEvents (e :: rest) vm = VM.afterEvents rest (vm.applyEvent e) := rfl

theorem afterEvents_append (a b : List HostEvent) (vm : VM) :
    VM.afterEvents (a ++ b) vm = VM.afterEvents b (VM.afterEvents a vm) := by
  unfold VM.afterEvents
  rw [List.foldl_append]

/-- The key found by the scan of `FX0A` is one of the 16 keys and is pressed. -/
theorem firstPressed_some (vm : VM) (i : Nat) (h : vm.firstPressed = some i) :
    i < 16 ∧ vm.keyPressed i = true := by
  unfold VM.firstPressed at h
  have h1 := List.find?_some h
  have h2 := List.mem_of_find?_eq_some h
  rw [List.mem_range] at h2
  exact ⟨h2, h1⟩

/-- The inner loop of `FX0A` while the key is pressed and the machine runs:
it is still spinning when the events are used up, and otherwise goes on with
the machine as the next event leaves it. -/
theorem awaitRelease_pressed (i : Nat) (vm : VM) (hk : vm.keyPressed i = true)
    (hr : vm.running = true) :
    VM.awaitRelease i [] vm = none ∧
    ∀ e rest, VM.awaitRelease i (e :: rest) vm = VM.awaitRelease i rest (vm.applyEvent e) := by
  refine ⟨?_, fun e rest => ?_⟩
  · unfold VM.awaitRelease
    rw [hk, hr]
    rfl
  · conv_lhs => unfold VM.awaitRelease
    rw [hk, hr]
    rfl

/-- The inner loop of `FX0A`, when it is left: it has consumed the events
`mid`, the key was pressed and the machine running before each of them, and
now the key is released or the machine stopped. -/
theorem awaitRelease_spec (i : Nat) (evs : List HostEvent) : ∀ (vm : VM) res,
    VM.awaitRelease i evs vm = some res →
    ∃ mid, evs = mid ++ res.2 ∧ res.1 = VM.afterEvents mid vm ∧
      (∀ n, n < mid.length → (VM.afterEvents (mid.take n) vm).keyPressed i = true) ∧
      (res.1.keyPressed i && res.1.running) = false := by
  induction evs with
  | nil =>
    intro vm res h
    unfold VM.awaitRelease at h
    split_ifs at h with c
    cases h
    exact ⟨[], rfl, rfl, fun n hn => absurd hn (Nat.not_lt_zero n), by simpa using c⟩
  | cons e rest ih =>
    intro vm res h
    unfold VM.awaitRelease at h
    split_ifs at h with c
    · obtain ⟨mid, h1, h2, h3, h4⟩ := ih _ _ h
      refine ⟨e :: mid, by rw [h1]; rfl, h2, fun n hn => ?_, h4⟩
      cases n with
      | zero =>
        rw [Bool.and_eq_true] at c
        exact c.1
      | succ m =>
        exact h3 m (by simpa using hn)
    · cases h
      exact ⟨[], rfl, rfl, fun n hn => absurd hn (Nat.not_lt_zero n), by simpa using c⟩

/-- The instruction `FX0A` on a running machine with no key pressed: it is
still waiting when the events are used up, and otherwise goes on with the
machine as the next event leaves it. -/
theorem waitKey_idle (X : Nat) (vm : VM) (hr : vm.running = true)
    (hk : vm.firstPressed = none) :
    VM.waitKey X [] vm = none ∧
    ∀ e rest, VM.waitKey X (e :: rest) vm = VM.waitKey X rest (vm.applyEvent e) := by
  refine ⟨?_, fun e rest => ?_⟩
  · unfold VM.waitKey
    rw [hr, hk]
    rfl
  · conv_lhs => unfold VM.waitKey
    rw [hr, hk]
    rfl

/-- The instruction `FX0A` on a running machine that sees the key `i` pressed:
it waits for the release of that key and then stores `i`. -/
theorem waitKey_pressed (X : Nat) (evs : List HostEvent) (vm : VM) (i : Nat)
    (hr : vm.running = true) (hk : vm.firstPressed = some i) :
    VM.waitKey X evs vm =
      (VM.awaitRelease i evs vm).map (fun res => (res.1.setV X (u8 i), res.2)) := by
  cases evs with
  | nil =>
    unfold VM.waitKey
    rw [hr, hk]
    rfl
  | cons e rest =>
    conv_lhs => unfold VM.waitKey
    rw [hr, hk]
    rfl

/-- The instruction `FX0A`, when it completes on a machine that is still
running: it has consumed the events `pre`, before each of which no key was
pressed, then seen the key `i` pressed, consumed the events `mid`, before each
of which the key `i` was pressed, seen the key `i` released, and stored `i`. -/
theorem waitKey_spec (X : Nat) (evs : List HostEvent) : ∀ (vm : VM) res,
    VM.waitKey X evs vm = some res → res.1.running = true →
    ∃ i pre mid, i < 16 ∧ evs = pre ++ (mid ++ res.2) ∧
      (∀ n, n < pre.length → (VM.afterEvents (pre.take n) vm).firstPressed = none) ∧
      (VM.afterEvents pre vm).firstPressed = some i ∧
      (∀ n, n < mid.length →
        (VM.afterEvents (mid.take n) (VM.afterEvents pre vm)).keyPressed i = true) ∧
      (VM.afterEvents mid (VM.afterEvents pre vm)).keyPressed i = false ∧
      res.1 = (VM.afterEvents mid (VM.afterEvents pre vm)).setV X i := by
  have pressed : ∀ (evs : List HostEvent) (vm : VM) res (i : Nat), vm.running = true →
      vm.firstPressed = some i → VM.waitKey X evs vm = some res → res.1.running = true →
      ∃ mid, i < 16 ∧ evs = mid ++ res.2 ∧
        (∀ n, n < mid.length → (VM.afterEvents (mid.take n) vm).keyPressed i = true) ∧
        (VM.afterEvents mid vm).keyPressed i = false ∧
        res.1 = (VM.afterEvents mid vm).setV X i := by
    intro evs vm res i hr hk h hrun
    rw [waitKey_pressed X evs vm i hr hk] at h
    obtain ⟨a, ha, hres⟩ := Option.map_eq_some'.mp h
    obtain ⟨mid, h1, h2, h3, h4⟩ := awaitRelease_spec i evs vm a ha
    have hi := (firstPressed_some vm i hk).1
    subst hres
    have hrun2 : a.1.running = true := hrun
    rw [hrun2, Bool.and_true] at h4
    refine ⟨mid, hi, h1, h3, by rw [← h2]; exact h4, ?_⟩
    show a.1.setV X (u8 i) = _
    rw [u8_of_lt (by omega), h2]
  induction evs with
  | nil =>
    intro vm res h hrun
    by_cases hr : vm.running = true
    · rcases hk : vm.firstPressed with _ | i
      · rw [(waitKey_idle X vm hr hk).1] at h
        exact Option.noConfusion h
      · obtain ⟨mid, h1, h2, h3, h4, h5⟩ := pressed [] vm res i hr hk h hrun
        exact ⟨i, [], mid, h1, h2, fun n hn => absurd hn (Nat.not_lt_zero n), hk, h3, h4, h5⟩
    · rw [waitKey_not_running X [] vm (by simpa using hr)] at h
      cases h
      exact absurd hrun hr
  | cons e rest ih =>
    intro vm res h hrun
    by_cases hr : vm.running = true
    · rcases hk : vm.firstPressed with _ | i
      · rw [(waitKey_idle X vm hr hk).2 e rest] at h
        obtain ⟨i, pre, mid, h1, h2, h3, h4, h5, h6, h7⟩ := ih _ _ h hrun
        refine ⟨i, e :: pre, mid, h1, by rw [h2]; rfl, fun n hn => ?_, h4, h5, h6, h7⟩
        cases n with
        | zero => exact hk
        | succ m => exact h3 m (by simpa using hn)
      · obtain ⟨mid, h1, h2, h3, h4, h5⟩ := pressed (e :: rest) vm res i hr hk h hrun
        exact ⟨i, [], mid, h1, h2, fun n hn => absurd hn (Nat.not_lt_zero n), hk, h3, h4, h5⟩
    · rw [waitKey_not_running X (e :: rest) vm (by simpa using hr)] at h
      cases h
      exact absurd hrun hr

/-- The instruction `FX0A` is the wait `waitKey` on the host events of its
environment. -/
theorem execute_FX0A (env : Env) (vm : VM) (X : Nat) (hX : X < 16) (ec : ErrorCode) :
    VM.executeOpcode env vm (Opcode.decode (0xF000 + 256 * X + 0x0A)) ec =
      (VM.waitKey X env.events vm).map (fun res => (res.1, ec)) := by
  have d := decode_FXNN X 0x0A hX (by decide)
  rw [executeOpcode_categoryF _ _ _ _ d.1, VM.executeCategoryF, d.2.2, d.2.1]
  rfl

/-- C32, counterexample to the claim as stated: `F00A` on a running machine
whose delay timer holds 5, with a frame that reports the key 3 pressed and a
frame that reports it released, completes with the machine still running and
`V0 = 3`, and the delay timer holds 3: a register other than `VX` has
changed. -/
theorem wait_key_ages_timers :
    ({ VM.withProgram [] with
        registers := { Registers.initial with delay_timer := 5 } } : VM).registers.delay_timer
      = 5 ∧
    (VM.executeOpcode
        (Env.mk 0 [HostEvent.frame (fun i => decide (i = 3)), HostEvent.frame (fun _ => false)]
          5 10 80)
        { VM.withProgram [] with registers := { Registers.initial with delay_timer := 5 } }
        (Opcode.decode 0xF00A) none).map
      (fun res => (res.1.running, res.1.registers.V 0, res.1.registers.delay_timer, res.2)) =
        some (true, 3, 3, none) := by
  decide

/-- C32 as amended: `FX0A` has two-phase press-then-release semantics. On a
running machine the instruction is the wait `waitKey` over the host events.
While no key is reported pressed it does not complete and goes on with the next
snapshot, the general registers being as they were. Once the key `i` is seen
pressed it waits for the release of that same key: while the key is pressed
the wait is over only with a later snapshot. When it completes with the
machine still running, it has seen no key pressed before each event of `pre`,
then the key `i < 16` pressed before each event of `mid` and released after
them, `VX` holds `i`, and no other general register, nor `I`, `pc`, `sp`, the
stack, the RPL flags or the memory has changed; the two timers, aged by the
frames among the events, have not gone up. -/
theorem wait_key_two_phase (env : Env) (vm : VM) (X : Nat) (events : List HostEvent)
    (hX : X < 16) (hr : vm.running = true) :
    (∀ ec, VM.executeOpcode env vm (Opcode.decode (0xF000 + 256 * X + 0x0A)) ec =
      (VM.waitKey X env.events vm).map (fun res => (res.1, ec))) ∧
    (vm.firstPressed = none →
      VM.waitKey X [] vm = none ∧
      ∀ e rest, VM.waitKey X (e :: rest) vm = VM.waitKey X rest (vm.applyEvent e) ∧
        (vm.applyEvent e).registers.V = vm.registers.V) ∧
    (∀ i, vm.firstPressed = some i →
      VM.waitKey X events vm =
        (VM.awaitRelease i events vm).map (fun res => (res.1.setV X (u8 i), res.2)) ∧
      VM.awaitRelease i [] vm = none ∧
      ∀ e rest, VM.awaitRelease i (e :: rest) vm = VM.awaitRelease i rest (vm.applyEvent e)) ∧
    (∀ res, VM.waitKey X events vm = some res → res.1.running = true →
      ∃ i pre mid, i < 16 ∧ events = pre ++ (mid ++ res.2) ∧
        (∀ n, n < pre.length → (VM.afterEvents (pre.take n) vm).firstPressed = none) ∧
        (VM.afterEvents pre vm).firstPressed = some i ∧
        (∀ n, n < mid.length →
          (VM.afterEvents (mid.take n) (VM.afterEvents pre vm)).keyPressed i = true) ∧
        (VM.afterEvents mid (VM.afterEvents pre vm)).keyPressed i = false ∧
        res.1.registers.V X = i ∧
        (∀ j, j ≠ X → res.1.registers.V j = vm.registers.V j) ∧
        res.1.registers.RPL = vm.registers.RPL ∧
        res.1.registers.I = vm.registers.I ∧
        res.1.registers.pc = vm.registers.pc ∧
        res.1.registers.sp = vm.registers.sp ∧
        res.1.registers.stack = vm.registers.stack ∧
        res.1.registers.delay_timer ≤ vm.registers.delay_timer ∧
        res.1.registers.sound_timer ≤ vm.registers.sound_timer ∧
        res.1.ram = vm.ram) := by
  refine ⟨fun ec => execute_FX0A env vm X hX ec, fun hk => ?_, fun i hk => ?_,
    fun res h hrun => ?_⟩
  · have h := waitKey_idle X vm hr hk
    exact ⟨h.1, fun e rest => ⟨h.2 e rest, (applyEvent_frame vm e).1⟩⟩
  · have hp := awaitRelease_pressed i vm (firstPressed_some vm i hk).2 hr
    exact ⟨waitKey_pressed X events vm i hr hk, hp.1, hp.2⟩
  · obtain ⟨i, pre, mid, h1, h2, h3, h4, h5, h6, h7⟩ := waitKey_spec X events vm res h hrun
    have f := afterEvents_frame (pre ++ mid) vm
    rw [afterEvents_append] at f
    refine ⟨i, pre, mid, h1, h2, h3, h4, h5, h6, ?_, fun j hj => ?_, ?_, ?_, ?_, ?_, ?_, ?_,
      ?_, ?_⟩
    · rw [h7]
      exact setAt_same _ _ _
    · rw [h7]
      show setAt _ X i j = _
      rw [setAt_other _ _ _ _ hj, f.1]
    · rw [h7]; exact f.2.1
    · rw [h7]; exact f.2.2.1
    · rw [h7]; exact f.2.2.2.1
    · rw [h7]; exact f.2.2.2.2.1
    · rw [h7]; exact f.2.2.2.2.2.1
    · rw [h7]; exact f.2.2.2.2.2.2.1
    · rw [h7]; exact f.2.2.2.2.2.2.2.1
    · rw [h7]; exact f.2.2.2.2.2.2.2.2

/-- Witness of C32 as amended: `F00A` on the running machine as started, which
sees no key pressed, is still waiting when there is no further snapshot. -/
theorem wait_key_two_phase_witness :
    (0 : Nat) < 16 ∧ (VM.withProgram []).running = true ∧
    (VM.withProgram []).firstPressed = none ∧
    VM.waitKey 0 [] (VM.withProgram []) = none :=
  ⟨by decide, rfl, by decide,
   ((wait_key_two_phase (Env.mk 0 [] 5 10 80) (VM.withProgram []) 0 [] (by decide) rfl).2.1
      (by decide)).1⟩

/-! ## The cycle counter and the throttle (C31) -/

theorem updateTimers_target (vm : VM) : vm.updateTimers.target_cycles = vm.target_cycles := by
  unfold VM.updateTimers
  dsimp only
  split_ifs <;> rfl

theorem updateTimers_program_loaded (vm : VM) :
    vm.updateTimers.program_loaded = vm.program_loaded := by
  unfold VM.updateTimers
  dsimp only
  split_ifs <;> rfl

/-- A host event does not raise the cycle counter, resets it when it is a
frame, and leaves it alone when it is not; the target is not changed. -/
theorem applyEvent_cycle (vm : VM) (e : HostEvent) :
    (vm.applyEvent e).cycle ≤ vm.cycle ∧
    (vm.applyEvent e).target_cycles = vm.target_cycles ∧
    (Emulation.isFrame e = true → (vm.applyEvent e).cycle = 0) ∧
    (Emulation.isFrame e = false → (vm.applyEvent e).cycle = vm.cycle) := by
  cases e with
  | frame k =>
    have h0 : (vm.applyEvent (HostEvent.frame k)).cycle = 0 := by
      show (VM.updateTimers _).cycle = 0
      rw [updateTimers_cycle]
    refine ⟨by rw [h0]; exact Nat.zero_le _, ?_, fun _ => h0, fun c => ?_⟩
    · show (VM.updateTimers _).target_cycles = _
      rw [updateTimers_target]
    · exact absurd (show true = false from c) (by decide)
  | stop => exact ⟨Nat.le_refl _, rfl, fun c => absurd c (by decide), fun _ => rfl⟩

theorem awaitRelease_cycle (i : Nat) (evs : List HostEvent) : ∀ (vm : VM) res,
    VM.awaitRelease i evs vm = some res →
    res.1.cycle ≤ vm.cycle ∧ res.1.target_cycles = vm.target_cycles ∧
    (evs.any Emulation.isFrame = false → res.1.cycle = vm.cycle) := by
  induction evs with
  | nil =>
    intro vm res h
    unfold VM.awaitRelease at h
    split_ifs at h
    cases h
    exact ⟨Nat.le_refl _, rfl, fun _ => rfl⟩
  | cons e rest ih =>
    intro vm res h
    unfold VM.awaitRelease at h
    split_ifs at h
    · have h1 := ih _ _ h
      have h2 := applyEvent_cycle vm e
      refine ⟨h1.1.trans h2.1, h1.2.1.trans h2.2.1, fun hq => ?_⟩
      rw [List.any_cons, Bool.or_eq_false_iff] at hq
      rw [h1.2.2 hq.2, h2.2.2.2 hq.1]
    · cases h
      exact ⟨Nat.le_refl _, rfl, fun _ => rfl⟩

theorem waitKey_cycle (X : Nat) (evs : List HostEvent) : ∀ (vm : VM) res,
    VM.waitKey X evs vm = some res →
    res.1.cycle ≤ vm.cycle ∧ res.1.target_cycles = vm.target_cycles ∧
    (evs.any Emulation.isFrame = false → res.1.cycle = vm.cycle) := by
  induction evs with
  | nil =>
    intro vm res h
    unfold VM.waitKey at h
    split_ifs at h
    · cases h
      exact ⟨Nat.le_refl _, rfl, fun _ => rfl⟩
    · split at h
      · obtain ⟨a, ha, hres⟩ := Option.map_eq_some'.mp h
        rw [← hres]
        exact awaitRelease_cycle _ _ _ a ha
      · cases h
  | cons e rest ih =>
    intro vm res h
    unfold VM.waitKey at h
    split_ifs at h
    · cases h
      exact ⟨Nat.le_refl _, rfl, fun _ => rfl⟩
    · split at h
      · obtain ⟨a, ha, hres⟩ := Option.map_eq_some'.mp h
        rw [← hres]
        exact awaitRelease_cycle _ _ _ a ha
      · have h1 := ih _ _ h
        have h2 := applyEvent_cycle vm e
        refine ⟨h1.1.trans h2.1, h1.2.1.trans h2.2.1, fun hq => ?_⟩
        rw [List.any_cons, Bool.or_eq_false_iff] at hq
        rw [h1.2.2 hq.2, h2.2.2.2 hq.1]

theorem executeCategoryF_cycle (env : Env) (vm : VM) (opcode : Opcode) (ec : ErrorCode) :
    ∀ res, VM.executeCategoryF env vm opcode ec = some res →
      res.1.cycle ≤ vm.cycle ∧ res.1.target_cycles = vm.target_cycles ∧
      (env.events.any Emulation.isFrame = false → res.1.cycle = vm.cycle) := by
  unfold VM.executeCategoryF
  dsimp only
  refine ite_some_ind _ _ _ _ (fun _ r e => ?_) (fun _ => ?_)
  · cases e; exact ⟨Nat.le_refl _, rfl, fun _ => rfl⟩
  refine ite_some_ind _ _ _ _ (fun _ r e => ?_) (fun _ => ?_)
  · obtain ⟨a, ha, hres⟩ := Option.map_eq_some'.mp e
    rw [← hres]
    exact waitKey_cycle _ _ _ a ha
  iterate 10 refine ite_some_ind _ _ _ _ (fun _ r e => by cases e; exact ⟨Nat.le_refl _, rfl, fun _ => rfl⟩) (fun _ => ?_)
  intro r e
  cases e
  exact ⟨Nat.le_refl _, rfl, fun _ => rfl⟩

theorem executeCategory0_cycle (vm : VM) (opcode : Opcode) (ec : ErrorCode) :
    (vm.executeCategory0 opcode ec).1.cycle = vm.cycle ∧
    (vm.executeCategory0 opcode ec).1.target_cycles = vm.target_cycles := by
  unfold VM.executeCategory0
  split_ifs <;> exact ⟨rfl, rfl⟩

theorem executeCategory8_cycle (vm : VM) (opcode : Opcode) (ec : ErrorCode) :
    (vm.executeCategory8 opcode ec).1.cycle = vm.cycle ∧
    (vm.executeCategory8 opcode ec).1.target_cycles = vm.target_cycles := by
  unfold VM.executeCategory8
  dsimp only
  split_ifs <;> exact ⟨rfl, rfl⟩

theorem executeCategoryD_cycle (vm : VM) (opcode : Opcode) (ec : ErrorCode) :
    (vm.executeCategoryD opcode ec).1.cycle = vm.cycle ∧
    (vm.executeCategoryD opcode ec).1.target_cycles = vm.target_cycles := by
  unfold VM.executeCategoryD
  dsimp only
  split_ifs <;> exact ⟨rfl, rfl⟩

theorem executeCategoryE_cycle (vm : VM) (opcode : Opcode) (ec : ErrorCode) :
    (vm.executeCategoryE opcode ec).1.cycle = vm.cycle ∧
    (vm.executeCategoryE opcode ec).1.target_cycles = vm.target_cycles := by
  unfold VM.executeCategoryE
  split_ifs <;> exact ⟨rfl, rfl⟩

/-- No instruction raises the cycle counter or changes the target; only the
frames that pass while `FX0A` waits reset the counter. -/
theorem executeOpcode_cycle (env : Env) (vm : VM) (opcode : Opcode) (ec : ErrorCode) :
    ∀ res, VM.executeOpcode env vm opcode ec = some res →
      res.1.cycle ≤ vm.cycle ∧ res.1.target_cycles = vm.target_cycles ∧
      (env.events.any Emulation.isFrame = false → res.1.cycle = vm.cycle) := by
  have same : ∀ v : VM, v.cycle = vm.cycle ∧ v.target_cycles = vm.target_cycles →
      v.cycle ≤ vm.cycle ∧ v.target_cycles = vm.target_cycles ∧
      (env.events.any Emulation.isFrame = false → v.cycle = vm.cycle) :=
    fun v h => ⟨h.1.le, h.2, fun _ => h.1⟩
  unfold VM.executeOpcode
  refine ite_some_ind _ _ _ _ (fun _ r e => ?_) (fun _ => ?_)
  · cases e; exact same _ (executeCategory0_cycle vm opcode ec)
  refine ite_some_ind _ _ _ _ (fun _ r e => ?_) (fun _ => ?_)
  · cases e; exact same _ ⟨rfl, rfl⟩
  refine ite_some_ind _ _ _ _ (fun _ r e => ?_) (fun _ => ?_)
  · cases e; exact same _ ⟨rfl, rfl⟩
  refine ite_some_ind _ _ _ _ (fun _ r e => ?_) (fun _ => ?_)
  · cases e; exact same _ (by unfold VM.executeCategory3; split_ifs <;> exact ⟨rfl, rfl⟩)
  refine ite_some_ind _ _ _ _ (fun _ r e => ?_) (fun _ => ?_)
  · cases e; exact same _ (by unfold VM.executeCategory4; split_ifs <;> exact ⟨rfl, rfl⟩)
  refine ite_some_ind _ _ _ _ (fun _ r e => ?_) (fun _ => ?_)
  · cases e; exact same _ (by unfold VM.executeCategory5; split_ifs <;> exact ⟨rfl, rfl⟩)
  refine ite_some_ind _ _ _ _ (fun _ r e => ?_) (fun _ => ?_)
  · cases e; exact same _ ⟨rfl, rfl⟩
  refine ite_some_ind _ _ _ _ (fun _ r e => ?_) (fun _ => ?_)
  · cases e; exact same _ ⟨rfl, rfl⟩
  refine ite_some_ind _ _ _ _ (fun _ r e => ?_) (fun _ => ?_)
  · cases e; exact same _ (executeCategory8_cycle vm opcode ec)
  refine ite_some_ind _ _ _ _ (fun _ r e => ?_) (fun _ => ?_)
  · cases e; exact same _ (by unfold VM.executeCategory9; split_ifs <;> exact ⟨rfl, rfl⟩)
  refine ite_some_ind _ _ _ _ (fun _ r e => ?_) (fun _ => ?_)
  · cases e; exact same _ ⟨rfl, rfl⟩
  refine ite_some_ind _ _ _ _ (fun _ r e => ?_) (fun _ => ?_)
  · cases e; exact same _ ⟨rfl, rfl⟩
  refine ite_some_ind _ _ _ _ (fun _ r e => ?_) (fun _ => ?_)
  · cases e; exact same _ ⟨rfl, rfl⟩
  refine ite_some_ind _ _ _ _ (fun _ r e => ?_) (fun _ => ?_)
  · cases e; exact same _ (executeCategoryD_cycle vm opcode ec)
  refine ite_some_ind _ _ _ _ (fun _ r e => ?_) (fun _ => ?_)
  · cases e; exact same _ (executeCategoryE_cycle vm opcode ec)
  refine ite_some_ind _ _ _ _ (fun _ r e => ?_) (fun _ => ?_)
  · exact executeCategoryF_cycle env vm opcode ec r e
  · intro r e
    cases e
    exact same _ ⟨rfl, rfl⟩

/-- One iteration of the loop of `VM::run` up to `_cycle++`: the target is
kept; either `run` has returned, the machine is stopped and the counter is not
above what it was, or the counter is one more than a value `c` not above what
it was, which is what it was when no frame has passed during the
instruction. -/
theorem fetchExecute_cycle (env : Env) (vm : VM) (res : VM × ErrorCode × Bool)
    (h : VM.fetchExecute env vm = some res) :
    res.1.target_cycles = vm.target_cycles ∧
    ((res.2.2 = true ∧ res.1.running = false ∧ res.1.cycle ≤ vm.cycle) ∨
     (res.2.2 = false ∧ ∃ c, c ≤ vm.cycle ∧ res.1.cycle = u16 (c + 1) ∧
        (env.events.any Emulation.isFrame = false → c = vm.cycle))) := by
  unfold VM.fetchExecute at h
  dsimp only at h
  split_ifs at h with c1
  · cases h
    exact ⟨rfl, Or.inl ⟨rfl, rfl, Nat.le_refl _⟩⟩
  · split at h
    · cases h
    · rename_i r hr
      have hc := executeOpcode_cycle env _ _ _ r hr
      split_ifs at h with c2
      · cases h
        exact ⟨hc.2.1, Or.inl ⟨rfl, rfl, hc.1⟩⟩
      · cases h
        exact ⟨hc.2.1, Or.inr ⟨rfl, r.1.cycle, hc.1, rfl, hc.2.2⟩⟩

/-- One action keeps the invariant of the throttle: the counter is not above
the target, and it is below the target whenever the worker is about to execute
an instruction. -/
theorem step_invariant (s s1 : Emulation) (a : Action) (h : s.step a = some s1)
    (ht : 1 ≤ s.vm.target_cycles) (h1 : s.vm.cycle ≤ s.vm.target_cycles)
    (h2 : s.waiting = false → s.vm.running = true → s.vm.cycle < s.vm.target_cycles) :
    s1.vm.target_cycles = s.vm.target_cycles ∧ s1.vm.cycle ≤ s1.vm.target_cycles ∧
    (s1.waiting = false → s1.vm.running = true → s1.vm.cycle < s1.vm.target_cycles) := by
  cases a with
  | instruction env =>
    unfold Emulation.step at h
    dsimp only at h
    split_ifs at h with c
    rw [Bool.and_eq_true, Bool.and_eq_true] at c
    have hw : s.waiting = false := by simpa using c.1.1
    have hlt := h2 hw c.1.2
    split at h
    · cases h
    · rename_i res hres
      cases h
      have fe := fetchExecute_cycle env s.vm res hres
      refine ⟨fe.1, ?_, ?_⟩
      · show res.1.cycle ≤ res.1.target_cycles
        rw [fe.1]
        rcases fe.2 with ⟨_, _, hle⟩ | ⟨_, c0, hc0, hcy, _⟩
        · omega
        · have hu : u16 (c0 + 1) ≤ c0 + 1 := Nat.mod_le _ _
          omega
      · intro hw1 hr1
        have hw2 : (!res.2.2 && (decide (res.1.cycle ≥ res.1.target_cycles) && res.1.running))
            = false := hw1
        have hr2 : res.1.running = true := hr1
        rcases fe.2 with ⟨_, hstop, _⟩ | ⟨hret, _, _, _, _⟩
        · rw [hstop] at hr2
          exact absurd hr2 Bool.false_ne_true
        · rw [hret, hr2] at hw2
          simp only [Bool.not_false, Bool.and_true, Bool.true_and, decide_eq_false_iff_not]
            at hw2
          show res.1.cycle < res.1.target_cycles
          omega
  | host e =>
    have hs : s1 = { s with vm := s.vm.applyEvent e } := by
      have h3 : some ({ s with vm := s.vm.applyEvent e } : Emulation) = some s1 := h
      cases h3
      rfl
    subst hs
    have hc := applyEvent_cycle s.vm e
    refine ⟨hc.2.1, ?_, fun hw hr => ?_⟩
    · show (s.vm.applyEvent e).cycle ≤ (s.vm.applyEvent e).target_cycles
      rw [hc.2.1]
      exact hc.1.trans h1
    · show (s.vm.applyEvent e).cycle < (s.vm.applyEvent e).target_cycles
      rw [hc.2.1]
      cases e with
      | frame k =>
        rw [hc.2.2.1 rfl]
        omega
      | stop => exact absurd (show false = true from hr) Bool.false_ne_true
  | resume =>
    unfold Emulation.step at h
    dsimp only at h
    split_ifs at h with c
    cases h
    rw [Bool.and_eq_true, Bool.or_eq_true] at c
    refine ⟨rfl, h1, fun _ hr => ?_⟩
    have hr2 : s.vm.running = true := hr
    rcases c.2 with c2 | c2
    · rw [hr2] at c2
      exact absurd c2 (by decide)
    · have c3 : s.vm.cycle = 0 := of_decide_eq_true c2
      show s.vm.cycle < s.vm.target_cycles
      omega

/-- Every list of actions keeps the invariant of the throttle. -/
theorem steps_invariant (actions : List Action) : ∀ (s s1 : Emulation),
    s.steps actions = some s1 → 1 ≤ s.vm.target_cycles → s.vm.cycle ≤ s.vm.target_cycles →
    (s.waiting = false → s.vm.running = true → s.vm.cycle < s.vm.target_cycles) →
    s1.vm.target_cycles = s.vm.target_cycles ∧ s1.vm.cycle ≤ s1.vm.target_cycles ∧
    (s1.waiting = false → s1.vm.running = true → s1.vm.cycle < s1.vm.target_cycles) := by
  induction actions with
  | nil =>
    intro s s1 h _ h1 h2
    have h3 : some s = some s1 := h
    cases h3
    exact ⟨rfl, h1, h2⟩
  | cons a rest ih =>
    intro s s1 h ht h1 h2
    unfold Emulation.steps at h
    split at h
    · cases h
    · rename_i s2 hs2
      have i1 := step_invariant s s2 a hs2 ht h1 h2
      have i2 := ih s2 s1 h (by rw [i1.1]; exact ht) i1.2.1 i1.2.2
      exact ⟨i2.1.trans i1.1, i2.2.1, i2.2.2⟩

theorem budget_le_rest (s : Emulation) : s.budget ≤ s.vm.target_cycles - s.vm.cycle := by
  unfold Emulation.budget
  split_ifs <;> omega

theorem budget_le (s : Emulation) : s.budget ≤ s.vm.target_cycles :=
  (budget_le_rest s).trans (Nat.sub_le _ _)

/-- One action without a frame uses up the budget: an instruction takes one
from it, and nothing adds to it. -/
theorem step_budget (s s1 : Emulation) (a : Action) (h : s.step a = some s1)
    (hfree : Emulation.hasFrame a = false) (h16 : s.vm.target_cycles < 65536)
    (h2 : s.waiting = false → s.vm.running = true → s.vm.cycle < s.vm.target_cycles) :
    s1.budget + (if Emulation.isInstruction a = true then 1 else 0) ≤ s.budget := by
  cases a with
  | instruction env =>
    have hfree2 : env.events.any Emulation.isFrame = false := hfree
    unfold Emulation.step at h
    dsimp only at h
    split_ifs at h with c
    rw [Bool.and_eq_true, Bool.and_eq_true] at c
    have hw : s.waiting = false := by simpa using c.1.1
    have hlt := h2 hw c.1.2
    have hb : s.budget = s.vm.target_cycles - s.vm.cycle := by
      unfold Emulation.budget
      rw [if_pos c.1.2, if_neg (fun x => by rw [hw] at x; exact absurd x.1 Bool.false_ne_true)]
    split at h
    · cases h
    · rename_i res hres
      cases h
      have fe := fetchExecute_cycle env s.vm res hres
      have hi : (if Emulation.isInstruction (Action.instruction env) = true then 1 else 0)
          = 1 := rfl
      rw [hb, hi]
      rcases fe.2 with ⟨_, hstop, _⟩ | ⟨_, c0, _, hcy, hsame⟩
      · have hz : Emulation.budget
            { vm := res.1
              waiting := !res.2.2 &&
                (decide (res.1.cycle ≥ res.1.target_cycles) && res.1.running) } = 0 := by
          unfold Emulation.budget
          rw [if_neg (by show ¬ res.1.running = true; rw [hstop]; exact Bool.false_ne_true)]
        rw [hz]
        omega
      · have hc0 := hsame hfree2
        have hcy2 : res.1.cycle = s.vm.cycle + 1 := by
          rw [hcy, hc0, u16_of_lt (by omega)]
        have hle : Emulation.budget
            { vm := res.1
              waiting := !res.2.2 &&
                (decide (res.1.cycle ≥ res.1.target_cycles) && res.1.running) } ≤
            res.1.target_cycles - res.1.cycle := budget_le_rest _
        have e : res.1.target_cycles - res.1.cycle =
            s.vm.target_cycles - (s.vm.cycle + 1) := by rw [fe.1, hcy2]
        rw [e] at hle
        omega
  | host e =>
    have hs : s1 = { s with vm := s.vm.applyEvent e } := by
      have h3 : some ({ s with vm := s.vm.applyEvent e } : Emulation) = some s1 := h
      cases h3
      rfl
    subst hs
    cases e with
    | frame k => exact absurd (show true = false from hfree) (by decide)
    | stop =>
      have hz : Emulation.budget { s with vm := s.vm.applyEvent HostEvent.stop } = 0 := by
        unfold Emulation.budget
        rw [if_neg (by show ¬ false = true; exact Bool.false_ne_true)]
      have hi : (if Emulation.isInstruction (Action.host HostEvent.stop) = true then 1 else 0)
          = 0 := rfl
      rw [hz, hi]
      exact Nat.zero_le _
  | resume =>
    unfold Emulation.step at h
    dsimp only at h
    split_ifs at h with c
    cases h
    rw [Bool.and_eq_true, Bool.or_eq_true] at c
    have hi : (if Emulation.isInstruction Action.resume = true then 1 else 0) = 0 := rfl
    rw [hi, Nat.add_zero]
    unfold Emulation.budget
    by_cases hr : s.vm.running = true
    · rw [if_pos hr, if_pos hr]
      rcases c.2 with c2 | c2
      · rw [hr] at c2
        exact absurd c2 (by decide)
      · have c3 : s.vm.cycle = 0 := of_decide_eq_true c2
        rw [if_neg (fun x => x.2 c3), if_neg (fun x => x.2 c3)]
    · rw [if_neg hr, if_neg hr]

/-- A list of actions without a frame holds no more instructions than the
budget allows. -/
theorem steps_budget (actions : List Action) : ∀ (s s1 : Emulation),
    s.steps actions = some s1 → (∀ a ∈ actions, Emulation.hasFrame a = false) →
    1 ≤ s.vm.target_cycles → s.vm.target_cycles < 65536 →
    s.vm.cycle ≤ s.vm.target_cycles →
    (s.waiting = false → s.vm.running = true → s.vm.cycle < s.vm.target_cycles) →
    Emulation.instructions actions ≤ s.budget := by
  induction actions with
  | nil =>
    intro s s1 _ _ _ _ _ _
    exact Nat.zero_le _
  | cons a rest ih =>
    intro s s1 h hfree ht h16 h1 h2
    unfold Emulation.steps at h
    split at h
    · cases h
    · rename_i s2 hs2
      have i1 := step_invariant s s2 a hs2 ht h1 h2
      have b1 := step_budget s s2 a hs2 (hfree a (List.mem_cons_self _ _)) h16 h2
      have b2 := ih s2 s1 h (fun x hx => hfree x (List.mem_cons_of_mem _ hx))
        (by rw [i1.1]; exact ht) (by rw [i1.1]; exact h16) i1.2.1 i1.2.2
      have hcount : Emulation.instructions (a :: rest) =
          Emulation.instructions rest + (if Emulation.isInstruction a = true then 1 else 0) :=
        List.countP_cons _ _ _
      rw [hcount]
      omega

/-- C31: cycle throttling bounds the work per frame. In the transition system
of the two threads, started on a machine whose cycle counter is below its
target (as it is for the machine as constructed, whose counter is 0, whenever
the target is at least 1), every state reached keeps the cycle counter at or
below `target_cycles`, and the target as it was; from such a state every run of
actions that holds no frame tick holds at most `target_cycles` instructions;
a worker that waits executes no instruction; and it leaves the wait only when
the counter is 0 or the machine is stopped. -/
theorem throttle_bounds_cycles (vm : VM) (actions : List Action)
    (ht : 1 ≤ vm.target_cycles) (h16 : vm.target_cycles < 65536)
    (hc : vm.cycle < vm.target_cycles) :
    ∀ s, (Emulation.start vm).steps actions = some s →
      s.vm.cycle ≤ vm.target_cycles ∧ s.vm.target_cycles = vm.target_cycles ∧
      (∀ more s2, (∀ a ∈ more, Emulation.hasFrame a = false) → s.steps more = some s2 →
        Emulation.instructions more ≤ vm.target_cycles) ∧
      (s.waiting = true → ∀ env, s.step (Action.instruction env) = none) ∧
      (∀ s2, s.step Action.resume = some s2 →
        s.waiting = true ∧ s2.waiting = false ∧ (s.vm.cycle = 0 ∨ s.vm.running = false)) := by
  intro s hs
  have inv := steps_invariant actions (Emulation.start vm) s hs ht (Nat.le_of_lt hc)
    (fun _ _ => hc)
  have e1 : s.vm.target_cycles = vm.target_cycles := inv.1
  refine ⟨by rw [← e1]; exact inv.2.1, e1, fun more s2 hfree hm => ?_, fun hw env => ?_,
    fun s2 h => ?_⟩
  · have b := steps_budget more s s2 hm hfree (by rw [e1]; exact ht) (by rw [e1]; exact h16)
      inv.2.1 inv.2.2
    have b2 := budget_le s
    omega
  · unfold Emulation.step
    dsimp only
    rw [hw]
    rfl
  · unfold Emulation.step at h
    dsimp only at h
    split_ifs at h with c
    cases h
    rw [Bool.and_eq_true, Bool.or_eq_true] at c
    refine ⟨c.1, rfl, ?_⟩
    rcases c.2 with c2 | c2
    · right
      simpa using c2
    · left
      exact of_decide_eq_true c2

/-- Witness of C31: the program `1200` (a jump to itself) with a target of 10
cycles per frame. After ten instructions the counter is at the target and the
worker waits; an eleventh instruction cannot take place; after a frame tick the
worker leaves the wait with the counter at 0. -/
theorem throttle_bounds_cycles_witness :
    1 ≤ (VM.withProgram [0x12, 0x00]).target_cycles ∧
    (VM.withProgram [0x12, 0x00]).target_cycles < 65536 ∧
    (VM.withProgram [0x12, 0x00]).cycle < (VM.withProgram [0x12, 0x00]).target_cycles ∧
    ((Emulation.start (VM.withProgram [0x12, 0x00])).steps
        (List.replicate 10 (Action.instruction (Env.mk 0 [] 5 10 80)))).map
      (fun s => (s.vm.cycle, s.waiting)) = some (10, true) ∧
    ((Emulation.start (VM.withProgram [0x12, 0x00])).steps
        (List.replicate 11 (Action.instruction (Env.mk 0 [] 5 10 80)))).isNone = true ∧
    ((Emulation.start (VM.withProgram [0x12, 0x00])).steps
        (List.replicate 10 (Action.instruction (Env.mk 0 [] 5 10 80)) ++
          [Action.host (HostEvent.frame (fun _ => false)), Action.resume])).map
      (fun s => (s.vm.cycle, s.waiting)) = some (0, false) ∧
    ∀ s, (Emulation.start (VM.withProgram [0x12, 0x00])).steps
        (List.replicate 10 (Action.instruction (Env.mk 0 [] 5 10 80))) = some s →
      s.vm.cycle ≤ (VM.withProgram [0x12, 0x00]).target_cycles :=
  ⟨by decide, by decide, by decide, by decide, by decide, by decide,
   fun s hs => (throttle_bounds_cycles (VM.withProgram [0x12, 0x00])
      (List.replicate 10 (Action.instruction (Env.mk 0 [] 5 10 80)))
      (by decide) (by decide) (by decide) s hs).1⟩

/-- The instructions `EX9E` and `EXA1` test the cell `VX` of the key snapshot,
the byte `VX` being used as the subscript as it is, and exactly one of them
skips. -/
theorem key_tests_complementary (env : Env) (vm : VM) (X : Nat) (hX : X < 16) :
    VM.executeOpcode env vm (Opcode.decode (0xE000 + 256 * X + 0x9E)) none =
      some (if vm.keyPressed (vm.registers.V X) = true then
        vm.setPC (u16 (vm.registers.pc + 2)) else vm, none) ∧
    VM.executeOpcode env vm (Opcode.decode (0xE000 + 256 * X + 0xA1)) none =
      some (if vm.keyPressed (vm.registers.V X) = true then vm
        else vm.setPC (u16 (vm.registers.pc + 2)), none) := by
  have c1 : (Opcode.decode (0xE000 + 256 * X + 0x9E)).category = 0xE := by
    rw [decode_category, u8_of_lt (by omega)]
    omega
  have x1 : (Opcode.decode (0xE000 + 256 * X + 0x9E)).X = X := by
    rw [decode_X]
    omega
  have n1 : (Opcode.decode (0xE000 + 256 * X + 0x9E)).NN = 0x9E := by
    rw [decode_NN]
    omega
  have c2 : (Opcode.decode (0xE000 + 256 * X + 0xA1)).category = 0xE := by
    rw [decode_category, u8_of_lt (by omega)]
    omega
  have x2 : (Opcode.decode (0xE000 + 256 * X + 0xA1)).X = X := by
    rw [decode_X]
    omega
  have n2 : (Opcode.decode (0xE000 + 256 * X + 0xA1)).NN = 0xA1 := by
    rw [decode_NN]
    omega
  constructor
  · rw [executeOpcode_categoryE _ _ _ _ c1, VM.executeCategoryE, n1, x1, if_pos rfl]
    by_cases k : vm.keyPressed (vm.registers.V X) = true
    · rw [if_pos k, if_pos k]
    · rw [if_neg k, if_neg k]
  · rw [executeOpcode_categoryE _ _ _ _ c2, VM.executeCategoryE, n2, x2,
      if_neg (by decide), if_pos rfl]
    by_cases k : vm.keyPressed (vm.registers.V X) = true
    · rw [k, if_pos rfl]
      rfl
    · have k2 : vm.keyPressed (vm.registers.V X) = false := by simpa using k
      rw [k2, if_neg Bool.false_ne_true]
      rfl

/-- A loop on a state with a log, seen through a projection that the body
respects, is the loop on the projected state. -/
theorem forLoop_proj {σ τ : Type} (p : τ → σ) (body : Nat → σ → σ) (body2 : Nat → τ → τ)
    (h : ∀ i t, p (body2 i t) = body i (p t)) (lo hi : Nat) (t : τ) :
    p (forLoop lo hi body2 t) = forLoop lo hi body (p t) := by
  by_cases hle : lo ≤ hi
  · exact forLoop_induct (fun k (st : τ) => p st = forLoop lo k body (p t)) lo hi body2 t hle
      (by show p t = _; rw [forLoop_empty _ _ _ _ (Nat.le_refl lo)])
      (fun i st h1 _ hP => by
        show p (body2 i st) = _
        rw [h, hP, forLoop_succ _ _ _ _ h1])
  · rw [forLoop_empty _ _ _ _ (by omega), forLoop_empty _ _ _ _ (by omega)]

/-- The column body with logged accesses does to the screen and to the
collision flag what `addSpriteColumn` does. -/
theorem addSpriteColumnTraced_fst (W H sw sb swd x y r c : Nat)
    (st : (Screen × Bool) × List (Nat × Nat)) :
    (Display.addSpriteColumnTraced W H sw sb swd x y r c st).1 =
      Display.addSpriteColumn W H sw sb swd x y r c st.1 := by
  obtain ⟨⟨s, coll⟩, log⟩ := st
  cases coll
  · rfl
  · show ((Display.setPixel s ((y + r) % H) ((x + c) % W)
        (xor (s ((y + r) % H) ((x + c) % W)) (Display.spriteBit sw sb swd c)),
        (true || (false && Display.spriteBit sw sb swd c))) : Screen × Bool) =
      (Display.setPixel s ((y + r) % H) ((x + c) % W)
        (xor (s ((y + r) % H) ((x + c) % W)) (Display.spriteBit sw sb swd c)),
        (true || (s ((y + r) % H) ((x + c) % W) && Display.spriteBit sw sb swd c)))
    rw [Bool.true_or, Bool.true_or]

/-- The line body with logged accesses does to the state of the line loop what
`addSpriteRow` does. -/
theorem addSpriteRowTraced_fst (W H : Nat) (sprite : Sprite) (x y r : Nat)
    (st : (Screen × Bool × Nat) × List Nat × List (Nat × Nat)) :
    (Display.addSpriteRowTraced W H sprite x y r st).1 =
      Display.addSpriteRow W H sprite x y r st.1 := by
  have hword : (if sprite.width = 16 then
        u16 ((sprite.data st.1.2.2 <<< 8) |||
          (if sprite.width = 16 then
            Display.readData sprite (st.1.2.2 + 1) (Display.readData sprite st.1.2.2 st.2.1).2
          else (0, (Display.readData sprite st.1.2.2 st.2.1).2)).1) else 0) =
      (if sprite.width = 16 then
        u16 ((sprite.data st.1.2.2 <<< 8) ||| sprite.data (st.1.2.2 + 1)) else 0) := by
    by_cases c : sprite.width = 16
    · rw [if_pos c, if_pos c, if_pos c]
      rfl
    · rw [if_neg c, if_neg c]
  have hcol := forLoop_proj
    (fun (t : (Screen × Bool) × List (Nat × Nat)) => t.1)
    (Display.addSpriteColumn W H sprite.width (sprite.data st.1.2.2)
      (if sprite.width = 16 then
        u16 ((sprite.data st.1.2.2 <<< 8) ||| sprite.data (st.1.2.2 + 1)) else 0) x y r)
    (Display.addSpriteColumnTraced W H sprite.width (sprite.data st.1.2.2)
      (if sprite.width = 16 then
        u16 ((sprite.data st.1.2.2 <<< 8) ||| sprite.data (st.1.2.2 + 1)) else 0) x y r)
    (fun c t => addSpriteColumnTraced_fst W H _ _ _ x y r c t) 0 sprite.width
    ((st.1.1, st.1.2.1), st.2.2)
  rw [addSpriteRow_eq]
  unfold Display.addSpriteRowTraced
  dsimp only
  rw [show (Display.readData sprite st.1.2.2 st.2.1).1 = sprite.data st.1.2.2 from rfl, hword]
  dsimp only at hcol
  rw [hcol]

/-- The logged run of `addSprite` computes what `addSprite` computes. -/
theorem addSpriteTraced_fst (d : Display) (sprite : Sprite) (x y : Nat) :
    (d.addSpriteTraced sprite x y).1 = d.addSprite sprite x y := by
  have h := forLoop_proj
    (fun (t : (Screen × Bool × Nat) × List Nat × List (Nat × Nat)) => t.1)
    (Display.addSpriteRow d.virtual_back_screen_width d.virtual_back_screen_height sprite x y)
    (Display.addSpriteRowTraced d.virtual_back_screen_width d.virtual_back_screen_height
      sprite x y)
    (fun r t => addSpriteRowTraced_fst _ _ sprite x y r t) 0 sprite.height
    ((d.virtual_back_screen, false, 0), [], [])
  unfold Display.addSpriteTraced Display.addSprite
  dsimp only at h ⊢
  rw [h]

/-- The subscripts of `data` logged by one line: the byte counter, and the
byte counter plus one when the sprite is 16 wide. -/
theorem addSpriteRowTraced_reads (W H : Nat) (sprite : Sprite) (x y r : Nat)
    (st : (Screen × Bool × Nat) × List Nat × List (Nat × Nat)) :
    (Display.addSpriteRowTraced W H sprite x y r st).2.1 =
      st.2.1 ++ (if sprite.width = 16 then [st.1.2.2, st.1.2.2 + 1] else [st.1.2.2]) := by
  unfold Display.addSpriteRowTraced Display.readData
  dsimp only
  by_cases c : sprite.width = 16
  · rw [if_pos c, if_pos c]
    dsimp only
    rw [List.append_assoc]
    rfl
  · rw [if_neg c, if_neg c]

/-- Every subscript of the screen logged by the column loop of one line is
inside the logical screen. -/
theorem addSpriteColumnTraced_cells (W H sw sb swd x y r : Nat) (hW : 0 < W) (hH : 0 < H)
    (st : (Screen × Bool) × List (Nat × Nat)) (n : Nat)
    (h : ∀ cell ∈ st.2, cell.1 < H ∧ cell.2 < W) :
    ∀ cell ∈ (forLoop 0 n (Display.addSpriteColumnTraced W H sw sb swd x y r) st).2,
      cell.1 < H ∧ cell.2 < W := by
  refine forLoop_induct
    (fun _ (t : (Screen × Bool) × List (Nat × Nat)) => ∀ cell ∈ t.2, cell.1 < H ∧ cell.2 < W)
    0 n _ st (Nat.zero_le _) h ?_
  intro c t _ _ hP cell hc
  have hnew : ((y + r) % H, (x + c) % W).1 < H ∧ ((y + r) % H, (x + c) % W).2 < W :=
    ⟨Nat.mod_lt _ hH, Nat.mod_lt _ hW⟩
  obtain ⟨⟨s, coll⟩, log⟩ := t
  cases coll
  · have hc2 : cell ∈ (log ++ [((y + r) % H, (x + c) % W)]) ++ [((y + r) % H, (x + c) % W)] :=
      hc
    rw [List.mem_append, List.mem_append, List.mem_singleton] at hc2
    rcases hc2 with (hc2 | hc2) | hc2
    · exact hP cell hc2
    · rw [hc2]; exact hnew
    · rw [hc2]; exact hnew
  · have hc2 : cell ∈ log ++ [((y + r) % H, (x + c) % W)] := hc
    rw [List.mem_append, List.mem_singleton] at hc2
    rcases hc2 with hc2 | hc2
    · exact hP cell hc2
    · rw [hc2]; exact hnew

/-- Every subscript of `data` that `addSprite` uses, for a sprite of at most 16
lines, is below the number of bytes of the sprite. -/
theorem addSpriteTraced_reads (d : Display) (sprite : Sprite) (x y : Nat)
    (hh : sprite.height ≤ 16) :
    ∀ k ∈ (d.addSpriteTraced sprite x y).2.1, k < Display.lineBytes sprite * sprite.height := by
  have inv := forLoop_induct
    (fun k (st : (Screen × Bool × Nat) × List Nat × List (Nat × Nat)) =>
      st.1.2.2 = Display.lineBytes sprite * k ∧
      ∀ j ∈ st.2.1, j < Display.lineBytes sprite * k)
    0 sprite.height
    (Display.addSpriteRowTraced d.virtual_back_screen_width d.virtual_back_screen_height
      sprite x y)
    ((d.virtual_back_screen, false, 0), [], []) (Nat.zero_le _)
    ⟨rfl, fun j hj => absurd hj (List.not_mem_nil j)⟩
    (by
      intro i st _ hi hP
      obtain ⟨hrow, hreads⟩ := hP
      refine ⟨?_, fun j hj => ?_⟩
      · rw [addSpriteRowTraced_fst, addSpriteRow_eq]
        show u8 ((if sprite.width = 16 then u8 (st.1.2.2 + 1) else st.1.2.2) + 1) = _
        rw [hrow]
        exact data_row_next sprite i (by omega)
      · rw [addSpriteRowTraced_reads, List.mem_append] at hj
        rcases hj with hj | hj
        · have := hreads j hj
          have hm : Display.lineBytes sprite * i ≤ Display.lineBytes sprite * (i + 1) :=
            Nat.mul_le_mul_left _ (Nat.le_succ i)
          omega
        · rw [hrow] at hj
          unfold Display.lineBytes at hj ⊢
          by_cases c : sprite.width = 16
          · rw [if_pos c] at hj ⊢
            rw [if_pos c] at hj
            simp only [List.mem_cons, List.mem_singleton, List.not_mem_nil, or_false] at hj
            omega
          · rw [if_neg c] at hj ⊢
            rw [if_neg c] at hj
            simp only [List.mem_singleton] at hj
            omega)
  exact inv.2

/-- Every subscript of the screen that `addSprite` uses is inside the logical
screen. -/
theorem addSpriteTraced_cells (d : Display) (sprite : Sprite) (x y : Nat)
    (hW : 0 < d.virtual_back_screen_width) (hH : 0 < d.virtual_back_screen_height) :
    ∀ cell ∈ (d.addSpriteTraced sprite x y).2.2,
      cell.1 < d.virtual_back_screen_height ∧ cell.2 < d.virtual_back_screen_width := by
  exact forLoop_induct
    (fun _ (st : (Screen × Bool × Nat) × List Nat × List (Nat × Nat)) =>
      ∀ cell ∈ st.2.2,
        cell.1 < d.virtual_back_screen_height ∧ cell.2 < d.virtual_back_screen_width)
    0 sprite.height
    (Display.addSpriteRowTraced d.virtual_back_screen_width d.virtual_back_screen_height
      sprite x y)
    ((d.virtual_back_screen, false, 0), [], []) (Nat.zero_le _)
    (fun cell hc => absurd hc (List.not_mem_nil cell))
    (fun i st _ _ hP =>
      addSpriteColumnTraced_cells _ _ _ _ _ x y i hW hH ((st.1.1, st.1.2.1), st.2.2) _ hP)

/-- Two loops whose bodies agree on the states that satisfy an invariant of
the first agree. -/
theorem forLoop_congr {σ : Type} (P : Nat → σ → Prop) (lo hi : Nat) (body body2 : Nat → σ → σ)
    (s : σ) (hle : lo ≤ hi) (h0 : P lo s)
    (hstep : ∀ i st, lo ≤ i → i < hi → P i st →
      body i st = body2 i st ∧ P (i + 1) (body i st)) :
    forLoop lo hi body s = forLoop lo hi body2 s := by
  have h := forLoop_induct (fun k (st : σ) => st = forLoop lo k body2 s ∧ P k st)
    lo hi body s hle
    ⟨by rw [forLoop_empty _ _ _ _ (Nat.le_refl lo)], h0⟩
    (fun i st h1 h2 hP => by
      obtain ⟨e, p⟩ := hP
      have hs := hstep i st h1 h2 p
      refine ⟨?_, hs.2⟩
      rw [forLoop_succ _ _ _ _ h1, ← e]
      exact hs.1)
  exact h.1

/-- The function `addSprite` uses the sprite data only below the number of
bytes of the sprite: two sprites of the same size, of at most 16 lines, whose
data agree there are drawn alike. -/
theorem addSprite_data_below (d : Display) (a b : Sprite) (x y : Nat)
    (hh : a.height ≤ 16) (hheight : a.height = b.height) (hwidth : a.width = b.width)
    (hdata : ∀ k, k < Display.lineBytes a * a.height → a.data k = b.data k) :
    d.addSprite a x y = d.addSprite b x y := by
  have hloop := forLoop_congr
    (fun k (st : Screen × Bool × Nat) => st.2.2 = Display.lineBytes a * k)
    0 a.height
    (Display.addSpriteRow d.virtual_back_screen_width d.virtual_back_screen_height a x y)
    (Display.addSpriteRow d.virtual_back_screen_width d.virtual_back_screen_height b x y)
    (d.virtual_back_screen, false, 0) (Nat.zero_le _) rfl
    (by
      intro i st _ hi hP
      have hlt : Display.lineBytes a * (i + 1) ≤ Display.lineBytes a * a.height :=
        Nat.mul_le_mul_left _ hi
      have hlb : Display.lineBytes a = if a.width = 16 then 2 else 1 := rfl
      have e0 : a.data st.2.2 = b.data st.2.2 := by
        apply hdata
        rw [hP]
        rw [hlb] at hlt ⊢
        split_ifs at hlt ⊢ <;> omega
      have e1 : (if a.width = 16 then
            u16 ((a.data st.2.2 <<< 8) ||| a.data (st.2.2 + 1)) else 0) =
          (if b.width = 16 then
            u16 ((b.data st.2.2 <<< 8) ||| b.data (st.2.2 + 1)) else 0) := by
        by_cases c : a.width = 16
        · have e2 : a.data (st.2.2 + 1) = b.data (st.2.2 + 1) := by
            apply hdata
            rw [hP]
            rw [hlb, if_pos c] at hlt ⊢
            omega
          rw [if_pos c, if_pos (hwidth ▸ c), e0, e2]
        · rw [if_neg c, if_neg (hwidth ▸ c)]
      refine ⟨?_, ?_⟩
      · rw [addSpriteRow_eq, addSpriteRow_eq, e1, e0, hwidth]
      · rw [addSpriteRow_eq]
        show u8 ((if a.width = 16 then u8 (st.2.2 + 1) else st.2.2) + 1) = _
        rw [hP]
        exact data_row_next a i (by omega))
  unfold Display.addSprite
  dsimp only
  rw [hloop, hheight]

/-- One logged column step keeps the log it was given, and changes no cell
whose subscript it has not logged. -/
theorem addSpriteColumnTraced_step (W H sw sb swd x y r c : Nat)
    (t : (Screen × Bool) × List (Nat × Nat)) :
    (∀ cell ∈ t.2, cell ∈ (Display.addSpriteColumnTraced W H sw sb swd x y r c t).2) ∧
    (∀ row col, (row, col) ∉ (Display.addSpriteColumnTraced W H sw sb swd x y r c t).2 →
      (Display.addSpriteColumnTraced W H sw sb swd x y r c t).1.1 row col = t.1.1 row col) := by
  obtain ⟨⟨s, coll⟩, log⟩ := t
  have hlog : ∀ cell, cell ∈ (Display.addSpriteColumnTraced W H sw sb swd x y r c
      ((s, coll), log)).2 ↔ (cell ∈ log ∨ cell = ((y + r) % H, (x + c) % W)) := by
    intro cell
    cases coll
    · show cell ∈ (log ++ [((y + r) % H, (x + c) % W)]) ++ [((y + r) % H, (x + c) % W)] ↔ _
      rw [List.mem_append, List.mem_append, List.mem_singleton]
      tauto
    · show cell ∈ log ++ [((y + r) % H, (x + c) % W)] ↔ _
      rw [List.mem_append, List.mem_singleton]
  refine ⟨fun cell hc => (hlog cell).mpr (Or.inl hc), fun row col hn => ?_⟩
  rw [hlog] at hn
  show Display.setPixel s ((y + r) % H) ((x + c) % W) _ row col = s row col
  rw [setPixel_apply, if_neg]
  intro h
  exact hn (Or.inr (by rw [h.1, h.2]))

/-- The logged column loop keeps the log it was given, and changes no cell
whose subscript it has not logged. -/
theorem addSpriteColumnTraced_frame (W H sw sb swd x y r : Nat)
    (st : (Screen × Bool) × List (Nat × Nat)) (n : Nat) :
    (∀ cell ∈ st.2,
      cell ∈ (forLoop 0 n (Display.addSpriteColumnTraced W H sw sb swd x y r) st).2) ∧
    (∀ row col,
      (row, col) ∉ (forLoop 0 n (Display.addSpriteColumnTraced W H sw sb swd x y r) st).2 →
      (forLoop 0 n (Display.addSpriteColumnTraced W H sw sb swd x y r) st).1.1 row col =
        st.1.1 row col) := by
  refine forLoop_induct
    (fun _ (t : (Screen × Bool) × List (Nat × Nat)) =>
      (∀ cell ∈ st.2, cell ∈ t.2) ∧
      (∀ row col, (row, col) ∉ t.2 → t.1.1 row col = st.1.1 row col))
    0 n _ st (Nat.zero_le _) ⟨fun _ h => h, fun _ _ _ => rfl⟩ ?_
  intro c t _ _ hP
  have hs := addSpriteColumnTraced_step W H sw sb swd x y r c t
  refine ⟨fun cell hc => hs.1 cell (hP.1 cell hc), fun row col hn => ?_⟩
  rw [hs.2 row col hn]
  exact hP.2 row col (fun h => hn (hs.1 _ h))

/-- The function `addSprite` changes no cell whose subscript is not in the log
of its accesses. -/
theorem addSpriteTraced_frame (d : Display) (sprite : Sprite) (x y : Nat) (row col : Nat)
    (h : (row, col) ∉ (d.addSpriteTraced sprite x y).2.2) :
    (d.addSprite sprite x y).1.virtual_back_screen row col = d.virtual_back_screen row col := by
  have inv := forLoop_induct
    (fun _ (st : (Screen × Bool × Nat) × List Nat × List (Nat × Nat)) =>
      ∀ r c, (r, c) ∉ st.2.2 → st.1.1 r c = d.virtual_back_screen r c)
    0 sprite.height
    (Display.addSpriteRowTraced d.virtual_back_screen_width d.virtual_back_screen_height
      sprite x y)
    ((d.virtual_back_screen, false, 0), [], []) (Nat.zero_le _)
    (fun _ _ _ => rfl)
    (fun i st _ _ hP r c hn => by
      have hf := addSpriteColumnTraced_frame d.virtual_back_screen_width
        d.virtual_back_screen_height sprite.width (Display.readData sprite st.1.2.2 st.2.1).1
        (if sprite.width = 16 then
          u16 (((Display.readData sprite st.1.2.2 st.2.1).1 <<< 8) |||
            (if sprite.width = 16 then
              Display.readData sprite (st.1.2.2 + 1)
                (Display.readData sprite st.1.2.2 st.2.1).2
            else (0, (Display.readData sprite st.1.2.2 st.2.1).2)).1) else 0)
        x y i ((st.1.1, st.1.2.1), st.2.2) sprite.width
      exact (hf.2 r c hn).trans (hP r c (fun hin => hn (hf.1 _ hin))))
  rw [← addSpriteTraced_fst]
  exact inv row col h

/-- C33: sprite drawing never indexes out of bounds. Whenever `DXYN` passes its
readability check, the instruction draws the sprite `drawnSprite`. In the run
of `addSprite` in which every array access records its subscript, which
computes what `addSprite` computes, every subscript `k` of the sprite data is
below `N` (below 32 for the 16x16 sprite), so that the byte read is at the
address `I + k` in `[I, I + N)` (or `[I, I + 32)`) and below 4096; and, the
logical size of the back buffer being 64x32 or 128x64, every subscript
`(wrap_y, wrap_x)` of the screen has a line below 64 and a column below 128,
for all `x` and `y`. Accordingly `addSprite` changes no cell whose subscript is
not in the log, leaves every cell with a line from 64 or a column from 128 as
it was, and draws the same whatever the memory holds outside `[I, I + N)` (or
`[I, I + 32)`). -/
theorem draw_accesses_in_bounds (vm : VM) (opcode : Opcode) (x y : Nat)
    (hN : opcode.N < 16) (hI : vm.registers.I < 65536)
    (hcheck : vm.ram.isSizeReadable vm.registers.I
      ((vm.drawnSprite opcode).height * (vm.drawnSprite opcode).width) = true)
    (hsize : (vm.display.virtual_back_screen_width = 64 ∧
        vm.display.virtual_back_screen_height = 32) ∨
      (vm.display.virtual_back_screen_width = 128 ∧
        vm.display.virtual_back_screen_height = 64)) :
    vm.executeCategoryD opcode none =
      (({ vm with display := (vm.display.addSprite (vm.drawnSprite opcode)
            (vm.registers.V opcode.X) (vm.registers.V opcode.Y)).1 } : VM).setV 0xF
        (if (vm.display.addSprite (vm.drawnSprite opcode)
            (vm.registers.V opcode.X) (vm.registers.V opcode.Y)).2 then 1 else 0), none) ∧
    (vm.display.addSpriteTraced (vm.drawnSprite opcode) x y).1 =
      vm.display.addSprite (vm.drawnSprite opcode) x y ∧
    (∀ k ∈ (vm.display.addSpriteTraced (vm.drawnSprite opcode) x y).2.1,
      vm.registers.I + k < vm.registers.I + (if opcode.N = 0x0 then 32 else opcode.N) ∧
      vm.registers.I + k < 4096) ∧
    (∀ cell ∈ (vm.display.addSpriteTraced (vm.drawnSprite opcode) x y).2.2,
      cell.1 < 64 ∧ cell.2 < 128) ∧
    (∀ row col, (row, col) ∉ (vm.display.addSpriteTraced (vm.drawnSprite opcode) x y).2.2 →
      (vm.display.addSprite (vm.drawnSprite opcode) x y).1.virtual_back_screen row col =
        vm.display.virtual_back_screen row col) ∧
    (∀ row col, 64 ≤ row ∨ 128 ≤ col →
      (vm.display.addSprite (vm.drawnSprite opcode) x y).1.virtual_back_screen row col =
        vm.display.virtual_back_screen row col) ∧
    (∀ ram : RAM,
      (∀ k, k < (if opcode.N = 0x0 then 32 else opcode.N) →
        ram.memory (vm.registers.I + k) = vm.ram.memory (vm.registers.I + k)) →
      vm.display.addSprite (({ vm with ram := ram } : VM).drawnSprite opcode) x y =
        vm.display.addSprite (vm.drawnSprite opcode) x y) := by
  have hsz : (vm.drawnSprite opcode).height * (vm.drawnSprite opcode).width =
      (if opcode.N = 0x0 then 16 else opcode.N) * (if opcode.N = 0x0 then 16 else 8) := rfl
  have hlt : vm.registers.I + (if opcode.N = 0x0 then 16 else opcode.N) *
      (if opcode.N = 0x0 then 16 else 8) < 4096 := by
    rw [hsz] at hcheck
    refine (isSizeReadable_iff vm.ram _ _ hI ?_).mp hcheck
    split_ifs <;> omega
  have hbytes : ∀ v : VM, Display.lineBytes (v.drawnSprite opcode) *
      (v.drawnSprite opcode).height = (if opcode.N = 0x0 then 32 else opcode.N) := by
    intro v
    show (if (if opcode.N = 0x0 then 16 else 8) = 16 then 2 else 1) *
      (if opcode.N = 0x0 then 16 else opcode.N) = _
    by_cases c : opcode.N = 0x0
    · simp only [c, if_true]
    · have e8 : (if (8 : Nat) = 16 then 2 else 1) = 1 := rfl
      simp only [c, if_false, e8]
      omega
  have hh : ∀ v : VM, (v.drawnSprite opcode).height ≤ 16 := by
    intro v
    show (if opcode.N = 0x0 then 16 else opcode.N) ≤ 16
    split_ifs <;> omega
  have hW : 0 < vm.display.virtual_back_screen_width := by rcases hsize with h | h <;> omega
  have hH : 0 < vm.display.virtual_back_screen_height := by rcases hsize with h | h <;> omega
  refine ⟨executeCategoryD_draws vm opcode hlt, addSpriteTraced_fst _ _ _ _,
    fun k hk => ?_, fun cell hc => ?_,
    fun row col h => addSpriteTraced_frame _ _ x y row col h,
    fun row col h => ?_, fun ram hram => ?_⟩
  · have h1 := addSpriteTraced_reads vm.display (vm.drawnSprite opcode) x y (hh vm) k hk
    rw [hbytes vm] at h1
    refine ⟨by omega, ?_⟩
    by_cases c : opcode.N = 0x0
    · rw [if_pos c] at h1 hlt
      rw [if_pos c] at hlt
      omega
    · rw [if_neg c] at h1 hlt
      rw [if_neg c] at hlt
      omega
  · have h2 := addSpriteTraced_cells vm.display (vm.drawnSprite opcode) x y hW hH cell hc
    rcases hsize with h | h <;> omega
  · exact addSprite_outside vm.display (vm.drawnSprite opcode) x y hW hH row col
      (by rcases hsize with e | e <;> rcases h with h | h <;> omega)
  · refine addSprite_data_below vm.display _ _ x y (hh _) rfl rfl (fun k hk => ?_)
    rw [hbytes] at hk
    exact hram k hk

/-- Witness of C33: `D012` with `I = 0x300` on the display as constructed, at
`x = 62`, `y = 31`: the subscripts 0 and 1 of the data are read, and the
columns 62, 63, 0, ..., 5 of the lines 31 and 0 are reached by wrapping. -/
theorem draw_accesses_in_bounds_witness :
    (Opcode.decode 0xD012).N < 16 ∧ ((VM.initial 10).setI 0x300).registers.I < 65536 ∧
    ((VM.initial 10).setI 0x300).ram.isSizeReadable ((VM.initial 10).setI 0x300).registers.I
      ((((VM.initial 10).setI 0x300).drawnSprite (Opcode.decode 0xD012)).height *
       (((VM.initial 10).setI 0x300).drawnSprite (Opcode.decode 0xD012)).width) = true ∧
    (((VM.initial 10).setI 0x300).display.addSpriteTraced
      (((VM.initial 10).setI 0x300).drawnSprite (Opcode.decode 0xD012)) 62 31).2.1 = [0, 1] ∧
    (((VM.initial 10).setI 0x300).display.addSpriteTraced
      (((VM.initial 10).setI 0x300).drawnSprite (Opcode.decode 0xD012)) 62 31).2.2.dedup =
      [(31, 62), (31, 63), (31, 0), (31, 1), (31, 2), (31, 3), (31, 4), (31, 5),
       (0, 62), (0, 63), (0, 0), (0, 1), (0, 2), (0, 3), (0, 4), (0, 5)] ∧
    (∀ cell ∈ (((VM.initial 10).setI 0x300).display.addSpriteTraced
        (((VM.initial 10).setI 0x300).drawnSprite (Opcode.decode 0xD012)) 62 31).2.2,
      cell.1 < 64 ∧ cell.2 < 128) :=
  ⟨by decide, by decide, by decide, by decide, by decide,
   (draw_accesses_in_bounds ((VM.initial 10).setI 0x300) (Opcode.decode 0xD012) 62 31
      (by decide) (by decide) (by decide) (Or.inl ⟨rfl, rfl⟩)).2.2.2.1⟩

end SuperChip8
